import Mathlib

/-! SPA POD filter (`spa/pod/filter.h`): a shallow embedding

The file embeds the three functions of `spa/include/spa/pod/filter.h`

* `spa_pod_choice_fix_default`
* `spa_pod_filter_prop`
* `spa_pod_filter_part` / `spa_pod_filter`

Source PODs are read through typed views (`Pod`, `Choice`): a pointer walk over
sibling PODs becomes recursion over a list, a `struct spa_pod_choice *` becomes
a `Choice` record.  Everything the filter writes goes through the builder, which
is kept at byte level: one growing byte buffer and a stack of open frames.
The headers `pod.h`, `iter.h`, `builder.h` and `compare.h` are not part of the
sources; what the filter needs from them is modelled from the
specification and marked as such.  The value comparator is a parameter
`cmp : type → value → value → Int` of every function that compares values.
-/

namespace Spa

/-- Raw memory: a list of bytes. -/
abbrev Bytes := List Nat

/-! ## Constants of `pod.h` and `errno.h` -/

/-- Modelled from the spec: choice kind `None` (enum `spa_choice_type` of the absent `pod.h`). -/
def SPA_CHOICE_None : Nat := 0
/-- Modelled from the spec: choice kind `Range` (absent `pod.h`). -/
def SPA_CHOICE_Range : Nat := 1
/-- Modelled from the spec: choice kind `Step` (absent `pod.h`). -/
def SPA_CHOICE_Step : Nat := 2
/-- Modelled from the spec: choice kind `Enum` (absent `pod.h`). -/
def SPA_CHOICE_Enum : Nat := 3
/-- Modelled from the spec: choice kind `Flags` (absent `pod.h`). -/
def SPA_CHOICE_Flags : Nat := 4

/-- Modelled from the spec: type tag of an `Int` POD (absent `type.h`). -/
def SPA_TYPE_Int : Nat := 4
/-- Modelled from the spec: type tag of a `Struct` POD (absent `type.h`). -/
def SPA_TYPE_Struct : Nat := 14
/-- Modelled from the spec: type tag of an `Object` POD (absent `type.h`). -/
def SPA_TYPE_Object : Nat := 15
/-- Modelled from the spec: type tag of a `Choice` POD (absent `type.h`). -/
def SPA_TYPE_Choice : Nat := 19

/-- Error number `EINVAL` of `errno.h`: the filter's "incompatible". -/
def EINVAL : Int := 22
/-- Error number `ENOTSUP` of `errno.h`: the filter's "unsupported combination". -/
def ENOTSUP : Int := 95

/-! ## Typed views of source PODs -/

/-- View of a `struct spa_pod_choice`: `body.type`, `body.flags`, the child
header (`child.type`, `child.size`) and the packed values, one entry per value
(`SPA_POD_CHOICE_N_VALUES` is the length of `values`). -/
structure Choice where
  kind : Nat
  flags : Nat
  childType : Nat
  childSize : Nat
  values : List Bytes
  deriving DecidableEq

/-- View of a POD.  `leaf` is any POD that is not a Struct, an Object or a
Choice (its body is kept as bytes); a property is a triple `(key, flags, value)`. -/
inductive Pod where
  | leaf (type : Nat) (body : Bytes)
  | choice (c : Choice)
  | struct (items : List Pod)
  | object (type id : Nat) (props : List (Nat × Nat × Pod))

/-- View of a `struct spa_pod_prop`. -/
structure PodProp where
  key : Nat
  flags : Nat
  value : Pod

/-- `SPA_POD_TYPE`: the type tag in the header. -/
def Pod.type : Pod → Nat
  | .leaf t _ => t
  | .choice _ => SPA_TYPE_Choice
  | .struct _ => SPA_TYPE_Struct
  | .object _ _ _ => SPA_TYPE_Object

/-! ## Binary layout (spec §3) -/

/-- A 32-bit field in host (little-endian) byte order. -/
def le32 (n : Nat) : Bytes :=
  [n % 256, n / 256 % 256, n / 65536 % 256, n / 16777216 % 256]

/-- Number of padding bytes that bring `n` to the next multiple of 8. -/
def pad8 (n : Nat) : Nat := (8 - n % 8) % 8

/-- A run of `n` zero bytes. -/
def zeros (n : Nat) : Bytes := List.replicate n 0

/-- Body bytes of a choice: kind, flags, child header (size, type), values. -/
def Choice.body (c : Choice) : Bytes :=
  le32 c.kind ++ le32 c.flags ++ le32 c.childSize ++ le32 c.childType ++ c.values.flatten

mutual
/-- `SPA_POD_BODY`: the body bytes of a POD (`SPA_POD_BODY_SIZE` is their number). -/
def Pod.body : Pod → Bytes
  | .leaf _ b => b
  | .choice c => c.body
  | .struct items => bodyItems items
  | .object t i ps => le32 t ++ le32 i ++ bodyProps ps
/-- The siblings of a Struct body: each POD with header, body and padding. -/
def bodyItems : List Pod → Bytes
  | [] => []
  | p :: ps =>
    le32 p.body.length ++ le32 p.type ++ p.body ++ zeros (pad8 p.body.length) ++ bodyItems ps
/-- The properties of an Object body: key, flags, value POD, padding. -/
def bodyProps : List (Nat × Nat × Pod) → Bytes
  | [] => []
  | (k, f, v) :: ps =>
    le32 k ++ le32 f ++ le32 v.body.length ++ le32 v.type ++ v.body
      ++ zeros (pad8 v.body.length) ++ bodyProps ps
end

/-- The `SPA_POD_SIZE(pod)` bytes at a POD pointer: header and body, no padding. -/
def Pod.bytes (p : Pod) : Bytes := le32 p.body.length ++ le32 p.type ++ p.body

/-- `SPA_POD_SIZE`: header plus body. -/
def Pod.size (p : Pod) : Nat := 8 + p.body.length

/-- The `SPA_POD_PROP_SIZE(p)` bytes at a property pointer: key, flags, value POD. -/
def PodProp.bytes (p : PodProp) : Bytes := le32 p.key ++ le32 p.flags ++ p.value.bytes

/-! ## Builder (modelled from the spec, §4.2) -/

/-- Modelled from the spec: an open container of the absent `builder.h`: the
offset of its header, whether it is a Choice, and for a Choice whether its
first value (which carries the child header) is still to be written. -/
structure Frame where
  start : Nat
  isChoice : Bool
  first : Bool
  deriving DecidableEq

/-- Modelled from the spec: the builder of the absent `builder.h`: one growing
buffer (the write offset is its length) and the stack of open frames, innermost
first. -/
structure Builder where
  data : Bytes
  frames : List Frame
  deriving DecidableEq

/-- The write offset of the builder. -/
def Builder.offset (b : Builder) : Nat := b.data.length

/-- Modelled from the spec: a checkpoint (`struct spa_pod_builder_state`):
write offset and frame-stack depth. -/
structure BuilderState where
  offset : Nat
  depth : Nat
  deriving DecidableEq

/-- Overwrite the bytes of `data` at `off` by `bs` (a store through a pointer
into the buffer). -/
def patch (data : Bytes) (off : Nat) (bs : Bytes) : Bytes :=
  data.take off ++ bs ++ data.drop (off + bs.length)

/-- Read the `n` bytes of `data` at `off`. -/
def slice (data : Bytes) (off n : Nat) : Bytes := (data.drop off).take n

/-- Read a 32-bit little-endian field of `data` at `off`. -/
def rd32 (data : Bytes) (off : Nat) : Nat :=
  data.getD off 0 + 256 * data.getD (off + 1) 0 + 65536 * data.getD (off + 2) 0
    + 16777216 * data.getD (off + 3) 0

/-- Modelled from the spec: `spa_pod_builder_raw` appends bytes and returns
their offset. -/
def spa_pod_builder_raw (b : Builder) (bs : Bytes) : Nat × Builder :=
  (b.offset, { b with data := b.data ++ bs })

/-- Modelled from the spec: `spa_pod_builder_raw_padded` appends bytes, then
padding up to the 8-byte boundary of their size. -/
def spa_pod_builder_raw_padded (b : Builder) (bs : Bytes) : Nat × Builder :=
  (b.offset, { b with data := b.data ++ bs ++ zeros (pad8 bs.length) })

/-- Modelled from the spec: `spa_pod_builder_prop` writes a property header
(key, flags); the value follows. -/
def spa_pod_builder_prop (b : Builder) (key flags : Nat) : Builder :=
  (spa_pod_builder_raw b (le32 key ++ le32 flags)).2

/-- Modelled from the spec: "begin container" for a Choice: reserves the POD
header and writes kind and flags; the child header comes with the first value. -/
def spa_pod_builder_push_choice (b : Builder) (kind flags : Nat) : Nat × Builder :=
  (b.offset,
   { data := b.data ++ le32 0 ++ le32 SPA_TYPE_Choice ++ le32 kind ++ le32 flags
     frames := { start := b.offset, isChoice := true, first := true } :: b.frames })

/-- Modelled from the spec: "begin container" for an Object with its type and id. -/
def spa_pod_builder_push_object (b : Builder) (type id : Nat) : Nat × Builder :=
  (b.offset,
   { data := b.data ++ le32 0 ++ le32 SPA_TYPE_Object ++ le32 type ++ le32 id
     frames := { start := b.offset, isChoice := false, first := false } :: b.frames })

/-- Modelled from the spec: "begin container" for a Struct. -/
def spa_pod_builder_push_struct (b : Builder) : Nat × Builder :=
  (b.offset,
   { data := b.data ++ le32 0 ++ le32 SPA_TYPE_Struct
     frames := { start := b.offset, isChoice := false, first := false } :: b.frames })

/-- Modelled from the spec: "write primitive" of a value with header
`(size, type)` and body `body`.  Inside a Choice the first value is written
with its header (the child header of the Choice), later ones as bare bodies;
elsewhere the POD is written whole and padded. -/
def spa_pod_builder_primitive (b : Builder) (type size : Nat) (body : Bytes) : Builder :=
  match b.frames with
  | f :: fs =>
    if f.isChoice then
      if f.first then
        { data := b.data ++ le32 size ++ le32 type ++ body
          frames := { f with first := false } :: fs }
      else { b with data := b.data ++ body }
    else (spa_pod_builder_raw_padded b (le32 size ++ le32 type ++ body)).2
  | [] => (spa_pod_builder_raw_padded b (le32 size ++ le32 type ++ body)).2

/-- Modelled from the spec: "end container": pops the innermost frame,
back-patches its size field with the body length and pads to the alignment
boundary.  With no open frame nothing happens. -/
def spa_pod_builder_pop (b : Builder) : Builder :=
  match b.frames with
  | [] => b
  | f :: fs =>
    let data := patch b.data f.start (le32 (b.data.length - f.start - 8))
    { data := data ++ zeros (pad8 data.length), frames := fs }

/-- Modelled from the spec: `checkpoint()` (`spa_pod_builder_get_state`). -/
def spa_pod_builder_get_state (b : Builder) : BuilderState :=
  { offset := b.offset, depth := b.frames.length }

/-- Modelled from the spec: `rollback(checkpoint)` (`spa_pod_builder_reset`):
truncates the buffer and the frame stack back to the checkpoint. -/
def spa_pod_builder_reset (b : Builder) (s : BuilderState) : Builder :=
  { data := b.data.take s.offset, frames := b.frames.drop (b.frames.length - s.depth) }

/-- Load the view of the `struct spa_pod_choice` at offset `nc` of a buffer. -/
def loadChoice (data : Bytes) (nc : Nat) : Choice :=
  let size := rd32 data (nc + 16)
  { kind := rd32 data (nc + 8)
    flags := rd32 data (nc + 12)
    childType := rd32 data (nc + 20)
    childSize := size
    values := (List.range ((rd32 data nc - 16) / size)).map
      (fun i => slice data (nc + 24 + i * size) size) }

/-- Store a choice view back at offset `nc`: only the kind field and the first
value are ever written by `spa_pod_choice_fix_default`, and only when they change. -/
def storeChoice (data : Bytes) (nc : Nat) (old new : Choice) : Bytes :=
  let data := if new.kind = old.kind then data else patch data (nc + 8) (le32 new.kind)
  if new.values.head? = old.values.head? then data
  else patch data (nc + 24) (new.values.headD [])

/-! ## Values of a property (`iter.h`) -/

/-- The outputs of `spa_pod_get_values`: the header of the value POD (`type`,
`size`), the values found at its body, and the choice kind. -/
structure Values where
  type : Nat
  size : Nat
  vals : List Bytes
  choice : Nat

/-- Modelled from the spec: `spa_pod_get_values` of the absent `iter.h`: a
Choice yields its child header, its values and its kind; any other POD is a
single value of kind `None`. -/
def spa_pod_get_values (pod : Pod) : Values :=
  match pod with
  | .choice c =>
    { type := c.childType, size := c.childSize, vals := c.values, choice := c.kind }
  | p => { type := p.type, size := p.body.length, vals := [p.body], choice := SPA_CHOICE_None }

/-! ## `spa_pod_choice_fix_default` (filter.h, lines 31-82) -/

/-- `memcpy(val, alt, size)`: the default value (index 0) becomes `alt`. -/
def Choice.setDefault (c : Choice) (alt : Bytes) : Choice :=
  { c with values := alt :: c.values.tail }

/-- The loop of the `SPA_CHOICE_Enum` case over the values at index `>= 1`:
stops at the first value equal to the default, otherwise keeps the first value
seen. -/
def enumBest (cmp : Nat → Bytes → Bytes → Int) (type : Nat) (val : Bytes) :
    List Bytes → Option Bytes → Option Bytes
  | [], best => best
  | alt :: rest, best =>
    if cmp type val alt = 0 then some alt
    else enumBest cmp type val rest (if best.isNone then some alt else best)

/-- The function `spa_pod_choice_fix_default`: returns the result code and the
choice as it stands afterwards. -/
def spa_pod_choice_fix_default (cmp : Nat → Bytes → Bytes → Int) (choice : Choice) :
    Int × Choice :=
  let nvals := choice.values.length
  let type := choice.childType
  let val := choice.values.headD []
  if choice.kind = SPA_CHOICE_None then (0, choice)
  else if choice.kind = SPA_CHOICE_Range ∨ choice.kind = SPA_CHOICE_Step then
    let c1 :=
      if 1 < nvals ∧ cmp type val (choice.values.getD 1 []) < 0 then
        choice.setDefault (choice.values.getD 1 [])
      else choice
    let c2 :=
      if 2 < nvals ∧ cmp type (c1.values.headD []) (c1.values.getD 2 []) > 0 then
        c1.setDefault (c1.values.getD 2 [])
      else c1
    (0, c2)
  else if choice.kind = SPA_CHOICE_Enum then
    let c1 :=
      match enumBest cmp type val choice.values.tail none with
      | some best => choice.setDefault best
      | none => choice
    let c2 := if nvals ≤ 1 then { c1 with kind := SPA_CHOICE_None } else c1
    (0, c2)
  else (0, choice)

/-- The call `spa_pod_choice_fix_default(nc)` on the choice at offset `nc` of the
builder's buffer. -/
def fixDefaultAt (cmp : Nat → Bytes → Bytes → Int) (b : Builder) (nc : Nat) : Builder :=
  let c := loadChoice b.data nc
  { b with data := storeChoice b.data nc c (spa_pod_choice_fix_default cmp c).2 }

/-- The store `nc->body.type = kind` into the buffer. -/
def setChoiceKind (b : Builder) (nc kind : Nat) : Builder :=
  { b with data := patch b.data (nc + 8) (le32 kind) }

/-! ## `spa_pod_filter_prop` (filter.h, lines 84-244) -/

/-- The alternatives of a property as lines 108-120 set them up: for kind
`None` one value at the body (`nalt = 1`), otherwise the values after the
first (`alt += size; nalt--`). -/
def alternatives (v : Values) : List Bytes :=
  if v.choice = SPA_CHOICE_None then v.vals.take 1 else v.vals.drop 1

/-- Inner loop of lines 136-142 for one source alternative `a1`: every filter
alternative equal to `a1` counts, and copies `a1` when `doCopy` holds. -/
def copyEqualInner (cmp : Nat → Bytes → Bytes → Int) (type : Nat) (a1 : Bytes)
    (doCopy : Bool) : List Bytes → Builder × Nat → Builder × Nat
  | [], s => s
  | a2 :: rest, (b, n) =>
    if cmp type a1 a2 = 0 then
      copyEqualInner cmp type a1 doCopy rest
        ((if doCopy then (spa_pod_builder_raw b a1).2 else b), n + 1)
    else copyEqualInner cmp type a1 doCopy rest (b, n)

/-- Outer loop of lines 135-143; `j` is the index of the head of the list. -/
def copyEqual (cmp : Nat → Bytes → Bytes → Int) (type p1c : Nat) (alt2 : List Bytes) :
    Nat → List Bytes → Builder × Nat → Builder × Nat
  | _, [], s => s
  | j, a1 :: rest, s =>
    copyEqual cmp type p1c alt2 (j + 1) rest
      (copyEqualInner cmp type a1 (p1c = SPA_CHOICE_Enum || 0 < j) alt2 s)

/-- Loop of lines 153-160 and of lines 175-182: copies every element of `as`
that is neither below `lo` nor above `hi`. -/
def copyInRange (cmp : Nat → Bytes → Bytes → Int) (type : Nat) (lo hi : Bytes) :
    List Bytes → Builder × Nat → Builder × Nat
  | [], s => s
  | a :: rest, (b, n) =>
    if cmp type a lo < 0 then copyInRange cmp type lo hi rest (b, n)
    else if cmp type a hi > 0 then copyInRange cmp type lo hi rest (b, n)
    else copyInRange cmp type lo hi rest ((spa_pod_builder_raw b a).2, n + 1)

/-- Lines 129-147: None/Enum against None/Enum. -/
def filterEqual (cmp : Nat → Bytes → Bytes → Int) (type p1c p2c nc : Nat)
    (alt1 alt2 : List Bytes) (b : Builder) : Except (Int × Builder) Builder :=
  if (p1c = SPA_CHOICE_None ∧ p2c = SPA_CHOICE_None) ∨
     (p1c = SPA_CHOICE_None ∧ p2c = SPA_CHOICE_Enum) ∨
     (p1c = SPA_CHOICE_Enum ∧ p2c = SPA_CHOICE_None) ∨
     (p1c = SPA_CHOICE_Enum ∧ p2c = SPA_CHOICE_Enum) then
    let r := copyEqual cmp type p1c alt2 0 alt1 (b, 0)
    if r.2 = 0 then .error (-EINVAL, r.1)
    else .ok (setChoiceKind r.1 nc SPA_CHOICE_Enum)
  else .ok b

/-- Lines 149-164: None/Enum against Range. -/
def filterEnumRange (cmp : Nat → Bytes → Bytes → Int) (type p1c p2c nc : Nat)
    (alt1 alt2 : List Bytes) (b : Builder) : Except (Int × Builder) Builder :=
  if (p1c = SPA_CHOICE_None ∧ p2c = SPA_CHOICE_Range) ∨
     (p1c = SPA_CHOICE_Enum ∧ p2c = SPA_CHOICE_Range) then
    let r := copyInRange cmp type (alt2.getD 0 []) (alt2.getD 1 []) alt1 (b, 0)
    if r.2 = 0 then .error (-EINVAL, r.1)
    else .ok (setChoiceKind r.1 nc SPA_CHOICE_Enum)
  else .ok b

/-- Lines 171-186: Range against None/Enum. -/
def filterRangeEnum (cmp : Nat → Bytes → Bytes → Int) (type p1c p2c nc : Nat)
    (alt1 alt2 : List Bytes) (b : Builder) : Except (Int × Builder) Builder :=
  if (p1c = SPA_CHOICE_Range ∧ p2c = SPA_CHOICE_None) ∨
     (p1c = SPA_CHOICE_Range ∧ p2c = SPA_CHOICE_Enum) then
    let r := copyInRange cmp type (alt1.getD 0 []) (alt1.getD 1 []) alt2 (b, 0)
    if r.2 = 0 then .error (-EINVAL, r.1)
    else .ok (setChoiceKind r.1 nc SPA_CHOICE_Enum)
  else .ok b

/-- Lines 188-203: Range against Range. -/
def filterRangeRange (cmp : Nat → Bytes → Bytes → Int) (type p1c p2c nc : Nat)
    (alt1 alt2 : List Bytes) (b : Builder) : Except (Int × Builder) Builder :=
  if p1c = SPA_CHOICE_Range ∧ p2c = SPA_CHOICE_Range then
    let b1 :=
      if cmp type (alt1.getD 0 []) (alt2.getD 0 []) < 0 then
        (spa_pod_builder_raw b (alt2.getD 0 [])).2
      else (spa_pod_builder_raw b (alt1.getD 0 [])).2
    let b2 :=
      if cmp type (alt1.getD 1 []) (alt2.getD 1 []) < 0 then
        (spa_pod_builder_raw b1 (alt1.getD 1 [])).2
      else (spa_pod_builder_raw b1 (alt2.getD 1 [])).2
    .ok (setChoiceKind b2 nc SPA_CHOICE_Range)
  else .ok b

/-- The early return `if (cond) return -ENOTSUP;`. -/
def notSupIf (cond : Bool) (b : Builder) : Except (Int × Builder) Builder :=
  if cond then .error (-ENOTSUP, b) else .ok b

/-- Lines 129-238 of `spa_pod_filter_prop`: the sequence of `if` statements on
the pair of kinds.  `Except.error` is an early `return` with its code,
`Except.ok` falls through to line 240. -/
def filterChain (cmp : Nat → Bytes → Bytes → Int) (type p1c p2c nc : Nat)
    (alt1 alt2 : List Bytes) (b : Builder) : Except (Int × Builder) Builder := do
  let b ← filterEqual cmp type p1c p2c nc alt1 alt2 b
  let b ← filterEnumRange cmp type p1c p2c nc alt1 alt2 b
  let b ← notSupIf ((p1c = SPA_CHOICE_None ∧ p2c = SPA_CHOICE_Step) ∨
                    (p1c = SPA_CHOICE_Enum ∧ p2c = SPA_CHOICE_Step)) b
  let b ← filterRangeEnum cmp type p1c p2c nc alt1 alt2 b
  let b ← filterRangeRange cmp type p1c p2c nc alt1 alt2 b
  let b ← notSupIf (p1c = SPA_CHOICE_None ∧ p2c = SPA_CHOICE_Flags) b
  let b ← notSupIf (p1c = SPA_CHOICE_Range ∧ p2c = SPA_CHOICE_Step) b
  let b ← notSupIf (p1c = SPA_CHOICE_Range ∧ p2c = SPA_CHOICE_Flags) b
  let b ← notSupIf (p1c = SPA_CHOICE_Enum ∧ p2c = SPA_CHOICE_Flags) b
  let b ← notSupIf (p1c = SPA_CHOICE_Step ∧ p2c = SPA_CHOICE_None) b
  let b ← notSupIf (p1c = SPA_CHOICE_Step ∧ p2c = SPA_CHOICE_Range) b
  let b ← notSupIf (p1c = SPA_CHOICE_Step ∧ p2c = SPA_CHOICE_Step) b
  let b ← notSupIf (p1c = SPA_CHOICE_Step ∧ p2c = SPA_CHOICE_Enum) b
  let b ← notSupIf (p1c = SPA_CHOICE_Step ∧ p2c = SPA_CHOICE_Flags) b
  let b ← notSupIf (p1c = SPA_CHOICE_Flags ∧ p2c = SPA_CHOICE_None) b
  let b ← notSupIf (p1c = SPA_CHOICE_Flags ∧ p2c = SPA_CHOICE_Range) b
  let b ← notSupIf (p1c = SPA_CHOICE_Flags ∧ p2c = SPA_CHOICE_Step) b
  let b ← notSupIf (p1c = SPA_CHOICE_Flags ∧ p2c = SPA_CHOICE_Enum) b
  let b ← notSupIf (p1c = SPA_CHOICE_Flags ∧ p2c = SPA_CHOICE_Flags) b
  pure b

/-- The function `spa_pod_filter_prop`: returns the result code and the builder
as the call leaves it (on an error return after line 123 the property header
and the open choice frame stay behind). -/
def spa_pod_filter_prop (cmp : Nat → Bytes → Bytes → Int) (b : Builder)
    (p1 p2 : PodProp) : Int × Builder :=
  let v1 := spa_pod_get_values p1.value
  let v2 := spa_pod_get_values p2.value
  let type := v1.type
  let size := v1.size
  if type ≠ v2.type ∨ size ≠ v2.size ∨ p1.key ≠ p2.key then (-EINVAL, b)
  else
    let p1c := v1.choice
    let p2c := v2.choice
    let alt1 := alternatives v1
    let alt2 := alternatives v2
    let b := spa_pod_builder_prop b p1.key 0
    let (nc, b) := spa_pod_builder_push_choice b 0 0
    let b := spa_pod_builder_primitive b type size (v1.vals.headD [])
    match filterChain cmp type p1c p2c nc alt1 alt2 b with
    | .error e => e
    | .ok b => (0, fixDefaultAt cmp (spa_pod_builder_pop b) nc)

/-! ## `spa_pod_filter_part` and `spa_pod_filter` (filter.h, lines 246-353) -/

/-- The filter cursor `pf` of `spa_pod_filter_part`: the POD it points at (or
`none` for `NULL`), the siblings after it that lie inside the filter region, and
the typed view of the memory that follows (what a read past the region finds). -/
structure Cursor where
  pf : Option Pod
  rest : List Pod
  after : List Pod

/-- Line 253, `pf = filter`: the cursor starts at the first byte of the filter
region without a bounds check.  With an empty region it points at whatever
follows the region; memory the model has no view of reads as a zero header. -/
def Cursor.init (filter beyond : List Pod) : Cursor :=
  match filter with
  | f :: r => { pf := some f, rest := r, after := beyond }
  | [] => { pf := some (beyond.headD (.leaf 0 [])), rest := [], after := beyond.tail }

/-- Lines 318-320: `pf = spa_pod_next(pf)`, and `pf = NULL` when the new position
is not inside the filter region. -/
def Cursor.advance (c : Cursor) : Cursor :=
  match c.rest with
  | f :: r => { pf := some f, rest := r, after := c.after }
  | [] => { pf := none, rest := [], after := c.after }

/-- The children of a Struct POD (the PODs in its body). -/
def Pod.children : Pod → List Pod
  | .struct items => items
  | _ => []

/-- Modelled from the spec: `spa_pod_find_prop` of the absent `iter.h`: the
first property of an Object with the given key. -/
def spa_pod_find_prop (pod : Pod) (key : Nat) : Option PodProp :=
  match pod with
  | .object _ _ ps =>
    (ps.find? (fun p => p.1 = key)).map (fun p => { key := p.1, flags := p.2.1, value := p.2.2 })
  | _ => none

/-- The loop `SPA_POD_OBJECT_FOREACH(obj, p1)` of lines 269-277; `res` is the
variable of the enclosing function. -/
def filterProps (cmp : Nat → Bytes → Bytes → Int) (pf : Pod) :
    List (Nat × Nat × Pod) → Int → Builder → Int × Builder
  | [], res, b => (res, b)
  | (k, f, v) :: rest, res, b =>
    let p1 : PodProp := { key := k, flags := f, value := v }
    let r : Int × Builder :=
      match spa_pod_find_prop pf k with
      | some p2 => spa_pod_filter_prop cmp b p1 p2
      | none => (res, (spa_pod_builder_raw_padded b p1.bytes).2)
    if r.1 < 0 then r else filterProps cmp pf rest r.1 r.2

mutual
/-- The body of the loop `SPA_POD_FOREACH(pod, pod_size, pp)` for one source
sibling `pp` (lines 256-323).  The result is `Except.error` for the early
`return -EINVAL` and for `break`, and otherwise the state the next iteration
starts from. -/
def filterSibling (cmp : Nat → Bytes → Bytes → Int) (pp : Pod) (res : Int) (b : Builder)
    (cur : Cursor) : Except (Int × Builder) (Int × Builder × Cursor) :=
  match pp with
  | .object t id props =>
    match cur.pf with
    | some pf =>
      if pf.type ≠ SPA_TYPE_Object then .error (-EINVAL, b)
      else
        let b := (spa_pod_builder_push_object b t id).2
        let r := filterProps cmp pf props res b
        let b := spa_pod_builder_pop r.2
        if r.1 < 0 then .error (r.1, b) else .ok (r.1, b, cur.advance)
    | none =>
      let b := (spa_pod_builder_raw_padded b (Pod.object t id props).bytes).2
      if res < 0 then .error (res, b) else .ok (res, b, cur)
  | .struct items =>
    match cur.pf with
    | some pf =>
      if pf.type ≠ SPA_TYPE_Struct then .error (-EINVAL, b)
      else
        let b := (spa_pod_builder_push_struct b).2
        let r := filterSiblings cmp items 0 b (Cursor.init pf.children (cur.rest ++ cur.after))
        let b := spa_pod_builder_pop r.2
        if r.1 < 0 then .error (r.1, b) else .ok (r.1, b, cur.advance)
    | none =>
      let b := (spa_pod_builder_raw_padded b (Pod.struct items).bytes).2
      if res < 0 then .error (res, b) else .ok (res, b, cur)
  | .leaf t body =>
    match cur.pf with
    | some pf =>
      if (Pod.leaf t body).size ≠ pf.size then .error (-EINVAL, b)
      else if (Pod.leaf t body).bytes ≠ pf.bytes then .error (-EINVAL, b)
      else
        let b := (spa_pod_builder_raw_padded b (Pod.leaf t body).bytes).2
        if res < 0 then .error (res, b) else .ok (res, b, cur.advance)
    | none =>
      let b := (spa_pod_builder_raw_padded b (Pod.leaf t body).bytes).2
      if res < 0 then .error (res, b) else .ok (res, b, cur)
  | .choice c =>
    match cur.pf with
    | some pf =>
      if (Pod.choice c).size ≠ pf.size then .error (-EINVAL, b)
      else if (Pod.choice c).bytes ≠ pf.bytes then .error (-EINVAL, b)
      else
        let b := (spa_pod_builder_raw_padded b (Pod.choice c).bytes).2
        if res < 0 then .error (res, b) else .ok (res, b, cur.advance)
    | none =>
      let b := (spa_pod_builder_raw_padded b (Pod.choice c).bytes).2
      if res < 0 then .error (res, b) else .ok (res, b, cur)
/-- The loop `SPA_POD_FOREACH(pod, pod_size, pp)` of `spa_pod_filter_part` over
the source siblings, from the loop state `(res, b, pf)`; returns `res` and the
builder. -/
def filterSiblings (cmp : Nat → Bytes → Bytes → Int) (pods : List Pod) (res : Int)
    (b : Builder) (cur : Cursor) : Int × Builder :=
  match pods with
  | [] => (res, b)
  | pp :: rest =>
    match filterSibling cmp pp res b cur with
    | .error e => e
    | .ok (res, b, cur) => filterSiblings cmp rest res b cur
end

/-- The function `spa_pod_filter_part`: `pod` are the source siblings in
`[pod, pod + pod_size)`, `filter` the filter siblings in
`[filter, filter + filter_size)` and `beyond` the view of the memory after the
filter region. -/
def spa_pod_filter_part (cmp : Nat → Bytes → Bytes → Int) (b : Builder)
    (pod filter beyond : List Pod) : Int × Builder :=
  filterSiblings cmp pod 0 b (Cursor.init filter beyond)

/-- Modelled from the spec: `spa_pod_builder_deref`: the pointer to the POD at
an offset of the buffer, identified with the offset. -/
def spa_pod_builder_deref (_b : Builder) (ref : Nat) : Option Nat := some ref

/-- The function `spa_pod_filter`.  `result` is the content of `*result` before
the call; the function returns the result code, the builder and the content of
`*result` afterwards.  `pod` and `filter` are `none` for `NULL`. -/
def spa_pod_filter (cmp : Nat → Bytes → Bytes → Int) (b : Builder) (result : Option Nat)
    (pod filter : Option Pod) (beyond : List Pod) : Int × Builder × Option Nat :=
  match pod with
  | none => (-EINVAL, b, result)
  | some pod =>
    match filter with
    | none =>
      let r := spa_pod_builder_raw_padded b pod.bytes
      (0, r.2, spa_pod_builder_deref r.2 r.1)
    | some filter =>
      let state := spa_pod_builder_get_state b
      let r := spa_pod_filter_part cmp b [pod] [filter] beyond
      if r.1 < 0 then (r.1, spa_pod_builder_reset r.2 state, result)
      else (r.1, r.2, spa_pod_builder_deref r.2 state.offset)

/-! ## A comparator for the examples -/

/-- Read a little-endian signed 32-bit integer from the first four bytes of a value. -/
def int32Of (v : Bytes) : Int :=
  let n := rd32 v 0 % 4294967296
  if n < 2147483648 then (n : Int) else (n : Int) - 4294967296

/-- Modelled from the spec: the Value Comparator (§4.3, absent `compare.h`) on
`Int` values: the sign of the result orders the two integers. -/
def compareInt (_type : Nat) (a b : Bytes) : Int := int32Of a - int32Of b

/-- An `Int` value: four bytes. -/
def int (n : Nat) : Bytes := le32 n

/-- A property whose value is a Choice of `Int`s. -/
def intChoiceProp (key kind : Nat) (vals : List Nat) : PodProp :=
  { key := key, flags := 0
    value := .choice { kind := kind, flags := 0, childType := SPA_TYPE_Int, childSize := 4
                       values := vals.map int } }

/-- The empty builder. -/
def Builder.empty : Builder := { data := [], frames := [] }

/-! ## Definitions used in the statements -/

/-- The builder `b` extends `b0`: the bytes of `b0` are a prefix of those of `b`,
and the frames of `b` are those of `b0` below the frames `e`, which all start
at or after the write offset of `b0`. -/
def Ext (b0 b : Builder) (e : List Frame) : Prop :=
  b0.data <+: b.data ∧ b.frames = e ++ b0.frames ∧ ∀ f ∈ e, b0.data.length ≤ f.start

/-- The copies of `a1` that the inner loop counts: one per filter alternative
equal to `a1`. -/
def matchesOf (cmp : Nat → Bytes → Bytes → Int) (type : Nat) (alt2 : List Bytes)
    (a1 : Bytes) : List Bytes :=
  (alt2.filter (fun a2 => cmp type a1 a2 = 0)).map (fun _ => a1)

/-- The elements of `as` inside `[lo, hi]`, as the range loops select them. -/
def inRange (cmp : Nat → Bytes → Bytes → Int) (type : Nat) (lo hi : Bytes)
    (as : List Bytes) : List Bytes :=
  as.filter (fun a => 0 ≤ cmp type a lo ∧ cmp type a hi ≤ 0)

/-- Well-formed choice: 32-bit header fields, values of exactly `childSize > 0`
bytes each, and a body that fits a 32-bit size field. -/
def Choice.WF (c : Choice) : Prop :=
  c.kind < 4294967296 ∧ c.flags < 4294967296 ∧ c.childType < 4294967296 ∧
  0 < c.childSize ∧ c.childSize < 4294967296 ∧
  (∀ v ∈ c.values, v.length = c.childSize) ∧
  16 + c.values.length * c.childSize < 4294967296

instance (c : Choice) : Decidable c.WF := by unfold Choice.WF; infer_instance

/-- The buffer while a property is being written on top of `pre`: property
header, choice header with a blank size field and kind `k`, child header, and the
values written so far. -/
def openProp (pre : Bytes) (key k size type : Nat) (vals : List Bytes) : Bytes :=
  pre ++ (le32 key ++ (le32 0 ++ (le32 0 ++ (le32 SPA_TYPE_Choice ++ (le32 k ++ (le32 0 ++
    (le32 size ++ (le32 type ++ vals.flatten))))))))

/-- The choice frame that `spa_pod_filter_prop` has open while it copies values. -/
def propFrame (pre : Bytes) : Frame :=
  { start := pre.length + 8, isChoice := true, first := false }

/-- The buffer after a property with value `Choice c` was written on top of
`pre` and its choice frame closed: the property bytes, then the padding of `pop`. -/
def closedProp (pre : Bytes) (key : Nat) (c : Choice) : Bytes :=
  pre ++ ((PodProp.mk key 0 (.choice c)).bytes
    ++ zeros (pad8 (pre.length + (PodProp.mk key 0 (.choice c)).bytes.length)))

/-- Well-formed values of a property: at least the default, every value of
`size` bytes, `0 < size`, and 32-bit header fields. -/
def Values.WF (v : Values) : Prop :=
  v.vals ≠ [] ∧ 0 < v.size ∧ v.size < 4294967296 ∧ v.type < 4294967296 ∧
  ∀ x ∈ v.vals, x.length = v.size

instance (v : Values) : Decidable v.WF := by unfold Values.WF; infer_instance

/-- A choice of `n` values of `size` bytes fits the 32-bit size field of its header. -/
def Fits (size n : Nat) : Prop := 16 + n * size < 4294967296

instance (size n : Nat) : Decidable (Fits size n) := by unfold Fits; infer_instance

/-- The builder state in which `spa_pod_filter_prop` returns an error after
line 127: property header and choice header written, the choice frame open. -/
def openBuilder (b : Builder) (key size type : Nat) (vals : List Bytes) : Builder :=
  { data := openProp b.data key 0 size type vals, frames := propFrame b.data :: b.frames }

/-- The builder state after a successful `spa_pod_filter_prop` that wrote the
choice `c` under `key`. -/
def closedBuilder (b : Builder) (key : Nat) (c : Choice) : Builder :=
  { data := closedProp b.data key c, frames := b.frames }

/-- Both outcomes of a step of the chain extend `a` by the frames `e`. -/
def ExtR (a : Builder) (e : List Frame) : Except (Int × Builder) Builder → Prop
  | .ok b => Ext a b e
  | .error x => Ext a x.2 e

/-- The builder `b` extends `b0` by some frames. -/
def Extends (b0 b : Builder) : Prop := ∃ e, Ext b0 b e

/-- Both outcomes of one loop iteration of `spa_pod_filter_part` extend `b`. -/
def ExtendsS (b : Builder) : Except (Int × Builder) (Int × Builder × Cursor) → Prop
  | .ok r => Extends b r.2.1
  | .error x => Extends b x.2

/-! ## Concrete inputs for the examples -/

/-- Source of the examples: a Struct holding an Object whose property 7 is the
`Int` choice `Enum {2,4,6,8}` with default 2. -/
def exSource : Pod :=
  .struct [.object 1 2 [(7, 0, (intChoiceProp 7 SPA_CHOICE_Enum [2, 2, 4, 6, 8]).value)]]

/-- Filter of the examples with an empty intersection: property 7 is the
`Int` choice `Enum {3,5}`. -/
def exFilterDisjoint : Pod :=
  .struct [.object 1 2 [(7, 0, (intChoiceProp 7 SPA_CHOICE_Enum [3, 3, 5]).value)]]

/-- Filter of the examples that narrows: property 7 is `Range [3,7]`. -/
def exFilterRange : Pod :=
  .struct [.object 1 2 [(7, 0, (intChoiceProp 7 SPA_CHOICE_Range [5, 3, 7]).value)]]

/-- A builder in use: three bytes written and one frame open. -/
def exBuilder : Builder :=
  { data := [1, 2, 3], frames := [{ start := 0, isChoice := false, first := false }] }

/-- The default that the `Enum` case of `spa_pod_choice_fix_default` leaves: the
first alternative equal to the old default `d` if there is one, otherwise the
first alternative, and `d` itself when there is no alternative. -/
def enumDefault (cmp : Nat → Bytes → Bytes → Int) (type : Nat) (d : Bytes)
    (tl : List Bytes) : Bytes :=
  match tl.find? (fun a => cmp type d a = 0) with
  | some a => a
  | none => tl.headD d

/-- The default that the `Range`/`Step` case of `spa_pod_choice_fix_default`
leaves for `[d, lo, hi, ...]`: raised to `lo` if below it, then lowered to `hi`
if above it. -/
def clampDefault (cmp : Nat → Bytes → Bytes → Int) (type : Nat) (d lo hi : Bytes) : Bytes :=
  if cmp type (if cmp type d lo < 0 then lo else d) hi > 0 then hi
  else if cmp type d lo < 0 then lo else d

/-- The source alternatives that equal some filter alternative, one copy per
equal pair, in the order the loop of lines 135-143 visits them. -/
def equalMatches (cmp : Nat → Bytes → Bytes → Int) (type : Nat)
    (alt1 alt2 : List Bytes) : List Bytes :=
  alt1.flatMap (matchesOf cmp type alt2)

/-- The comparator is a total preorder on the values of `type`: reflexive,
sign-symmetric and transitive (spec 4.3: "must be a total order per type"). -/
def IsOrder (cmp : Nat → Bytes → Bytes → Int) (type : Nat) : Prop :=
  (∀ a, cmp type a a = 0) ∧
  (∀ a b, cmp type a b < 0 ↔ 0 < cmp type b a) ∧
  (∀ a b c, cmp type a b ≤ 0 → cmp type b c ≤ 0 → cmp type a c ≤ 0)

/-- A well-formed `Int` property of the given choice kind under key 7: `None`
holds one value, `Step` four (default, min, max, step), the others three. -/
def exProp (kind : Nat) : PodProp :=
  intChoiceProp 7 kind
    (if kind = SPA_CHOICE_None then [2]
     else if kind = SPA_CHOICE_Step then [2, 0, 10, 2]
     else [2, 0, 10])

/-- The pairs of choice kinds (source, filter) among the 25 for which the call on
two well-formed `Int` properties of these kinds returns `-ENOTSUP`. -/
def notSupPairs : List (Nat × Nat) :=
  (List.product (List.range 5) (List.range 5)).filter (fun k =>
    (spa_pod_filter_prop compareInt Builder.empty (exProp k.1) (exProp k.2)).1 = -ENOTSUP)

/-- The bytes of verbatim, padded copies of a run of sibling PODs. -/
def copiesOf (pods : List Pod) : Bytes :=
  pods.flatMap (fun p => p.bytes ++ zeros (pad8 p.size))

/-- The builder while `spa_pod_filter_prop` runs on top of `b`: the open property
with kind field `k` and the values `vals` written so far. -/
def openBuilderK (b : Builder) (key k size type : Nat) (vals : List Bytes) : Builder :=
  { data := openProp b.data key k size type vals, frames := propFrame b.data :: b.frames }

/-- The values that `spa_pod_filter_prop` can write into the choice: the default,
the alternatives of both sides, and for Range against Range the two bounds of
each side. -/
def valuePool (p1c p2c : Nat) (d : Bytes) (alt1 alt2 : List Bytes) : List Bytes :=
  d :: (alt1 ++ alt2 ++
    (if p1c = SPA_CHOICE_Range ∧ p2c = SPA_CHOICE_Range then
      [alt1.getD 0 [], alt1.getD 1 [], alt2.getD 0 [], alt2.getD 1 []] else []))

/-- A kind field and a list of written values that stay within the known kinds,
within `n` values and within the value pool. -/
def Good (pool : List Bytes) (n k : Nat) (vals : List Bytes) : Prop :=
  k ≤ 4 ∧ vals.length ≤ n ∧ ∀ v ∈ vals, v ∈ pool

/-- A step of the chain, seen as a function of the builder `b` it runs on top
of, does the same on every builder: either it fails with one code and leaves the
same open property, or it succeeds and leaves the same open property. -/
def Uniform (key size type : Nat) (pool : List Bytes) (n : Nat)
    (F : Builder → Except (Int × Builder) Builder) : Prop :=
  (∃ e k vals, e < 0 ∧ Good pool n k vals ∧
    ∀ b, F b = .error (e, openBuilderK b key k size type vals)) ∨
  (∃ k vals, Good pool n k vals ∧ ∀ b, F b = .ok (openBuilderK b key k size type vals))

/-- Well-formed pair of properties for `spa_pod_filter_prop`: well-formed source
values, filter values of the same width, three values in a Range, and a result
that fits the 32-bit size field. -/
def PairWF (p1 p2 : PodProp) : Prop :=
  (spa_pod_get_values p1.value).WF ∧
  (∀ x ∈ (spa_pod_get_values p2.value).vals, x.length = (spa_pod_get_values p1.value).size) ∧
  ((spa_pod_get_values p1.value).choice = SPA_CHOICE_Range →
    3 ≤ (spa_pod_get_values p1.value).vals.length) ∧
  ((spa_pod_get_values p2.value).choice = SPA_CHOICE_Range →
    3 ≤ (spa_pod_get_values p2.value).vals.length) ∧
  Fits (spa_pod_get_values p1.value).size
    (3 + (alternatives (spa_pod_get_values p1.value)).length *
           (alternatives (spa_pod_get_values p2.value)).length +
         (alternatives (spa_pod_get_values p1.value)).length +
         (alternatives (spa_pod_get_values p2.value)).length)

instance (p1 p2 : PodProp) : Decidable (PairWF p1 p2) := by unfold PairWF; infer_instance

/-- What the loop of lines 269-277 writes for one source property `p` against
the filter Object `pf`: the property itself when `pf` has no property with its
key, otherwise the property that `spa_pod_filter_prop` writes for `p` and the
first filter property with that key: the source key, flags 0 and a choice `c`. -/
def PropOut (cmp : Nat → Bytes → Bytes → Int) (pf : Pod) (p o : Nat × Nat × Pod) : Prop :=
  match spa_pod_find_prop pf p.1 with
  | none => o = p
  | some p2 =>
    ∃ c : Choice, o = (p.1, 0, .choice c) ∧
      ∀ b, spa_pod_filter_prop cmp b { key := p.1, flags := p.2.1, value := p.2.2 } p2 =
        (0, closedBuilder b p.1 c)

/-- Every source property that has a counterpart in the filter Object `pf` forms
a well-formed pair with it. -/
def PropsWF (pf : Pod) (props : List (Nat × Nat × Pod)) : Prop :=
  ∀ p ∈ props, ∀ p2 ∈ spa_pod_find_prop pf p.1,
    PairWF { key := p.1, flags := p.2.1, value := p.2.2 } p2

instance (pf : Pod) (props : List (Nat × Nat × Pod)) : Decidable (PropsWF pf props) := by
  unfold PropsWF; infer_instance

/-- Source Object of the examples: property 7 is `Enum {2,4,6,8}` with default
2, property 9 is the plain `Int` 3 with property flags 5. -/
def exObject : Pod :=
  .object 1 2 [(7, 0, (intChoiceProp 7 SPA_CHOICE_Enum [2, 2, 4, 6, 8]).value),
               (9, 5, .leaf SPA_TYPE_Int (int 3))]

/-- Filter Object of the examples: property 8 (not in the source) and property
7 as `Range [3,7]`. -/
def exObjectFilter : Pod :=
  .object 1 2 [(8, 0, .leaf SPA_TYPE_Int (int 1)),
               (7, 0, (intChoiceProp 7 SPA_CHOICE_Range [5, 3, 7]).value)]

/-- Filter of the examples with an unsupported kind: property 7 is the `Int`
choice `Step [2, 0..10, step 2]`. -/
def exFilterStep : Pod :=
  .struct [.object 1 2 [(7, 0, (exProp SPA_CHOICE_Step).value)]]

/-- A choice that a property keeps when it is filtered against itself:
well-formed with choice flags 0, and either `None` with one value that equals
itself, or `Enum` whose default is one of its pairwise distinct alternatives
(comparing equal means being the same value), or `Range [d, min, max]` with
`min <= d <= max` and bounds that are not below themselves. -/
@[reducible] def SelfChoice (cmp : Nat → Bytes → Bytes → Int) (c : Choice) : Prop :=
  c.WF ∧ c.flags = 0 ∧
  ((c.kind = SPA_CHOICE_None ∧ c.values.length = 1 ∧
      cmp c.childType (c.values.headD []) (c.values.headD []) = 0) ∨
   (c.kind = SPA_CHOICE_Enum ∧ c.values.headD [] ∈ c.values.tail ∧ c.values.tail.Nodup ∧
      ∀ a ∈ c.values.tail, ∀ a2 ∈ c.values.tail, cmp c.childType a a2 = 0 ↔ a = a2) ∨
   (c.kind = SPA_CHOICE_Range ∧ c.values.length = 3 ∧
      0 ≤ cmp c.childType (c.values.getD 1 []) (c.values.getD 1 []) ∧
      0 ≤ cmp c.childType (c.values.getD 2 []) (c.values.getD 2 []) ∧
      0 ≤ cmp c.childType (c.values.headD []) (c.values.getD 1 []) ∧
      cmp c.childType (c.values.headD []) (c.values.getD 2 []) ≤ 0))

/-- A property that the Object loop reproduces when the filter is the Object
itself: property flags 0 and a value that is a `SelfChoice`. -/
def SelfProp (cmp : Nat → Bytes → Bytes → Int) : Nat × Nat × Pod → Prop
  | (_, f, .choice c) => f = 0 ∧ SelfChoice cmp c
  | (_, _, .leaf _ _) => False
  | (_, _, .struct _) => False
  | (_, _, .object _ _ _) => False

instance (cmp : Nat → Bytes → Bytes → Int) : (p : Nat × Nat × Pod) → Decidable (SelfProp cmp p)
  | (_, f, .choice c) => inferInstanceAs (Decidable (f = 0 ∧ SelfChoice cmp c))
  | (_, _, .leaf _ _) => inferInstanceAs (Decidable False)
  | (_, _, .struct _) => inferInstanceAs (Decidable False)
  | (_, _, .object _ _ _) => inferInstanceAs (Decidable False)

mutual
/-- A source tree that filtering against a verbatim copy of itself reproduces:
a leaf is any POD whose type tag is not that of a Struct, an Object or a Choice,
a Choice that is a direct sibling is arbitrary, a Struct holds such trees, and an
Object has pairwise distinct keys and properties that are each a `SelfProp`. -/
def SelfTree (cmp : Nat → Bytes → Bytes → Int) : Pod → Prop
  | .leaf t _ => t ≠ SPA_TYPE_Struct ∧ t ≠ SPA_TYPE_Object ∧ t ≠ SPA_TYPE_Choice
  | .choice _ => True
  | .struct items => SelfTrees cmp items
  | .object _ _ props =>
    (props.map (fun p => p.1)).Nodup ∧ ∀ p ∈ props, SelfProp cmp p
/-- Every sibling of the list is a `SelfTree`. -/
def SelfTrees (cmp : Nat → Bytes → Bytes → Int) : List Pod → Prop
  | [] => True
  | p :: ps => SelfTree cmp p ∧ SelfTrees cmp ps
end

mutual
/-- Decision procedure for `SelfTree`. -/
def SelfTree.dec (cmp : Nat → Bytes → Bytes → Int) : (p : Pod) → Decidable (SelfTree cmp p)
  | .leaf t _ => inferInstanceAs
      (Decidable (t ≠ SPA_TYPE_Struct ∧ t ≠ SPA_TYPE_Object ∧ t ≠ SPA_TYPE_Choice))
  | .choice _ => inferInstanceAs (Decidable True)
  | .struct items => SelfTrees.dec cmp items
  | .object _ _ props =>
    inferInstanceAs (Decidable
      ((props.map (fun p : Nat × Nat × Pod => p.1)).Nodup ∧ ∀ p ∈ props, SelfProp cmp p))
/-- Decision procedure for `SelfTrees`. -/
def SelfTrees.dec (cmp : Nat → Bytes → Bytes → Int) :
    (ps : List Pod) → Decidable (SelfTrees cmp ps)
  | [] => inferInstanceAs (Decidable True)
  | p :: ps => @instDecidableAnd _ _ (SelfTree.dec cmp p) (SelfTrees.dec cmp ps)
end

instance (cmp : Nat → Bytes → Bytes → Int) (p : Pod) : Decidable (SelfTree cmp p) :=
  SelfTree.dec cmp p

/-- A source tree for the self-filter examples: a Struct with an `Int` leaf, an
Object with a `None`, an `Enum` and a `Range` property, and a nested Struct. -/
def exSelf : Pod :=
  .struct [.leaf SPA_TYPE_Int (int 1),
           .object 1 2 [(7, 0, (intChoiceProp 7 SPA_CHOICE_Enum [4, 2, 4, 6]).value),
                        (8, 0, (intChoiceProp 8 SPA_CHOICE_Range [5, 3, 7]).value),
                        (9, 0, (intChoiceProp 9 SPA_CHOICE_None [3]).value)],
           .struct [.leaf SPA_TYPE_Int (int 2)]]

/-- A tree with a property of kind Flags for the self-filter examples: property 7
is the `Int` choice `Flags [2, 0, 10]`. -/
def exFlagsTree : Pod :=
  .struct [.object 1 2 [(7, 0, (exProp SPA_CHOICE_Flags).value)]]

/-- Source property of the flag examples: key 7 with property flags 5, whose
value is the `Int` choice `Enum {2,4,6,8}` (default 2) with choice flags 9. -/
def exFlagged : PodProp :=
  { key := 7, flags := 5
    value := .choice { kind := SPA_CHOICE_Enum, flags := 9, childType := SPA_TYPE_Int
                       childSize := 4, values := [2, 2, 4, 6, 8].map int } }

/-- The call of `spa_pod_filter` on the empty builder with the filter a verbatim
copy of the source `S` (nothing follows the filter in memory). -/
def selfFilter (cmp : Nat → Bytes → Bytes → Int) (S : Pod) : Int × Builder × Option Nat :=
  spa_pod_filter cmp Builder.empty none (some S) (some S) []

/-- The outcome of a successful `spa_pod_filter` on the empty builder that wrote
the tree `T` (whose size is a multiple of 8): code 0, the bytes of `T`, and the
result at offset 0. -/
def wrote (T : Pod) : Int × Builder × Option Nat :=
  (0, { data := T.bytes, frames := [] }, some 0)

/-- An `Int` choice value with the given kind, choice flags and values. -/
def intChoice (kind flags : Nat) (vals : List Nat) : Pod :=
  .choice { kind := kind, flags := flags, childType := SPA_TYPE_Int, childSize := 4
            values := vals.map int }

/-- An Object of type 1 and id 2 with the given properties. -/
def exObj (props : List (Nat × Nat × Pod)) : Pod := .object 1 2 props

/-! ## Lemmas on the builder and on the byte layout -/

theorem ext_refl (b : Builder) : Ext b b [] :=
  ⟨List.prefix_refl _, rfl, by simp⟩

theorem ext_trans {a b c : Builder} {e1 e2 : List Frame}
    (h1 : Ext a b e1) (h2 : Ext b c e2) : Ext a c (e2 ++ e1) := by
  obtain ⟨p1, f1, s1⟩ := h1
  obtain ⟨p2, f2, s2⟩ := h2
  refine ⟨p1.trans p2, by rw [f2, f1, List.append_assoc], ?_⟩
  intro f hf
  rcases List.mem_append.mp hf with h | h
  · exact le_trans p1.length_le (s2 f h)
  · exact s1 f h

theorem prefix_patch {a data : Bytes} (h : a <+: data) (off : Nat) (bs : Bytes)
    (hoff : a.length ≤ off) : a <+: patch data off bs := by
  obtain ⟨t, rfl⟩ := h
  unfold patch
  rw [List.take_append_eq_append_take]
  rw [List.take_of_length_le hoff, List.append_assoc, List.append_assoc]
  exact List.prefix_append _ _

theorem ext_append {a b : Builder} {e : List Frame} (h : Ext a b e) (bs : Bytes) :
    Ext a { b with data := b.data ++ bs } e :=
  ⟨h.1.trans (List.prefix_append _ _), h.2.1, h.2.2⟩

theorem ext_patch {a b : Builder} {e : List Frame} (h : Ext a b e) (off : Nat) (bs : Bytes)
    (hoff : a.data.length ≤ off) : Ext a { b with data := patch b.data off bs } e :=
  ⟨prefix_patch h.1 off bs hoff, h.2.1, h.2.2⟩

theorem ext_push {a b : Builder} {e : List Frame} (h : Ext a b e) (bs : Bytes) (f : Frame)
    (hf : f.start = b.data.length) :
    Ext a { data := b.data ++ bs, frames := f :: b.frames } (f :: e) := by
  refine ⟨h.1.trans (List.prefix_append _ _), by simp [h.2.1], ?_⟩
  intro g hg
  rcases List.mem_cons.mp hg with rfl | hg
  · rw [hf]; exact h.1.length_le
  · exact h.2.2 g hg

theorem ext_pop {a b : Builder} {f : Frame} {e : List Frame} (h : Ext a b (f :: e)) :
    Ext a (spa_pod_builder_pop b) e := by
  obtain ⟨p, fr, s⟩ := h
  unfold spa_pod_builder_pop
  rw [fr]
  simp only [List.cons_append]
  refine ⟨?_, rfl, fun g hg => s g (List.mem_cons_of_mem _ hg)⟩
  exact (prefix_patch p _ _ (s f (List.mem_cons_self _ _))).trans (List.prefix_append _ _)


theorem copyEqualInner_eq (cmp : Nat → Bytes → Bytes → Int) (type : Nat) (a1 : Bytes)
    (doCopy : Bool) (alt2 : List Bytes) (b : Builder) (n : Nat) :
    copyEqualInner cmp type a1 doCopy alt2 (b, n) =
      ({ b with data := b.data ++
          (if doCopy then (matchesOf cmp type alt2 a1).flatten else []) },
       n + (matchesOf cmp type alt2 a1).length) := by
  induction alt2 generalizing b n with
  | nil => simp [copyEqualInner, matchesOf]
  | cons a2 rest ih =>
    unfold copyEqualInner
    by_cases h : cmp type a1 a2 = 0
    · rw [if_pos h, ih]
      cases doCopy <;>
        simp [matchesOf, h, spa_pod_builder_raw, List.filter_cons, Nat.add_assoc, Nat.add_comm]
    · rw [if_neg h, ih]
      simp [matchesOf, h, List.filter_cons]

theorem copyEqual_eq (cmp : Nat → Bytes → Bytes → Int) (type p1c : Nat)
    (alt2 alt1 : List Bytes) (j : Nat) (b : Builder) (n : Nat) :
    copyEqual cmp type p1c alt2 j alt1 (b, n) =
      ({ b with data := b.data ++
          (if p1c = SPA_CHOICE_Enum ∨ 0 < j then (alt1.flatMap (matchesOf cmp type alt2)).flatten
           else (alt1.tail.flatMap (matchesOf cmp type alt2)).flatten) },
       n + (alt1.flatMap (matchesOf cmp type alt2)).length) := by
  induction alt1 generalizing b n j with
  | nil => simp [copyEqual]
  | cons a1 rest ih =>
    unfold copyEqual
    rw [copyEqualInner_eq, ih]
    by_cases hE : p1c = SPA_CHOICE_Enum
    · simp [hE, Nat.add_assoc]
    · by_cases hj : 0 < j
      · simp [hE, hj, Nat.add_assoc]
      · simp [hE, hj, Nat.add_assoc]

theorem copyInRange_eq (cmp : Nat → Bytes → Bytes → Int) (type : Nat) (lo hi : Bytes)
    (as : List Bytes) (b : Builder) (n : Nat) :
    copyInRange cmp type lo hi as (b, n) =
      ({ b with data := b.data ++ (inRange cmp type lo hi as).flatten },
       n + (inRange cmp type lo hi as).length) := by
  induction as generalizing b n with
  | nil => simp [copyInRange, inRange]
  | cons a rest ih =>
    unfold copyInRange
    by_cases h1 : cmp type a lo < 0
    · rw [if_pos h1, ih]; simp [inRange, not_le.mpr h1, List.filter_cons]
    · rw [if_neg h1]
      by_cases h2 : cmp type a hi > 0
      · rw [if_pos h2, ih]
        have h2' : ¬ cmp type a hi ≤ 0 := not_le.mpr h2
        simp [inRange, h2', List.filter_cons]
      · rw [if_neg h2, ih]
        simp [inRange, not_lt.mp h1, not_lt.mp h2, List.filter_cons, spa_pod_builder_raw, Nat.add_assoc,
          Nat.add_comm]


theorem le32_length (n : Nat) : (le32 n).length = 4 := rfl

theorem rd32_append_left (pre t : Bytes) (i : Nat) :
    rd32 (pre ++ t) (pre.length + i) = rd32 t i := by
  simp [rd32, List.getD_eq_getElem?_getD, List.getElem?_append_right, Nat.add_assoc]

theorem rd32_le32 (n : Nat) (t : Bytes) (h : n < 4294967296) : rd32 (le32 n ++ t) 0 = n := by
  simp [rd32, le32]
  omega

theorem rd32_skip (n : Nat) (t : Bytes) (i : Nat) : rd32 (le32 n ++ t) (i + 4) = rd32 t i := by
  simp [rd32, le32, List.getD_eq_getElem?_getD]

example (a b c : Nat) (t : Bytes) (h : c < 4294967296) : rd32 (le32 a ++ (le32 b ++ (le32 c ++ t))) 8 = c := by
  rw [show (8:Nat) = 0 + 4 + 4 from rfl, rd32_skip, rd32_skip, rd32_le32 _ _ h]

theorem patch_append_left (pre t : Bytes) (i : Nat) (bs : Bytes) :
    patch (pre ++ t) (pre.length + i) bs = pre ++ patch t i bs := by
  have h1 : List.take (pre.length + i) pre = pre := List.take_of_length_le (by omega)
  have h2 : List.drop (pre.length + i + bs.length) pre = [] := List.drop_of_length_le (by omega)
  simp [patch, List.take_append_eq_append_take, List.drop_append_eq_append_drop, h1, h2]
  congr 3
  omega

theorem patch_le32_head (n m : Nat) (t : Bytes) : patch (le32 n ++ t) 0 (le32 m) = le32 m ++ t := by
  simp [patch, le32]

theorem patch_skip (n : Nat) (t : Bytes) (i : Nat) (bs : Bytes) :
    patch (le32 n ++ t) (i + 4) bs = le32 n ++ patch t i bs := by
  have h := patch_append_left (le32 n) t i bs
  rw [le32_length, Nat.add_comm] at h
  exact h

theorem slice_append_left (pre t : Bytes) (i n : Nat) :
    slice (pre ++ t) (pre.length + i) n = slice t i n := by
  simp [slice, List.drop_append_eq_append_drop]
  rw [List.drop_of_length_le (by omega)]
  simp

theorem slice_head (v t : Bytes) : slice (v ++ t) 0 v.length = v := by
  simp [slice]

/-- Reading back the values of a packed run: the `i`-th slice of width `size`
is the `i`-th value, when every value has `size` bytes. -/
theorem slices_flatten (size : Nat) (vals : List Bytes) (t : Bytes)
    (hlen : ∀ v ∈ vals, v.length = size) :
    (List.range vals.length).map (fun i => slice (vals.flatten ++ t) (i * size) size) = vals := by
  induction vals with
  | nil => simp
  | cons v rest ih =>
    have hv : v.length = size := hlen v (List.mem_cons_self _ _)
    have hr : ∀ w ∈ rest, w.length = size := fun w hw => hlen w (List.mem_cons_of_mem _ hw)
    rw [List.length_cons, List.range_succ_eq_map, List.map_cons, List.map_map]
    congr 1
    · simp only [Nat.zero_mul, List.flatten_cons, List.append_assoc]
      rw [← hv]; exact slice_head _ _
    · conv_rhs => rw [← ih hr]
      apply List.map_congr_left
      intro i _
      simp only [Function.comp, List.flatten_cons, List.append_assoc]
      have := slice_append_left v (rest.flatten ++ t) (i * size) size
      rw [hv] at this
      rw [← this]
      congr 1
      rw [Nat.succ_mul]; omega

theorem flatten_length_of (size : Nat) (vals : List Bytes)
    (hlen : ∀ v ∈ vals, v.length = size) : vals.flatten.length = vals.length * size := by
  induction vals with
  | nil => simp
  | cons v rest ih =>
    have hv : v.length = size := hlen v (List.mem_cons_self _ _)
    have hr : ∀ w ∈ rest, w.length = size := fun w hw => hlen w (List.mem_cons_of_mem _ hw)
    simp [ih hr, hv, Nat.succ_mul, Nat.add_comm]


theorem choice_body_length (c : Choice) (h : ∀ v ∈ c.values, v.length = c.childSize) :
    c.body.length = 16 + c.values.length * c.childSize := by
  simp [Choice.body, le32_length, flatten_length_of c.childSize c.values h]
  omega

theorem choice_bytes (c : Choice) :
    (Pod.choice c).bytes =
      le32 c.body.length ++ (le32 SPA_TYPE_Choice ++ (le32 c.kind ++ (le32 c.flags ++
        (le32 c.childSize ++ (le32 c.childType ++ c.values.flatten))))) := by
  simp [Pod.bytes, Pod.body, Pod.type, Choice.body]

/-- Loading the choice at the offset where its bytes were written gives it back. -/
theorem loadChoice_bytes (pre post : Bytes) (c : Choice) (h : c.WF) :
    loadChoice (pre ++ ((Pod.choice c).bytes ++ post)) pre.length = c := by
  obtain ⟨hk, hf, ht, hs0, hs, hv, hb⟩ := h
  have hlen := choice_body_length c hv
  rw [choice_bytes]
  simp only [List.append_assoc]
  have e16 : rd32 (pre ++ (le32 c.body.length ++ (le32 SPA_TYPE_Choice ++ (le32 c.kind ++
      (le32 c.flags ++ (le32 c.childSize ++ (le32 c.childType ++ (c.values.flatten ++ post))))))))
      (pre.length + 16) = c.childSize := by
    rw [rd32_append_left, show (16:Nat) = 0 + 4 + 4 + 4 + 4 from rfl, rd32_skip, rd32_skip,
      rd32_skip, rd32_skip, rd32_le32 _ _ hs]
  have e0 : rd32 (pre ++ (le32 c.body.length ++ (le32 SPA_TYPE_Choice ++ (le32 c.kind ++
      (le32 c.flags ++ (le32 c.childSize ++ (le32 c.childType ++ (c.values.flatten ++ post))))))))
      pre.length = c.body.length := by
    have := rd32_append_left pre (le32 c.body.length ++ (le32 SPA_TYPE_Choice ++ (le32 c.kind ++
      (le32 c.flags ++ (le32 c.childSize ++ (le32 c.childType ++ (c.values.flatten ++ post))))))) 0
    rw [Nat.add_zero] at this
    rw [this, rd32_le32 _ _ (by omega)]
  unfold loadChoice
  simp only [e16, e0]
  have e8 : rd32 (pre ++ (le32 c.body.length ++ (le32 SPA_TYPE_Choice ++ (le32 c.kind ++
      (le32 c.flags ++ (le32 c.childSize ++ (le32 c.childType ++ (c.values.flatten ++ post))))))))
      (pre.length + 8) = c.kind := by
    rw [rd32_append_left, show (8:Nat) = 0 + 4 + 4 from rfl, rd32_skip, rd32_skip,
      rd32_le32 _ _ hk]
  have e12 : rd32 (pre ++ (le32 c.body.length ++ (le32 SPA_TYPE_Choice ++ (le32 c.kind ++
      (le32 c.flags ++ (le32 c.childSize ++ (le32 c.childType ++ (c.values.flatten ++ post))))))))
      (pre.length + 12) = c.flags := by
    rw [rd32_append_left, show (12:Nat) = 0 + 4 + 4 + 4 from rfl, rd32_skip, rd32_skip,
      rd32_skip, rd32_le32 _ _ hf]
  have e20 : rd32 (pre ++ (le32 c.body.length ++ (le32 SPA_TYPE_Choice ++ (le32 c.kind ++
      (le32 c.flags ++ (le32 c.childSize ++ (le32 c.childType ++ (c.values.flatten ++ post))))))))
      (pre.length + 20) = c.childType := by
    rw [rd32_append_left, show (20:Nat) = 0 + 4 + 4 + 4 + 4 + 4 from rfl, rd32_skip, rd32_skip,
      rd32_skip, rd32_skip, rd32_skip, rd32_le32 _ _ ht]
  rw [e8, e12, e20]
  have hn : (c.body.length - 16) / c.childSize = c.values.length := by
    rw [hlen, Nat.add_sub_cancel_left, Nat.mul_div_cancel _ hs0]
  rw [hn]
  have hsl : ∀ i, slice (pre ++ (le32 c.body.length ++ (le32 SPA_TYPE_Choice ++ (le32 c.kind ++
      (le32 c.flags ++ (le32 c.childSize ++ (le32 c.childType ++ (c.values.flatten ++ post))))))))
      (pre.length + 24 + i * c.childSize) c.childSize
      = slice (c.values.flatten ++ post) (i * c.childSize) c.childSize := by
    intro i
    have h24 := slice_append_left (pre ++ (le32 c.body.length ++ (le32 SPA_TYPE_Choice ++
      (le32 c.kind ++ (le32 c.flags ++ (le32 c.childSize ++ le32 c.childType))))))
      (c.values.flatten ++ post) (i * c.childSize) c.childSize
    simp only [List.append_assoc, List.length_append, le32_length] at h24
    rw [← h24]
  simp only [hsl]
  rw [slices_flatten c.childSize c.values post hv]


theorem enumBest_mem (cmp : Nat → Bytes → Bytes → Int) (type : Nat) (val : Bytes)
    (l : List Bytes) (best : Option Bytes) (r : Bytes)
    (h : enumBest cmp type val l best = some r) : r ∈ l ∨ best = some r := by
  induction l generalizing best with
  | nil => right; simpa [enumBest] using h
  | cons alt rest ih =>
    unfold enumBest at h
    split at h
    · left; simp at h; simp [h]
    · rcases ih _ h with h1 | h1
      · left; exact List.mem_cons_of_mem _ h1
      · cases best with
        | none => left; simp at h1; simp [h1]
        | some x => right; simpa using h1

/-- Shape of the result of `spa_pod_choice_fix_default`: only the kind and the
first value can change, and the new first value is one of the old values. -/
theorem fix_default_shape (cmp : Nat → Bytes → Bytes → Int) (c : Choice) (d : Bytes)
    (tl : List Bytes) (hv : c.values = d :: tl) :
    ∃ k d1, (spa_pod_choice_fix_default cmp c).2 =
        { c with kind := k, values := d1 :: tl } ∧ d1 ∈ d :: tl := by
  obtain ⟨kind, flags, ty, sz, values⟩ := c
  simp only at hv
  subst hv
  unfold spa_pod_choice_fix_default
  simp only [Choice.setDefault, List.tail_cons, List.headD_cons, List.length_cons]
  split
  · exact ⟨_, d, rfl, List.mem_cons_self _ _⟩
  · split
    · split <;> split
      · refine ⟨_, _, rfl, ?_⟩
        rename_i h1 h2
        simp only [List.headD_cons, List.length_cons] at h2
        cases tl with
        | nil => simp at h1
        | cons x tl2 =>
          cases tl2 with
          | nil => simp at h2
          | cons y tl3 => simp
      · refine ⟨_, _, rfl, ?_⟩
        rename_i h1 h2
        cases tl with
        | nil => simp at h1
        | cons x tl2 => simp
      · refine ⟨_, _, rfl, ?_⟩
        rename_i h1 h2
        cases tl with
        | nil => simp at h2
        | cons x tl2 =>
          cases tl2 with
          | nil => simp at h2
          | cons y tl3 => simp
      · exact ⟨_, d, rfl, List.mem_cons_self _ _⟩
    · split
      · cases hb : enumBest cmp ty d tl none with
        | none => simp only []; split <;> exact ⟨_, d, rfl, List.mem_cons_self _ _⟩
        | some best =>
          have hm : best ∈ tl := by
            rcases enumBest_mem cmp ty d tl none best hb with h | h
            · exact h
            · simp at h
          simp only []
          split <;> exact ⟨_, best, rfl, List.mem_cons_of_mem _ hm⟩
      · exact ⟨_, d, rfl, List.mem_cons_self _ _⟩

theorem fix_default_nil (cmp : Nat → Bytes → Bytes → Int) (c : Choice) (hv : c.values = []) :
    ∃ k, (spa_pod_choice_fix_default cmp c).2 = { c with kind := k } := by
  obtain ⟨kind, flags, ty, sz, values⟩ := c
  simp only at hv
  subst hv
  unfold spa_pod_choice_fix_default
  simp only [List.length_nil, List.tail_nil, enumBest]
  split
  · exact ⟨_, rfl⟩
  · split
    · simp
    · split
      · simp
      · exact ⟨_, rfl⟩


theorem patch_head (d d1 t : Bytes) (h : d1.length = d.length) :
    patch (d ++ t) 0 d1 = d1 ++ t := by
  simp [patch, h]

/-- Storing the kind field of the choice written at `pre.length`. -/
theorem patch_kind (pre post : Bytes) (c : Choice) (k : Nat) :
    patch (pre ++ ((Pod.choice c).bytes ++ post)) (pre.length + 8) (le32 k) =
      pre ++ (le32 c.body.length ++ (le32 SPA_TYPE_Choice ++ (le32 k ++ (le32 c.flags ++
        (le32 c.childSize ++ (le32 c.childType ++ (c.values.flatten ++ post))))))) := by
  rw [choice_bytes]
  simp only [List.append_assoc]
  rw [patch_append_left, show (8:Nat) = 0 + 4 + 4 from rfl, patch_skip, patch_skip,
    patch_le32_head]

/-- Storing the first value of the choice written at `pre.length`. -/
theorem patch_default (pre post : Bytes) (L k f s t : Nat) (d d1 : Bytes) (tl : List Bytes)
    (h : d1.length = d.length) :
    patch (pre ++ (le32 L ++ (le32 SPA_TYPE_Choice ++ (le32 k ++ (le32 f ++
        (le32 s ++ (le32 t ++ ((d :: tl).flatten ++ post)))))))) (pre.length + 24) d1 =
      pre ++ (le32 L ++ (le32 SPA_TYPE_Choice ++ (le32 k ++ (le32 f ++
        (le32 s ++ (le32 t ++ ((d1 :: tl).flatten ++ post))))))) := by
  rw [patch_append_left, show (24:Nat) = 0 + 4 + 4 + 4 + 4 + 4 + 4 from rfl, patch_skip,
    patch_skip, patch_skip, patch_skip, patch_skip, patch_skip]
  simp only [List.flatten_cons, List.append_assoc]
  rw [patch_head d d1 _ h]

theorem storeChoice_bytes (pre post : Bytes) (c : Choice) (k : Nat) (d d1 : Bytes)
    (tl : List Bytes) (hv : c.values = d :: tl) (h : d1.length = d.length) :
    storeChoice (pre ++ ((Pod.choice c).bytes ++ post)) pre.length c
        { c with kind := k, values := d1 :: tl } =
      pre ++ ((Pod.choice { c with kind := k, values := d1 :: tl }).bytes ++ post) := by
  have hL : ({ c with kind := k, values := d1 :: tl } : Choice).body.length = c.body.length := by
    simp [Choice.body, hv, h, le32_length]
  unfold storeChoice
  simp only [hv, List.head?_cons, List.headD_cons, Option.some.injEq]
  rw [choice_bytes { c with kind := k, values := d1 :: tl }, hL]
  simp only [List.append_assoc]
  by_cases hk : k = c.kind
  · subst hk
    simp only [if_true]
    rw [choice_bytes, hv]
    simp only [List.append_assoc]
    by_cases hd : d1 = d
    · subst hd; simp
    · rw [if_neg hd, patch_default _ _ _ _ _ _ _ d d1 tl h]
  · rw [if_neg hk, patch_kind, hv]
    by_cases hd : d1 = d
    · subst hd; simp
    · rw [if_neg hd, patch_default _ _ _ _ _ _ _ d d1 tl h]

theorem storeChoice_bytes_nil (pre post : Bytes) (c : Choice) (k : Nat) :
    storeChoice (pre ++ ((Pod.choice c).bytes ++ post)) pre.length c { c with kind := k } =
      pre ++ ((Pod.choice { c with kind := k }).bytes ++ post) := by
  have hL : ({ c with kind := k } : Choice).body.length = c.body.length := by
    simp [Choice.body, le32_length]
  unfold storeChoice
  rw [choice_bytes { c with kind := k }, hL]
  simp only [List.append_assoc, if_true]
  by_cases hk : k = c.kind
  · subst hk
    simp only [if_true]
    rw [choice_bytes]
    simp only [List.append_assoc]
  · rw [if_neg hk, patch_kind]

/-- The call `spa_pod_choice_fix_default(nc)` on a buffer that holds the bytes of
a well-formed choice `c` at `nc` leaves the bytes of the fixed choice there. -/
theorem fixDefaultAt_bytes (cmp : Nat → Bytes → Bytes → Int) (pre post : Bytes)
    (fr : List Frame) (c : Choice) (h : c.WF) :
    fixDefaultAt cmp { data := pre ++ ((Pod.choice c).bytes ++ post), frames := fr } pre.length =
      { data := pre ++ ((Pod.choice (spa_pod_choice_fix_default cmp c).2).bytes ++ post),
        frames := fr } := by
  unfold fixDefaultAt
  simp only [loadChoice_bytes pre post c h]
  cases hv : c.values with
  | nil =>
    obtain ⟨k, hk⟩ := fix_default_nil cmp c hv
    rw [hk, storeChoice_bytes_nil pre post c k]
  | cons d tl =>
    obtain ⟨k, d1, hk, hm⟩ := fix_default_shape cmp c d tl hv
    have hlen : d1.length = d.length := by
      have h6 := h.2.2.2.2.2.1
      rw [h6 d1 (hv ▸ hm), h6 d (hv ▸ List.mem_cons_self _ _)]
    rw [hk, storeChoice_bytes pre post c k d d1 tl hv hlen]


/-! ## Writing and closing the choice of a property -/

theorem openProp_length (pre : Bytes) (key k size type : Nat) (vals : List Bytes) :
    (openProp pre key k size type vals).length = pre.length + 32 + vals.flatten.length := by
  simp [openProp, le32_length]; omega

/-- Lines 123-127: the property header, the choice frame and the default value. -/
theorem start_prop (b : Builder) (key type size : Nat) (d : Bytes) :
    spa_pod_builder_primitive
        (spa_pod_builder_push_choice (spa_pod_builder_prop b key 0) 0 0).2 type size d =
      { data := openProp b.data key 0 size type [d], frames := propFrame b.data :: b.frames } ∧
    (spa_pod_builder_push_choice (spa_pod_builder_prop b key 0) 0 0).1 = b.data.length + 8 := by
  simp [spa_pod_builder_primitive, spa_pod_builder_push_choice, spa_pod_builder_prop,
    spa_pod_builder_raw, Builder.offset, openProp, propFrame, le32_length]

theorem openProp_append (pre : Bytes) (key k size type : Nat) (vals ws : List Bytes) :
    openProp pre key k size type vals ++ ws.flatten = openProp pre key k size type (vals ++ ws) := by
  simp [openProp]

/-- The store `nc->body.type = k` on the open property. -/
theorem setChoiceKind_open (pre : Bytes) (fr : List Frame) (key k0 k size type : Nat)
    (vals : List Bytes) :
    setChoiceKind { data := openProp pre key k0 size type vals, frames := fr }
        (pre.length + 8) k =
      { data := openProp pre key k size type vals, frames := fr } := by
  unfold setChoiceKind openProp
  simp only [Builder.mk.injEq, and_true]
  rw [show pre.length + 8 + 8 = pre.length + (0 + 4 + 4 + 4 + 4) from by omega,
    patch_append_left, patch_skip, patch_skip, patch_skip, patch_skip, patch_le32_head]

theorem push_choice_ref (b : Builder) (key : Nat) :
    (spa_pod_builder_push_choice (spa_pod_builder_prop b key 0) 0 0).1 = b.data.length + 8 := by
  simp [spa_pod_builder_push_choice, spa_pod_builder_prop, spa_pod_builder_raw, Builder.offset,
    le32_length]

/-- Closing the choice frame of the open property. -/
theorem pop_open (pre : Bytes) (fr : List Frame) (key k size type : Nat) (vals : List Bytes) :
    spa_pod_builder_pop
        { data := openProp pre key k size type vals, frames := propFrame pre :: fr } =
      { data := closedProp pre key
          { kind := k, flags := 0, childType := type, childSize := size, values := vals },
        frames := fr } := by
  unfold spa_pod_builder_pop
  simp only [propFrame, Builder.mk.injEq, and_true]
  have hlen : (openProp pre key k size type vals).length - (pre.length + 8) - 8
      = 16 + vals.flatten.length := by
    rw [openProp_length]; omega
  have hp : patch (openProp pre key k size type vals) (pre.length + 8)
      (le32 ((openProp pre key k size type vals).length - (pre.length + 8) - 8)) =
      pre ++ (PodProp.mk key 0 (.choice
        { kind := k, flags := 0, childType := type, childSize := size, values := vals })).bytes := by
    rw [hlen]
    unfold openProp
    rw [show pre.length + 8 = pre.length + (0 + 4 + 4) from by omega, patch_append_left,
      patch_skip, patch_skip, patch_le32_head]
    simp [PodProp.bytes, Pod.bytes, Pod.body, Pod.type, Choice.body, le32_length]
    congr 1; omega
  rw [hp]
  simp [closedProp]

/-- Lines 240-241 on the open property: `spa_pod_builder_pop`, then
`spa_pod_choice_fix_default(nc)`. -/
theorem close_prop (cmp : Nat → Bytes → Bytes → Int) (pre : Bytes) (fr : List Frame)
    (key k size type : Nat) (vals : List Bytes)
    (h : Choice.WF { kind := k, flags := 0, childType := type, childSize := size, values := vals }) :
    fixDefaultAt cmp (spa_pod_builder_pop
        { data := openProp pre key k size type vals, frames := propFrame pre :: fr })
        (pre.length + 8) =
      { data := closedProp pre key (spa_pod_choice_fix_default cmp
          { kind := k, flags := 0, childType := type, childSize := size, values := vals }).2,
        frames := fr } := by
  rw [pop_open]
  have hb : ∀ c : Choice, closedProp pre key c =
      (pre ++ (le32 key ++ le32 0)) ++ ((Pod.choice c).bytes ++
        zeros (pad8 (pre.length + (8 + (Pod.choice c).bytes.length)))) := by
    intro c
    simp [closedProp, PodProp.bytes, le32_length]
    congr 2; omega
  have hl : pre.length + 8 = (pre ++ (le32 key ++ le32 0)).length := by
    simp [le32_length]
  rw [hb, hl, fixDefaultAt_bytes cmp _ _ fr _ h, hb]
  simp only [Builder.mk.injEq, and_true]
  congr 3
  cases hv : vals with
  | nil =>
    obtain ⟨k1, hk1⟩ := fix_default_nil cmp
      { kind := k, flags := 0, childType := type, childSize := size, values := vals } (by simp [hv])
    rw [← hv, hk1]
    simp [Pod.bytes, Pod.body, Choice.body, le32_length]
  | cons d tl =>
    obtain ⟨k1, d1, hk1, hm⟩ := fix_default_shape cmp
      { kind := k, flags := 0, childType := type, childSize := size, values := vals } d tl
      (by simp [hv])
    have h6 := h.2.2.2.2.2.1
    simp only at h6
    have e1 : d1.length = size := h6 d1 (hv ▸ hm)
    have e2 : d.length = size := h6 d (hv ▸ List.mem_cons_self _ _)
    rw [← hv, hk1]
    simp [Pod.bytes, Pod.body, Choice.body, le32_length, hv, e1, e2]

/-! ## `spa_pod_filter_prop` case by case -/

theorem filter_prop_mismatch (cmp : Nat → Bytes → Bytes → Int) (b : Builder) (p1 p2 : PodProp)
    (h : (spa_pod_get_values p1.value).type ≠ (spa_pod_get_values p2.value).type ∨
         (spa_pod_get_values p1.value).size ≠ (spa_pod_get_values p2.value).size ∨
         p1.key ≠ p2.key) :
    spa_pod_filter_prop cmp b p1 p2 = (-EINVAL, b) := by
  unfold spa_pod_filter_prop
  simp only [if_pos h]

theorem chain_equal (cmp : Nat → Bytes → Bytes → Int) (type p1c p2c nc : Nat)
    (alt1 alt2 : List Bytes) (b : Builder)
    (h1 : p1c = SPA_CHOICE_None ∨ p1c = SPA_CHOICE_Enum)
    (h2 : p2c = SPA_CHOICE_None ∨ p2c = SPA_CHOICE_Enum) :
    filterChain cmp type p1c p2c nc alt1 alt2 b =
      if (copyEqual cmp type p1c alt2 0 alt1 (b, 0)).2 = 0 then
        .error (-EINVAL, (copyEqual cmp type p1c alt2 0 alt1 (b, 0)).1)
      else .ok (setChoiceKind (copyEqual cmp type p1c alt2 0 alt1 (b, 0)).1 nc SPA_CHOICE_Enum) := by
  by_cases hc : (copyEqual cmp type p1c alt2 0 alt1 (b, 0)).2 = 0 <;>
  rcases h1 with h1 | h1 <;> rcases h2 with h2 | h2 <;>
    subst h1 <;> subst h2 <;>
    simp [filterChain, hc, filterEqual, filterEnumRange, filterRangeEnum, filterRangeRange,
      notSupIf, SPA_CHOICE_None, SPA_CHOICE_Enum, SPA_CHOICE_Range, SPA_CHOICE_Step,
      SPA_CHOICE_Flags, bind, Except.bind, pure, Except.pure] <;>
    simp [SPA_CHOICE_None, SPA_CHOICE_Enum] at hc <;> simp [hc]

theorem chain_enum_range (cmp : Nat → Bytes → Bytes → Int) (type p1c nc : Nat)
    (alt1 alt2 : List Bytes) (b : Builder)
    (h1 : p1c = SPA_CHOICE_None ∨ p1c = SPA_CHOICE_Enum) :
    filterChain cmp type p1c SPA_CHOICE_Range nc alt1 alt2 b =
      if (copyInRange cmp type (alt2.getD 0 []) (alt2.getD 1 []) alt1 (b, 0)).2 = 0 then
        .error (-EINVAL, (copyInRange cmp type (alt2.getD 0 []) (alt2.getD 1 []) alt1 (b, 0)).1)
      else .ok (setChoiceKind
        (copyInRange cmp type (alt2.getD 0 []) (alt2.getD 1 []) alt1 (b, 0)).1 nc
        SPA_CHOICE_Enum) := by
  by_cases hc : (copyInRange cmp type (alt2.getD 0 []) (alt2.getD 1 []) alt1 (b, 0)).2 = 0 <;>
  rcases h1 with h1 | h1 <;> subst h1 <;>
    simp [filterChain, filterEqual, filterEnumRange, filterRangeEnum, filterRangeRange,
      notSupIf, SPA_CHOICE_None, SPA_CHOICE_Enum, SPA_CHOICE_Range, SPA_CHOICE_Step,
      SPA_CHOICE_Flags, bind, Except.bind, pure, Except.pure] <;>
    simp [List.getD_eq_getElem?_getD] at hc <;> simp [hc]

theorem chain_range_enum (cmp : Nat → Bytes → Bytes → Int) (type p2c nc : Nat)
    (alt1 alt2 : List Bytes) (b : Builder)
    (h2 : p2c = SPA_CHOICE_None ∨ p2c = SPA_CHOICE_Enum) :
    filterChain cmp type SPA_CHOICE_Range p2c nc alt1 alt2 b =
      if (copyInRange cmp type (alt1.getD 0 []) (alt1.getD 1 []) alt2 (b, 0)).2 = 0 then
        .error (-EINVAL, (copyInRange cmp type (alt1.getD 0 []) (alt1.getD 1 []) alt2 (b, 0)).1)
      else .ok (setChoiceKind
        (copyInRange cmp type (alt1.getD 0 []) (alt1.getD 1 []) alt2 (b, 0)).1 nc
        SPA_CHOICE_Enum) := by
  by_cases hc : (copyInRange cmp type (alt1.getD 0 []) (alt1.getD 1 []) alt2 (b, 0)).2 = 0 <;>
  rcases h2 with h2 | h2 <;> subst h2 <;>
    simp [filterChain, filterEqual, filterEnumRange, filterRangeEnum, filterRangeRange,
      notSupIf, SPA_CHOICE_None, SPA_CHOICE_Enum, SPA_CHOICE_Range, SPA_CHOICE_Step,
      SPA_CHOICE_Flags, bind, Except.bind, pure, Except.pure] <;>
    simp [List.getD_eq_getElem?_getD] at hc <;> simp [hc]

theorem chain_range_range (cmp : Nat → Bytes → Bytes → Int) (type nc : Nat)
    (alt1 alt2 : List Bytes) (b : Builder) :
    filterChain cmp type SPA_CHOICE_Range SPA_CHOICE_Range nc alt1 alt2 b =
      .ok (setChoiceKind
        (spa_pod_builder_raw
          (spa_pod_builder_raw b
            (if cmp type (alt1.getD 0 []) (alt2.getD 0 []) < 0 then alt2.getD 0 []
             else alt1.getD 0 [])).2
          (if cmp type (alt1.getD 1 []) (alt2.getD 1 []) < 0 then alt1.getD 1 []
           else alt2.getD 1 [])).2 nc SPA_CHOICE_Range) := by
  by_cases h0 : cmp type (alt1.getD 0 []) (alt2.getD 0 []) < 0 <;>
  by_cases h1 : cmp type (alt1.getD 1 []) (alt2.getD 1 []) < 0 <;>
    simp [filterChain, filterEqual, filterEnumRange, filterRangeEnum, filterRangeRange,
      notSupIf, SPA_CHOICE_None, SPA_CHOICE_Enum, SPA_CHOICE_Range, SPA_CHOICE_Step,
      SPA_CHOICE_Flags, bind, Except.bind, pure, Except.pure] <;>
    simp [List.getD_eq_getElem?_getD] at h0 h1 <;> simp [h0, h1, not_lt.mpr]

/-- The fifteen pairs of kinds for which the chain returns `-ENOTSUP`. -/
theorem chain_notsup (cmp : Nat → Bytes → Bytes → Int) (type p1c p2c nc : Nat)
    (alt1 alt2 : List Bytes) (b : Builder)
    (h : (p1c = SPA_CHOICE_Step ∧ p2c ≤ 4) ∨ (p1c = SPA_CHOICE_Flags ∧ p2c ≤ 4) ∨
         (p1c ≤ 4 ∧ (p2c = SPA_CHOICE_Step ∨ p2c = SPA_CHOICE_Flags))) :
    filterChain cmp type p1c p2c nc alt1 alt2 b = .error (-ENOTSUP, b) := by
  have h1 : p1c ≤ 4 := by
    rcases h with h | h | h
    · rw [h.1]; decide
    · rw [h.1]; decide
    · exact h.1
  have h2 : p2c ≤ 4 := by
    rcases h with h | h | h
    · exact h.2
    · exact h.2
    · rcases h.2 with h | h <;> rw [h] <;> decide
  interval_cases p1c <;> interval_cases p2c <;>
    simp [SPA_CHOICE_Step, SPA_CHOICE_Flags] at h <;>
    simp [filterChain, filterEqual, filterEnumRange, filterRangeEnum, filterRangeRange,
      notSupIf, SPA_CHOICE_None, SPA_CHOICE_Enum, SPA_CHOICE_Range, SPA_CHOICE_Step,
      SPA_CHOICE_Flags, bind, Except.bind, pure, Except.pure]

/-- With matching headers, `spa_pod_filter_prop` is lines 123-127, the chain, and
lines 240-243. -/
theorem filter_prop_chain (cmp : Nat → Bytes → Bytes → Int) (b : Builder) (p1 p2 : PodProp)
    (ht : (spa_pod_get_values p1.value).type = (spa_pod_get_values p2.value).type)
    (hs : (spa_pod_get_values p1.value).size = (spa_pod_get_values p2.value).size)
    (hk : p1.key = p2.key) :
    spa_pod_filter_prop cmp b p1 p2 =
      match filterChain cmp (spa_pod_get_values p1.value).type
          (spa_pod_get_values p1.value).choice (spa_pod_get_values p2.value).choice
          (b.data.length + 8) (alternatives (spa_pod_get_values p1.value))
          (alternatives (spa_pod_get_values p2.value))
          (openBuilder b p1.key (spa_pod_get_values p1.value).size
            (spa_pod_get_values p1.value).type [(spa_pod_get_values p1.value).vals.headD []]) with
      | .error e => e
      | .ok b1 => (0, fixDefaultAt cmp (spa_pod_builder_pop b1) (b.data.length + 8)) := by
  unfold spa_pod_filter_prop
  have hm : ¬ ((spa_pod_get_values p1.value).type ≠ (spa_pod_get_values p2.value).type ∨
         (spa_pod_get_values p1.value).size ≠ (spa_pod_get_values p2.value).size ∨
         p1.key ≠ p2.key) := by simp [ht, hs, hk]
  simp only [if_neg hm, (start_prop b _ _ _ _).1, push_choice_ref, openBuilder]

theorem copyEqual_open (cmp : Nat → Bytes → Bytes → Int) (type p1c : Nat)
    (alt2 alt1 : List Bytes) (b : Builder) (key size : Nat) (d : Bytes) :
    copyEqual cmp type p1c alt2 0 alt1 (openBuilder b key size type [d], 0) =
      (openBuilder b key size type
        (d :: (if p1c = SPA_CHOICE_Enum then alt1.flatMap (matchesOf cmp type alt2)
               else alt1.tail.flatMap (matchesOf cmp type alt2))),
       (alt1.flatMap (matchesOf cmp type alt2)).length) := by
  rw [copyEqual_eq]
  simp only [openBuilder, Nat.lt_irrefl, or_false, Nat.zero_add]
  by_cases h : p1c = SPA_CHOICE_Enum
  · simp only [h, if_true, openProp_append]; rfl
  · simp only [h, if_false, openProp_append]; rfl

theorem copyInRange_open (cmp : Nat → Bytes → Bytes → Int) (type : Nat) (lo hi : Bytes)
    (as : List Bytes) (b : Builder) (key size : Nat) (d : Bytes) :
    copyInRange cmp type lo hi as (openBuilder b key size type [d], 0) =
      (openBuilder b key size type (d :: inRange cmp type lo hi as),
       (inRange cmp type lo hi as).length) := by
  rw [copyInRange_eq]
  simp only [openBuilder, Nat.zero_add, openProp_append]; rfl

/-- Lines 240-243 on the open builder whose kind field was set to `k`. -/
theorem close_open (cmp : Nat → Bytes → Bytes → Int) (b : Builder) (key k size type : Nat)
    (vals : List Bytes)
    (h : Choice.WF { kind := k, flags := 0, childType := type, childSize := size, values := vals }) :
    fixDefaultAt cmp (spa_pod_builder_pop
        (setChoiceKind (openBuilder b key size type vals) (b.data.length + 8) k))
        (b.data.length + 8) =
      closedBuilder b key (spa_pod_choice_fix_default cmp
        { kind := k, flags := 0, childType := type, childSize := size, values := vals }).2 := by
  unfold openBuilder closedBuilder
  rw [setChoiceKind_open, close_prop cmp b.data b.frames key k size type vals h]

/-! ## Every step of the filter extends the builder -/

theorem extR_bind {a : Builder} {e : List Frame} {r : Except (Int × Builder) Builder}
    {f : Builder → Except (Int × Builder) Builder}
    (h : ExtR a e r) (hf : ∀ b, Ext a b e → ExtR a e (f b)) : ExtR a e (r >>= f) := by
  cases r with
  | error x => exact h
  | ok b => exact hf b h

theorem extR_notSupIf {a : Builder} {e : List Frame} (c : Bool) (b : Builder) (h : Ext a b e) :
    ExtR a e (notSupIf c b) := by
  unfold Spa.notSupIf; split <;> exact h

theorem ext_setChoiceKind {a b : Builder} {e : List Frame} (h : Ext a b e) (nc k : Nat)
    (hnc : a.data.length ≤ nc) : Ext a (setChoiceKind b nc k) e :=
  ext_patch h _ _ (by omega)

theorem ext_raw {a b : Builder} {e : List Frame} (h : Ext a b e) (bs : Bytes) :
    Ext a (spa_pod_builder_raw b bs).2 e := ext_append h bs

theorem extR_filterEqual (cmp : Nat → Bytes → Bytes → Int) (type p1c p2c nc : Nat)
    (alt1 alt2 : List Bytes) {a b : Builder} {e : List Frame} (h : Ext a b e)
    (hnc : a.data.length ≤ nc) : ExtR a e (filterEqual cmp type p1c p2c nc alt1 alt2 b) := by
  unfold Spa.filterEqual
  split
  · rw [copyEqual_eq]
    dsimp only
    split_ifs <;>
      first
      | exact ext_append h _
      | exact ext_setChoiceKind (ext_append h _) nc _ hnc
  · exact h

theorem extR_filterEnumRange (cmp : Nat → Bytes → Bytes → Int) (type p1c p2c nc : Nat)
    (alt1 alt2 : List Bytes) {a b : Builder} {e : List Frame} (h : Ext a b e)
    (hnc : a.data.length ≤ nc) : ExtR a e (filterEnumRange cmp type p1c p2c nc alt1 alt2 b) := by
  unfold Spa.filterEnumRange
  split
  · rw [copyInRange_eq]
    dsimp only
    split_ifs <;>
      first
      | exact ext_append h _
      | exact ext_setChoiceKind (ext_append h _) nc _ hnc
  · exact h

theorem extR_filterRangeEnum (cmp : Nat → Bytes → Bytes → Int) (type p1c p2c nc : Nat)
    (alt1 alt2 : List Bytes) {a b : Builder} {e : List Frame} (h : Ext a b e)
    (hnc : a.data.length ≤ nc) : ExtR a e (filterRangeEnum cmp type p1c p2c nc alt1 alt2 b) := by
  unfold Spa.filterRangeEnum
  split
  · rw [copyInRange_eq]
    dsimp only
    split_ifs <;>
      first
      | exact ext_append h _
      | exact ext_setChoiceKind (ext_append h _) nc _ hnc
  · exact h

theorem extR_filterRangeRange (cmp : Nat → Bytes → Bytes → Int) (type p1c p2c nc : Nat)
    (alt1 alt2 : List Bytes) {a b : Builder} {e : List Frame} (h : Ext a b e)
    (hnc : a.data.length ≤ nc) : ExtR a e (filterRangeRange cmp type p1c p2c nc alt1 alt2 b) := by
  unfold Spa.filterRangeRange
  split
  · refine ext_setChoiceKind ?_ nc _ hnc
    split <;> split <;> exact ext_raw (ext_raw h _) _
  · exact h

theorem extR_filterChain (cmp : Nat → Bytes → Bytes → Int) (type p1c p2c nc : Nat)
    (alt1 alt2 : List Bytes) {a b : Builder} {e : List Frame} (h : Ext a b e)
    (hnc : a.data.length ≤ nc) : ExtR a e (filterChain cmp type p1c p2c nc alt1 alt2 b) := by
  unfold Spa.filterChain
  refine extR_bind (extR_filterEqual cmp type p1c p2c nc alt1 alt2 h hnc) fun b h => ?_
  refine extR_bind (extR_filterEnumRange cmp type p1c p2c nc alt1 alt2 h hnc) fun b h => ?_
  refine extR_bind (extR_notSupIf _ b h) fun b h => ?_
  refine extR_bind (extR_filterRangeEnum cmp type p1c p2c nc alt1 alt2 h hnc) fun b h => ?_
  refine extR_bind (extR_filterRangeRange cmp type p1c p2c nc alt1 alt2 h hnc) fun b h => ?_
  iterate 14 refine extR_bind (extR_notSupIf _ b h) fun b h => ?_
  exact h

theorem ext_storeChoice {a b : Builder} {e : List Frame} (h : Ext a b e) (nc : Nat)
    (old new : Choice) (hnc : a.data.length ≤ nc) :
    Ext a { b with data := storeChoice b.data nc old new } e := by
  unfold Spa.storeChoice
  simp only
  split <;> split
  · exact h
  · exact ext_patch h _ _ (by omega)
  · exact ext_patch h _ _ (by omega)
  · exact ext_patch (ext_patch h _ _ (by omega)) _ _ (by omega)

theorem ext_fixDefaultAt (cmp : Nat → Bytes → Bytes → Int) {a b : Builder} {e : List Frame}
    (h : Ext a b e) (nc : Nat) (hnc : a.data.length ≤ nc) : Ext a (fixDefaultAt cmp b nc) e :=
  ext_storeChoice h nc _ _ hnc

theorem extends_refl (b : Builder) : Extends b b := ⟨[], ext_refl b⟩

theorem extends_trans {a b c : Builder} (h1 : Extends a b) (h2 : Extends b c) : Extends a c := by
  obtain ⟨e1, h1⟩ := h1
  obtain ⟨e2, h2⟩ := h2
  exact ⟨_, ext_trans h1 h2⟩

/-- A `pop` after a matching push and any extending steps still extends. -/
theorem extends_pop_after_push {a b c : Builder} {f : Frame} (h1 : Ext a b [f])
    (h2 : Extends b c) : Extends a (spa_pod_builder_pop c) := by
  obtain ⟨e, h2⟩ := h2
  have h := ext_trans h1 h2
  cases e with
  | nil => exact ⟨[], ext_pop h⟩
  | cons g e1 => exact ⟨e1 ++ [f], ext_pop h⟩

theorem extends_raw_padded (b : Builder) (bs : Bytes) :
    Extends b (spa_pod_builder_raw_padded b bs).2 := by
  refine ⟨[], ?_⟩
  have h := ext_append (ext_append (ext_refl b) bs) (zeros (pad8 bs.length))
  simpa [spa_pod_builder_raw_padded] using h

/-- `spa_pod_filter_prop` extends the builder on every path. -/
theorem extends_filter_prop (cmp : Nat → Bytes → Bytes → Int) (b : Builder) (p1 p2 : PodProp) :
    Extends b (spa_pod_filter_prop cmp b p1 p2).2 := by
  by_cases hm : (spa_pod_get_values p1.value).type ≠ (spa_pod_get_values p2.value).type ∨
         (spa_pod_get_values p1.value).size ≠ (spa_pod_get_values p2.value).size ∨
         p1.key ≠ p2.key
  · rw [filter_prop_mismatch cmp b p1 p2 hm]; exact extends_refl b
  · have hm' : (spa_pod_get_values p1.value).type = (spa_pod_get_values p2.value).type ∧
         (spa_pod_get_values p1.value).size = (spa_pod_get_values p2.value).size ∧
         p1.key = p2.key := by
      simp only [not_or, not_not] at hm; exact hm
    rw [filter_prop_chain cmp b p1 p2 hm'.1 hm'.2.1 hm'.2.2]
    have h0 : Ext b (openBuilder b p1.key (spa_pod_get_values p1.value).size
        (spa_pod_get_values p1.value).type [(spa_pod_get_values p1.value).vals.headD []])
        [propFrame b.data] := by
      refine ⟨?_, rfl, ?_⟩
      · simp [openBuilder, openProp]
      · simp [propFrame]
    have hc := extR_filterChain cmp (spa_pod_get_values p1.value).type
      (spa_pod_get_values p1.value).choice (spa_pod_get_values p2.value).choice
      (b.data.length + 8) (alternatives (spa_pod_get_values p1.value))
      (alternatives (spa_pod_get_values p2.value)) h0 (by omega)
    revert hc
    cases filterChain cmp (spa_pod_get_values p1.value).type
      (spa_pod_get_values p1.value).choice (spa_pod_get_values p2.value).choice
      (b.data.length + 8) (alternatives (spa_pod_get_values p1.value))
      (alternatives (spa_pod_get_values p2.value))
      (openBuilder b p1.key (spa_pod_get_values p1.value).size
        (spa_pod_get_values p1.value).type [(spa_pod_get_values p1.value).vals.headD []]) with
    | error x => intro hc; exact ⟨_, hc⟩
    | ok b1 => intro hc; exact ⟨[], ext_fixDefaultAt cmp (ext_pop hc) _ (by omega)⟩

theorem extends_filterProps (cmp : Nat → Bytes → Bytes → Int) (pf : Pod)
    (props : List (Nat × Nat × Pod)) (res : Int) (b : Builder) :
    Extends b (filterProps cmp pf props res b).2 := by
  induction props generalizing res b with
  | nil => exact extends_refl b
  | cons p rest ih =>
    obtain ⟨k, f, v⟩ := p
    unfold Spa.filterProps
    have hr : Extends b (match spa_pod_find_prop pf k with
        | some p2 => spa_pod_filter_prop cmp b { key := k, flags := f, value := v } p2
        | none => (res, (spa_pod_builder_raw_padded b
            (PodProp.bytes { key := k, flags := f, value := v })).2)).2 := by
      cases spa_pod_find_prop pf k with
      | none => exact extends_raw_padded b _
      | some p2 => exact extends_filter_prop cmp b _ p2
    dsimp only
    split
    · exact hr
    · exact extends_trans hr (ih _ _)

theorem ext_push_object (b : Builder) (t id : Nat) :
    Ext b (spa_pod_builder_push_object b t id).2
      [{ start := b.offset, isChoice := false, first := false }] := by
  refine ⟨?_, rfl, ?_⟩
  · simp [spa_pod_builder_push_object]
  · simp [Builder.offset]

theorem ext_push_struct (b : Builder) :
    Ext b (spa_pod_builder_push_struct b).2
      [{ start := b.offset, isChoice := false, first := false }] := by
  refine ⟨?_, rfl, ?_⟩
  · simp [spa_pod_builder_push_struct]
  · simp [Builder.offset]

mutual
theorem extendsS_filterSibling (cmp : Nat → Bytes → Bytes → Int) (pp : Pod) (res : Int)
    (b : Builder) (cur : Cursor) : ExtendsS b (filterSibling cmp pp res b cur) :=
  match pp with
  | .object t id props => by
    unfold Spa.filterSibling
    cases cur.pf with
    | none =>
      dsimp only
      split <;> exact extends_raw_padded b _
    | some pf =>
      dsimp only
      split
      · exact extends_refl b
      · have h := extends_pop_after_push (ext_push_object b t id)
          (extends_filterProps cmp pf props res (spa_pod_builder_push_object b t id).2)
        split <;> exact h
  | .struct items => by
    unfold Spa.filterSibling
    cases cur.pf with
    | none =>
      dsimp only
      split <;> exact extends_raw_padded b _
    | some pf =>
      dsimp only
      split
      · exact extends_refl b
      · have h := extends_pop_after_push (ext_push_struct b)
          (extends_filterSiblings cmp items 0 (spa_pod_builder_push_struct b).2
            (Cursor.init pf.children (cur.rest ++ cur.after)))
        split <;> exact h
  | .leaf t body => by
    unfold Spa.filterSibling
    cases cur.pf with
    | none =>
      dsimp only
      split <;> exact extends_raw_padded b _
    | some pf =>
      dsimp only
      split
      · exact extends_refl b
      · split
        · exact extends_refl b
        · split <;> exact extends_raw_padded b _
  | .choice c => by
    unfold Spa.filterSibling
    cases cur.pf with
    | none =>
      dsimp only
      split <;> exact extends_raw_padded b _
    | some pf =>
      dsimp only
      split
      · exact extends_refl b
      · split
        · exact extends_refl b
        · split <;> exact extends_raw_padded b _
theorem extends_filterSiblings (cmp : Nat → Bytes → Bytes → Int) (pods : List Pod) (res : Int)
    (b : Builder) (cur : Cursor) : Extends b (filterSiblings cmp pods res b cur).2 :=
  match pods with
  | [] => by unfold Spa.filterSiblings; exact extends_refl b
  | pp :: rest => by
    unfold Spa.filterSiblings
    have h := extendsS_filterSibling cmp pp res b cur
    revert h
    cases filterSibling cmp pp res b cur with
    | error x => intro h; exact h
    | ok r =>
      intro h
      obtain ⟨r1, b1, c1⟩ := r
      exact extends_trans h (extends_filterSiblings cmp rest r1 b1 c1)
end

theorem extends_filter_part (cmp : Nat → Bytes → Bytes → Int) (b : Builder)
    (pod filter beyond : List Pod) :
    Extends b (spa_pod_filter_part cmp b pod filter beyond).2 :=
  extends_filterSiblings cmp pod 0 b _

/-- Rolling back to a checkpoint taken at `b` from any builder that extends `b`
gives `b` back. -/
theorem reset_of_extends {b c : Builder} (h : Extends b c) :
    spa_pod_builder_reset c (spa_pod_builder_get_state b) = b := by
  obtain ⟨e, hp, hf, _⟩ := h
  obtain ⟨t, ht⟩ := hp
  cases b with
  | mk bd bf =>
    cases c with
    | mk cd cf =>
      simp only at ht hf
      subst ht; subst hf
      simp [spa_pod_builder_reset, spa_pod_builder_get_state, Builder.offset]

/-! ## What `spa_pod_choice_fix_default` computes -/

theorem enumBest_eq (cmp : Nat → Bytes → Bytes → Int) (type : Nat) (d : Bytes)
    (l : List Bytes) (best : Option Bytes) :
    enumBest cmp type d l best =
      match l.find? (fun a => cmp type d a = 0) with
      | some a => some a
      | none => if best.isNone then l.head? else best := by
  induction l generalizing best with
  | nil => cases best <;> simp [enumBest]
  | cons a rest ih =>
    unfold enumBest
    by_cases h : cmp type d a = 0
    · simp [h]
    · rw [if_neg h, ih]
      simp only [List.find?_cons, h, decide_False]
      cases rest.find? (fun a => cmp type d a = 0) with
      | some x => rfl
      | none => cases best <;> simp

/-- The `Enum` case: the default becomes `enumDefault`, and the kind becomes
`None` exactly when there is no value besides the default. -/
theorem fix_default_enum (cmp : Nat → Bytes → Bytes → Int) (flags type size : Nat)
    (d : Bytes) (tl : List Bytes) :
    (spa_pod_choice_fix_default cmp
      { kind := SPA_CHOICE_Enum, flags := flags, childType := type, childSize := size,
        values := d :: tl }).2 =
      { kind := if tl = [] then SPA_CHOICE_None else SPA_CHOICE_Enum, flags := flags,
        childType := type, childSize := size, values := enumDefault cmp type d tl :: tl } := by
  unfold spa_pod_choice_fix_default
  simp only [SPA_CHOICE_Enum, SPA_CHOICE_None, SPA_CHOICE_Range, SPA_CHOICE_Step,
    List.tail_cons, List.headD_cons, List.length_cons, enumBest_eq, Choice.setDefault,
    enumDefault]
  cases tl with
  | nil => simp
  | cons a rest =>
    cases h : (a :: rest).find? (fun a => cmp type d a = 0) with
    | some x => simp
    | none => simp

/-- The `Range` and `Step` cases on `[d, lo, hi, ...]`: the default is clamped. -/
theorem fix_default_range (cmp : Nat → Bytes → Bytes → Int) (k flags type size : Nat)
    (d lo hi : Bytes) (rest : List Bytes) (hk : k = SPA_CHOICE_Range ∨ k = SPA_CHOICE_Step) :
    (spa_pod_choice_fix_default cmp
      { kind := k, flags := flags, childType := type, childSize := size,
        values := d :: lo :: hi :: rest }).2 =
      { kind := k, flags := flags, childType := type, childSize := size,
        values := clampDefault cmp type d lo hi :: lo :: hi :: rest } := by
  unfold spa_pod_choice_fix_default
  have hn : k ≠ SPA_CHOICE_None := by
    rcases hk with h | h <;> rw [h] <;> decide
  simp only [hn, if_false, hk, if_true, List.length_cons, Choice.setDefault, clampDefault]
  by_cases h1 : cmp type d lo < 0 <;> by_cases h2 : cmp type lo hi > 0 <;>
    by_cases h3 : cmp type d hi > 0 <;> simp [h1, h2, h3]

/-! ## Results of `spa_pod_filter_prop` per pair of kinds -/

theorem mem_matchesOf (cmp : Nat → Bytes → Bytes → Int) (type : Nat) (alt2 : List Bytes)
    (a1 x : Bytes) :
    x ∈ matchesOf cmp type alt2 a1 ↔ x = a1 ∧ ∃ a2 ∈ alt2, cmp type a1 a2 = 0 := by
  simp only [matchesOf, List.mem_map, List.mem_filter, decide_eq_true_eq]
  constructor
  · rintro ⟨a2, ⟨h1, h2⟩, rfl⟩; exact ⟨rfl, a2, h1, h2⟩
  · rintro ⟨rfl, a2, h1, h2⟩; exact ⟨a2, ⟨h1, h2⟩, rfl⟩

theorem mem_equalMatches (cmp : Nat → Bytes → Bytes → Int) (type : Nat)
    (alt1 alt2 : List Bytes) (x : Bytes) :
    x ∈ equalMatches cmp type alt1 alt2 ↔ x ∈ alt1 ∧ ∃ a2 ∈ alt2, cmp type x a2 = 0 := by
  simp only [equalMatches, List.mem_flatMap, mem_matchesOf]
  constructor
  · rintro ⟨a1, h1, rfl, h2⟩; exact ⟨h1, h2⟩
  · rintro ⟨h1, h2⟩; exact ⟨x, h1, rfl, h2⟩

theorem matchesOf_length_le (cmp : Nat → Bytes → Bytes → Int) (type : Nat) (alt2 : List Bytes)
    (a1 : Bytes) : (matchesOf cmp type alt2 a1).length ≤ alt2.length := by
  simp only [matchesOf, List.length_map]
  exact List.length_filter_le _ _

theorem equalMatches_length_le (cmp : Nat → Bytes → Bytes → Int) (type : Nat)
    (alt1 alt2 : List Bytes) :
    (equalMatches cmp type alt1 alt2).length ≤ alt1.length * alt2.length := by
  induction alt1 with
  | nil => simp [equalMatches]
  | cons a rest ih =>
    have h := matchesOf_length_le cmp type alt2 a
    simp only [equalMatches, List.flatMap_cons, List.length_append, List.length_cons] at ih ⊢
    rw [Nat.succ_mul]
    omega

theorem alternatives_subset (v : Values) : ∀ x ∈ alternatives v, x ∈ v.vals := by
  intro x hx
  unfold alternatives at hx
  split at hx
  · exact List.mem_of_mem_take hx
  · exact List.mem_of_mem_drop hx

theorem headD_mem_of_ne_nil (l : List Bytes) (h : l ≠ []) : l.headD [] ∈ l := by
  cases l with
  | nil => exact absurd rfl h
  | cons a t => simp

theorem wf_of_values (v : Values) (hw : v.WF) (k : Nat) (hk : k < 4294967296)
    (vals : List Bytes) (hsub : ∀ x ∈ vals, x ∈ v.vals) (hfit : Fits v.size vals.length) :
    Choice.WF { kind := k, flags := 0, childType := v.type, childSize := v.size,
                values := vals } := by
  obtain ⟨_, h0, h1, h2, h3⟩ := hw
  exact ⟨hk, by norm_num, h2, h0, h1, fun x hx => h3 x (hsub x hx), hfit⟩

theorem fits_mono {size n m : Nat} (h : Fits size m) (hnm : n ≤ m) : Fits size n := by
  unfold Fits at *
  have := Nat.mul_le_mul_right size hnm
  omega

/-- None/Enum against None/Enum: the whole call, in closed form. -/
theorem filter_prop_equal_result (cmp : Nat → Bytes → Bytes → Int) (b : Builder)
    (p1 p2 : PodProp)
    (ht : (spa_pod_get_values p1.value).type = (spa_pod_get_values p2.value).type)
    (hs : (spa_pod_get_values p1.value).size = (spa_pod_get_values p2.value).size)
    (hk : p1.key = p2.key)
    (h1 : (spa_pod_get_values p1.value).choice = SPA_CHOICE_None ∨
          (spa_pod_get_values p1.value).choice = SPA_CHOICE_Enum)
    (h2 : (spa_pod_get_values p2.value).choice = SPA_CHOICE_None ∨
          (spa_pod_get_values p2.value).choice = SPA_CHOICE_Enum)
    (hw : (spa_pod_get_values p1.value).WF)
    (hfit : Fits (spa_pod_get_values p1.value).size
      (1 + (alternatives (spa_pod_get_values p1.value)).length *
           (alternatives (spa_pod_get_values p2.value)).length)) :
    spa_pod_filter_prop cmp b p1 p2 =
      if equalMatches cmp (spa_pod_get_values p1.value).type
          (alternatives (spa_pod_get_values p1.value))
          (alternatives (spa_pod_get_values p2.value)) = [] then
        (-EINVAL, openBuilder b p1.key (spa_pod_get_values p1.value).size
          (spa_pod_get_values p1.value).type [(spa_pod_get_values p1.value).vals.headD []])
      else
        (0, closedBuilder b p1.key (spa_pod_choice_fix_default cmp
          { kind := SPA_CHOICE_Enum, flags := 0
            childType := (spa_pod_get_values p1.value).type
            childSize := (spa_pod_get_values p1.value).size
            values := (spa_pod_get_values p1.value).vals.headD [] ::
              (if (spa_pod_get_values p1.value).choice = SPA_CHOICE_Enum then
                equalMatches cmp (spa_pod_get_values p1.value).type
                  (alternatives (spa_pod_get_values p1.value))
                  (alternatives (spa_pod_get_values p2.value))
               else []) }).2) := by
  rw [filter_prop_chain cmp b p1 p2 ht hs hk, chain_equal _ _ _ _ _ _ _ _ h1 h2,
    copyEqual_open]
  generalize hv1 : spa_pod_get_values p1.value = v1 at *
  generalize hv2 : spa_pod_get_values p2.value = v2 at *
  have htail : v1.choice ≠ SPA_CHOICE_Enum →
      (alternatives v1).tail.flatMap (matchesOf cmp v1.type (alternatives v2)) = [] := by
    intro hne
    have h0 : v1.choice = SPA_CHOICE_None := by
      rcases h1 with h | h
      · exact h
      · exact absurd h hne
    unfold alternatives
    rw [if_pos h0]
    cases v1.vals with
    | nil => simp
    | cons a t => simp
  have hsubM : ∀ x ∈ equalMatches cmp v1.type (alternatives v1) (alternatives v2),
      x ∈ v1.vals := fun x hx =>
    alternatives_subset v1 x ((mem_equalMatches _ _ _ _ _).mp hx).1
  have hlenM := equalMatches_length_le cmp v1.type (alternatives v1) (alternatives v2)
  unfold equalMatches at hsubM hlenM ⊢
  generalize (alternatives v1).flatMap (matchesOf cmp v1.type (alternatives v2)) = M at *
  have hW : (if v1.choice = SPA_CHOICE_Enum then M
        else (alternatives v1).tail.flatMap (matchesOf cmp v1.type (alternatives v2)))
        = (if v1.choice = SPA_CHOICE_Enum then M else []) := by
    by_cases hE : v1.choice = SPA_CHOICE_Enum
    · simp only [hE, if_true]
    · simp only [hE, if_false, htail hE]
  rw [hW]
  simp only [List.length_eq_zero]
  by_cases hM : M = []
  · subst hM
    simp
  · simp only [hM, if_false]
    rw [close_open]
    apply wf_of_values v1 hw _ (by decide)
    · intro x hx
      rcases List.mem_cons.mp hx with rfl | hx
      · exact headD_mem_of_ne_nil _ hw.1
      · split at hx
        · exact hsubM x hx
        · simp at hx
    · refine fits_mono hfit ?_
      simp only [List.length_cons]
      split
      · omega
      · simp

theorem inRange_subset (cmp : Nat → Bytes → Bytes → Int) (type : Nat) (lo hi : Bytes)
    (as : List Bytes) : ∀ x ∈ inRange cmp type lo hi as, x ∈ as := by
  intro x hx
  exact List.mem_of_mem_filter hx

theorem mem_inRange (cmp : Nat → Bytes → Bytes → Int) (type : Nat) (lo hi : Bytes)
    (as : List Bytes) (x : Bytes) :
    x ∈ inRange cmp type lo hi as ↔ x ∈ as ∧ 0 ≤ cmp type x lo ∧ cmp type x hi ≤ 0 := by
  simp [inRange, List.mem_filter]

theorem inRange_length_le (cmp : Nat → Bytes → Bytes → Int) (type : Nat) (lo hi : Bytes)
    (as : List Bytes) : (inRange cmp type lo hi as).length ≤ as.length :=
  List.length_filter_le _ _

theorem enumDefault_of_exists (cmp : Nat → Bytes → Bytes → Int) (type : Nat) (d : Bytes)
    (tl : List Bytes) (h : ∃ a ∈ tl, cmp type d a = 0) :
    enumDefault cmp type d tl ∈ tl ∧ cmp type d (enumDefault cmp type d tl) = 0 := by
  unfold enumDefault
  cases hf : tl.find? (fun a => cmp type d a = 0) with
  | some a =>
    have h1 := List.mem_of_find?_eq_some hf
    have h2 := List.find?_some hf
    exact ⟨h1, by simpa using h2⟩
  | none =>
    obtain ⟨a, ha, h0⟩ := h
    have := List.find?_eq_none.mp hf a ha
    simp [h0] at this

theorem enumDefault_of_none (cmp : Nat → Bytes → Bytes → Int) (type : Nat) (d : Bytes)
    (tl : List Bytes) (h : ∀ a ∈ tl, cmp type d a ≠ 0) :
    enumDefault cmp type d tl = tl.headD d := by
  unfold enumDefault
  have : tl.find? (fun a => cmp type d a = 0) = none := by
    rw [List.find?_eq_none]
    intro a ha
    simpa using h a ha
  rw [this]

theorem enumDefault_mem (cmp : Nat → Bytes → Bytes → Int) (type : Nat) (d : Bytes)
    (tl : List Bytes) (h : tl ≠ []) : enumDefault cmp type d tl ∈ tl := by
  by_cases he : ∃ a ∈ tl, cmp type d a = 0
  · exact (enumDefault_of_exists cmp type d tl he).1
  · rw [enumDefault_of_none cmp type d tl (by
      intro a ha h0; exact he ⟨a, ha, h0⟩)]
    cases tl with
    | nil => exact absurd rfl h
    | cons a t => simp

/-- None/Enum against Range: the whole call, in closed form. -/
theorem filter_prop_enum_range_result (cmp : Nat → Bytes → Bytes → Int) (b : Builder)
    (p1 p2 : PodProp)
    (ht : (spa_pod_get_values p1.value).type = (spa_pod_get_values p2.value).type)
    (hs : (spa_pod_get_values p1.value).size = (spa_pod_get_values p2.value).size)
    (hk : p1.key = p2.key)
    (h1 : (spa_pod_get_values p1.value).choice = SPA_CHOICE_None ∨
          (spa_pod_get_values p1.value).choice = SPA_CHOICE_Enum)
    (h2 : (spa_pod_get_values p2.value).choice = SPA_CHOICE_Range)
    (hw : (spa_pod_get_values p1.value).WF)
    (hfit : Fits (spa_pod_get_values p1.value).size
      (1 + (alternatives (spa_pod_get_values p1.value)).length)) :
    spa_pod_filter_prop cmp b p1 p2 =
      if inRange cmp (spa_pod_get_values p1.value).type
          ((alternatives (spa_pod_get_values p2.value)).getD 0 [])
          ((alternatives (spa_pod_get_values p2.value)).getD 1 [])
          (alternatives (spa_pod_get_values p1.value)) = [] then
        (-EINVAL, openBuilder b p1.key (spa_pod_get_values p1.value).size
          (spa_pod_get_values p1.value).type [(spa_pod_get_values p1.value).vals.headD []])
      else
        (0, closedBuilder b p1.key
          { kind := SPA_CHOICE_Enum, flags := 0
            childType := (spa_pod_get_values p1.value).type
            childSize := (spa_pod_get_values p1.value).size
            values :=
              enumDefault cmp (spa_pod_get_values p1.value).type
                ((spa_pod_get_values p1.value).vals.headD [])
                (inRange cmp (spa_pod_get_values p1.value).type
                  ((alternatives (spa_pod_get_values p2.value)).getD 0 [])
                  ((alternatives (spa_pod_get_values p2.value)).getD 1 [])
                  (alternatives (spa_pod_get_values p1.value))) ::
              inRange cmp (spa_pod_get_values p1.value).type
                ((alternatives (spa_pod_get_values p2.value)).getD 0 [])
                ((alternatives (spa_pod_get_values p2.value)).getD 1 [])
                (alternatives (spa_pod_get_values p1.value)) }) := by
  rw [filter_prop_chain cmp b p1 p2 ht hs hk, h2, chain_enum_range _ _ _ _ _ _ _ h1,
    copyInRange_open]
  generalize hv1 : spa_pod_get_values p1.value = v1 at *
  generalize hv2 : spa_pod_get_values p2.value = v2 at *
  have hsub : ∀ x ∈ inRange cmp v1.type ((alternatives v2).getD 0 [])
      ((alternatives v2).getD 1 []) (alternatives v1), x ∈ v1.vals := fun x hx =>
    alternatives_subset v1 x (inRange_subset _ _ _ _ _ x hx)
  have hlen := inRange_length_le cmp v1.type ((alternatives v2).getD 0 [])
      ((alternatives v2).getD 1 []) (alternatives v1)
  generalize inRange cmp v1.type ((alternatives v2).getD 0 [])
      ((alternatives v2).getD 1 []) (alternatives v1) = W at *
  simp only [List.length_eq_zero]
  by_cases hW : W = []
  · subst hW; simp
  · simp only [hW, if_false]
    rw [close_open, fix_default_enum]
    · simp [hW]
    · apply wf_of_values v1 hw _ (by decide)
      · intro x hx
        rcases List.mem_cons.mp hx with rfl | hx
        · exact headD_mem_of_ne_nil _ hw.1
        · exact hsub x hx
      · exact fits_mono hfit (by simp only [List.length_cons]; omega)

/-- Range against None/Enum: the whole call, in closed form. -/
theorem filter_prop_range_enum_result (cmp : Nat → Bytes → Bytes → Int) (b : Builder)
    (p1 p2 : PodProp)
    (ht : (spa_pod_get_values p1.value).type = (spa_pod_get_values p2.value).type)
    (hs : (spa_pod_get_values p1.value).size = (spa_pod_get_values p2.value).size)
    (hk : p1.key = p2.key)
    (h1 : (spa_pod_get_values p1.value).choice = SPA_CHOICE_Range)
    (h2 : (spa_pod_get_values p2.value).choice = SPA_CHOICE_None ∨
          (spa_pod_get_values p2.value).choice = SPA_CHOICE_Enum)
    (hw : (spa_pod_get_values p1.value).WF)
    (hw2 : (spa_pod_get_values p2.value).WF)
    (hfit : Fits (spa_pod_get_values p1.value).size
      (1 + (alternatives (spa_pod_get_values p2.value)).length)) :
    spa_pod_filter_prop cmp b p1 p2 =
      if inRange cmp (spa_pod_get_values p1.value).type
          ((alternatives (spa_pod_get_values p1.value)).getD 0 [])
          ((alternatives (spa_pod_get_values p1.value)).getD 1 [])
          (alternatives (spa_pod_get_values p2.value)) = [] then
        (-EINVAL, openBuilder b p1.key (spa_pod_get_values p1.value).size
          (spa_pod_get_values p1.value).type [(spa_pod_get_values p1.value).vals.headD []])
      else
        (0, closedBuilder b p1.key
          { kind := SPA_CHOICE_Enum, flags := 0
            childType := (spa_pod_get_values p1.value).type
            childSize := (spa_pod_get_values p1.value).size
            values :=
              enumDefault cmp (spa_pod_get_values p1.value).type
                ((spa_pod_get_values p1.value).vals.headD [])
                (inRange cmp (spa_pod_get_values p1.value).type
                  ((alternatives (spa_pod_get_values p1.value)).getD 0 [])
                  ((alternatives (spa_pod_get_values p1.value)).getD 1 [])
                  (alternatives (spa_pod_get_values p2.value))) ::
              inRange cmp (spa_pod_get_values p1.value).type
                ((alternatives (spa_pod_get_values p1.value)).getD 0 [])
                ((alternatives (spa_pod_get_values p1.value)).getD 1 [])
                (alternatives (spa_pod_get_values p2.value)) }) := by
  rw [filter_prop_chain cmp b p1 p2 ht hs hk, h1, chain_range_enum _ _ _ _ _ _ _ h2,
    copyInRange_open]
  generalize hv1 : spa_pod_get_values p1.value = v1 at *
  generalize hv2 : spa_pod_get_values p2.value = v2 at *
  have hsub : ∀ x ∈ inRange cmp v1.type ((alternatives v1).getD 0 [])
      ((alternatives v1).getD 1 []) (alternatives v2), x ∈ v2.vals := fun x hx =>
    alternatives_subset v2 x (inRange_subset _ _ _ _ _ x hx)
  have hlen := inRange_length_le cmp v1.type ((alternatives v1).getD 0 [])
      ((alternatives v1).getD 1 []) (alternatives v2)
  generalize inRange cmp v1.type ((alternatives v1).getD 0 [])
      ((alternatives v1).getD 1 []) (alternatives v2) = W at *
  simp only [List.length_eq_zero]
  by_cases hW : W = []
  · subst hW; simp
  · simp only [hW, if_false]
    rw [close_open, fix_default_enum]
    · simp [hW]
    · obtain ⟨_, h0, hlt, hty, hl1⟩ := hw
      refine ⟨by norm_num [SPA_CHOICE_Enum], by norm_num, hty, h0, hlt, ?_, ?_⟩
      · intro x hx
        rcases List.mem_cons.mp hx with rfl | hx
        · exact hl1 _ (headD_mem_of_ne_nil _ (by assumption))
        · show x.length = v1.size
          rw [hs]; exact hw2.2.2.2.2 x (hsub x hx)
      · exact fits_mono hfit (by simp only [List.length_cons]; omega)

/-- The sixteen unsupported pairs of kinds: the call returns `-ENOTSUP` and
leaves the property header and the open choice frame behind. -/
theorem filter_prop_notsup_result (cmp : Nat → Bytes → Bytes → Int) (b : Builder)
    (p1 p2 : PodProp)
    (ht : (spa_pod_get_values p1.value).type = (spa_pod_get_values p2.value).type)
    (hs : (spa_pod_get_values p1.value).size = (spa_pod_get_values p2.value).size)
    (hk : p1.key = p2.key)
    (h1 : (spa_pod_get_values p1.value).choice ≤ 4)
    (h2 : (spa_pod_get_values p2.value).choice ≤ 4)
    (h : (spa_pod_get_values p1.value).choice = SPA_CHOICE_Step ∨
         (spa_pod_get_values p1.value).choice = SPA_CHOICE_Flags ∨
         (spa_pod_get_values p2.value).choice = SPA_CHOICE_Step ∨
         (spa_pod_get_values p2.value).choice = SPA_CHOICE_Flags) :
    spa_pod_filter_prop cmp b p1 p2 =
      (-ENOTSUP, openBuilder b p1.key (spa_pod_get_values p1.value).size
        (spa_pod_get_values p1.value).type [(spa_pod_get_values p1.value).vals.headD []]) := by
  rw [filter_prop_chain cmp b p1 p2 ht hs hk, chain_notsup]
  rcases h with h | h | h | h
  · exact Or.inl ⟨h, h2⟩
  · exact Or.inr (Or.inl ⟨h, h2⟩)
  · exact Or.inr (Or.inr ⟨h1, Or.inl h⟩)
  · exact Or.inr (Or.inr ⟨h1, Or.inr h⟩)

/-- The nine supported pairs of kinds: the call returns 0 or `-EINVAL`. -/
theorem filter_prop_supported_code (cmp : Nat → Bytes → Bytes → Int) (b : Builder)
    (p1 p2 : PodProp)
    (ht : (spa_pod_get_values p1.value).type = (spa_pod_get_values p2.value).type)
    (hs : (spa_pod_get_values p1.value).size = (spa_pod_get_values p2.value).size)
    (hk : p1.key = p2.key)
    (h1 : (spa_pod_get_values p1.value).choice = SPA_CHOICE_None ∨
          (spa_pod_get_values p1.value).choice = SPA_CHOICE_Enum ∨
          (spa_pod_get_values p1.value).choice = SPA_CHOICE_Range)
    (h2 : (spa_pod_get_values p2.value).choice = SPA_CHOICE_None ∨
          (spa_pod_get_values p2.value).choice = SPA_CHOICE_Enum ∨
          (spa_pod_get_values p2.value).choice = SPA_CHOICE_Range) :
    (spa_pod_filter_prop cmp b p1 p2).1 = 0 ∨ (spa_pod_filter_prop cmp b p1 p2).1 = -EINVAL := by
  rw [filter_prop_chain cmp b p1 p2 ht hs hk]
  have e1 : ∀ k1 k2, (k1 = SPA_CHOICE_None ∨ k1 = SPA_CHOICE_Enum) →
      (k2 = SPA_CHOICE_None ∨ k2 = SPA_CHOICE_Enum) → ∀ ty nc a1 a2 b0,
      (match filterChain cmp ty k1 k2 nc a1 a2 b0 with
        | .error e => e
        | .ok b1 => ((0 : Int), fixDefaultAt cmp (spa_pod_builder_pop b1) nc)).1 = 0 ∨
      (match filterChain cmp ty k1 k2 nc a1 a2 b0 with
        | .error e => e
        | .ok b1 => ((0 : Int), fixDefaultAt cmp (spa_pod_builder_pop b1) nc)).1 = -EINVAL := by
    intro k1 k2 hk1 hk2 ty nc a1 a2 b0
    rw [chain_equal _ _ _ _ _ _ _ _ hk1 hk2]
    split_ifs <;> simp
  have e2 : ∀ k1, (k1 = SPA_CHOICE_None ∨ k1 = SPA_CHOICE_Enum) → ∀ ty nc a1 a2 b0,
      (match filterChain cmp ty k1 SPA_CHOICE_Range nc a1 a2 b0 with
        | .error e => e
        | .ok b1 => ((0 : Int), fixDefaultAt cmp (spa_pod_builder_pop b1) nc)).1 = 0 ∨
      (match filterChain cmp ty k1 SPA_CHOICE_Range nc a1 a2 b0 with
        | .error e => e
        | .ok b1 => ((0 : Int), fixDefaultAt cmp (spa_pod_builder_pop b1) nc)).1 = -EINVAL := by
    intro k1 hk1 ty nc a1 a2 b0
    rw [chain_enum_range _ _ _ _ _ _ _ hk1]
    split_ifs <;> simp
  have e3 : ∀ k2, (k2 = SPA_CHOICE_None ∨ k2 = SPA_CHOICE_Enum) → ∀ ty nc a1 a2 b0,
      (match filterChain cmp ty SPA_CHOICE_Range k2 nc a1 a2 b0 with
        | .error e => e
        | .ok b1 => ((0 : Int), fixDefaultAt cmp (spa_pod_builder_pop b1) nc)).1 = 0 ∨
      (match filterChain cmp ty SPA_CHOICE_Range k2 nc a1 a2 b0 with
        | .error e => e
        | .ok b1 => ((0 : Int), fixDefaultAt cmp (spa_pod_builder_pop b1) nc)).1 = -EINVAL := by
    intro k2 hk2 ty nc a1 a2 b0
    rw [chain_range_enum _ _ _ _ _ _ _ hk2]
    split_ifs <;> simp
  rcases h1 with h1 | h1 | h1 <;> rcases h2 with h2 | h2 | h2
  · exact e1 _ _ (Or.inl h1) (Or.inl h2) _ _ _ _ _
  · exact e1 _ _ (Or.inl h1) (Or.inr h2) _ _ _ _ _
  · rw [h2]; exact e2 _ (Or.inl h1) _ _ _ _ _
  · exact e1 _ _ (Or.inr h1) (Or.inl h2) _ _ _ _ _
  · exact e1 _ _ (Or.inr h1) (Or.inr h2) _ _ _ _ _
  · rw [h2]; exact e2 _ (Or.inr h1) _ _ _ _ _
  · rw [h1]; exact e3 _ (Or.inl h2) _ _ _ _ _
  · rw [h1]; exact e3 _ (Or.inr h2) _ _ _ _ _
  · rw [h1, h2, chain_range_range]; left; rfl

/-! ## The claims -/

theorem pod_bytes_length (p : Pod) : p.bytes.length = p.size := by
  simp [Pod.bytes, Pod.size, le32_length]; omega

/-- C1: `spa_pod_filter` with an absent (NULL) filter returns 0 and appends to the
builder, from the pre-call offset on, a byte-identical copy of the source POD
(header and body) followed by its alignment padding; the bytes written before
and the frame stack stay as they were, and the result refers to the copy (the
pre-call offset). -/
theorem filter_null_copies_source (cmp : Nat → Bytes → Bytes → Int) (b : Builder)
    (result : Option Nat) (pod : Pod) (beyond : List Pod) :
    spa_pod_filter cmp b result (some pod) none beyond =
      (0, { data := b.data ++ pod.bytes ++ zeros (pad8 pod.size), frames := b.frames },
        some b.offset) ∧
    slice (spa_pod_filter cmp b result (some pod) none beyond).2.1.data b.offset pod.size
      = pod.bytes := by
  constructor
  · simp [spa_pod_filter, spa_pod_builder_raw_padded, spa_pod_builder_deref, pod_bytes_length]
  · simp only [spa_pod_filter, spa_pod_builder_raw_padded, Builder.offset, slice,
      List.append_assoc]
    rw [List.drop_left, ← pod_bytes_length, List.take_left]

/-- C2: for a present filter, when `spa_pod_filter` returns a negative result the
builder (write offset, bytes and open-frame stack) is exactly the builder before
the call and the result reference keeps its old content; when it returns a
non-negative result (0) the result refers to the pre-call offset and the bytes
written before the call are still in place below it. -/
theorem filter_failure_rolls_back (cmp : Nat → Bytes → Bytes → Int) (b : Builder)
    (result : Option Nat) (pod filter : Pod) (beyond : List Pod) :
    ((spa_pod_filter cmp b result (some pod) (some filter) beyond).1 < 0 →
      (spa_pod_filter cmp b result (some pod) (some filter) beyond).2.1 = b ∧
      (spa_pod_filter cmp b result (some pod) (some filter) beyond).2.2 = result) ∧
    (0 ≤ (spa_pod_filter cmp b result (some pod) (some filter) beyond).1 →
      (spa_pod_filter cmp b result (some pod) (some filter) beyond).2.2 = some b.offset ∧
      b.data <+: (spa_pod_filter cmp b result (some pod) (some filter) beyond).2.1.data) := by
  have hext := extends_filter_part cmp b [pod] [filter] beyond
  unfold spa_pod_filter
  dsimp only
  by_cases hneg : (spa_pod_filter_part cmp b [pod] [filter] beyond).1 < 0
  · simp only [if_pos hneg]
    refine ⟨fun _ => ⟨reset_of_extends hext, trivial⟩, fun h => absurd hneg (not_lt.mpr h)⟩
  · simp only [if_neg hneg]
    refine ⟨fun h => absurd h hneg, fun _ => ⟨?_, ?_⟩⟩
    · simp [spa_pod_builder_deref, spa_pod_builder_get_state]
    · obtain ⟨e, he⟩ := hext
      exact he.1

/-- Witness for C2: two disjoint Enum choices nested in a Struct and an Object
make the call fail with `-EINVAL` on a builder in use, which is handed back
unchanged; a Range filter that overlaps succeeds and the result is the old offset. -/
theorem filter_failure_rolls_back_witness :
    (spa_pod_filter compareInt exBuilder none (some exSource) (some exFilterDisjoint) []).1 < 0 ∧
    (spa_pod_filter compareInt exBuilder none (some exSource) (some exFilterDisjoint) []).2.1
      = exBuilder ∧
    (spa_pod_filter compareInt exBuilder none (some exSource) (some exFilterRange) []).2.2
      = some 3 :=
  ⟨by decide,
   ((filter_failure_rolls_back compareInt exBuilder none exSource exFilterDisjoint []).1
      (by decide)).1,
   ((filter_failure_rolls_back compareInt exBuilder none exSource exFilterRange []).2
      (by decide)).1⟩

theorem equalMatches_eq_nil (cmp : Nat → Bytes → Bytes → Int) (type : Nat)
    (alt1 alt2 : List Bytes) :
    equalMatches cmp type alt1 alt2 = [] ↔ ∀ a1 ∈ alt1, ∀ a2 ∈ alt2, cmp type a1 a2 ≠ 0 := by
  rw [List.eq_nil_iff_forall_not_mem]
  simp only [mem_equalMatches]
  constructor
  · intro h a1 h1 a2 h2 h0; exact h a1 ⟨h1, a2, h2, h0⟩
  · rintro h x ⟨h1, a2, h2, h0⟩; exact h x h1 a2 h2 h0

/-- C3: for a source property of kind None or Enum and a filter property of kind
None or Enum with the same value type, value size and key (the alternatives of a
None being its single value, those of an Enum the values after the default),
`spa_pod_filter_prop` returns `-EINVAL` if and only if no source alternative
compares equal to any filter alternative; otherwise it returns 0 and writes one
property with the source key whose choice is of kind None or Enum and admits
exactly the source alternatives that compare equal to some filter alternative
(the intersection of the two sets). -/
theorem filter_prop_enum_enum_intersection (cmp : Nat → Bytes → Bytes → Int) (b : Builder)
    (p1 p2 : PodProp)
    (ht : (spa_pod_get_values p1.value).type = (spa_pod_get_values p2.value).type)
    (hs : (spa_pod_get_values p1.value).size = (spa_pod_get_values p2.value).size)
    (hk : p1.key = p2.key)
    (h1 : (spa_pod_get_values p1.value).choice = SPA_CHOICE_None ∨
          (spa_pod_get_values p1.value).choice = SPA_CHOICE_Enum)
    (h2 : (spa_pod_get_values p2.value).choice = SPA_CHOICE_None ∨
          (spa_pod_get_values p2.value).choice = SPA_CHOICE_Enum)
    (hw : (spa_pod_get_values p1.value).WF)
    (hfit : Fits (spa_pod_get_values p1.value).size
      (1 + (alternatives (spa_pod_get_values p1.value)).length *
           (alternatives (spa_pod_get_values p2.value)).length)) :
    ((spa_pod_filter_prop cmp b p1 p2).1 = -EINVAL ↔
      ∀ a1 ∈ alternatives (spa_pod_get_values p1.value),
        ∀ a2 ∈ alternatives (spa_pod_get_values p2.value),
          cmp (spa_pod_get_values p1.value).type a1 a2 ≠ 0) ∧
    ((∃ a1 ∈ alternatives (spa_pod_get_values p1.value),
        ∃ a2 ∈ alternatives (spa_pod_get_values p2.value),
          cmp (spa_pod_get_values p1.value).type a1 a2 = 0) →
      (spa_pod_filter_prop cmp b p1 p2).1 = 0 ∧
      ∃ c : Choice, (spa_pod_filter_prop cmp b p1 p2).2 = closedBuilder b p1.key c ∧
        (c.kind = SPA_CHOICE_None ∨ c.kind = SPA_CHOICE_Enum) ∧
        ∀ x, x ∈ alternatives (spa_pod_get_values (.choice c)) ↔
          (x ∈ alternatives (spa_pod_get_values p1.value) ∧
            ∃ a2 ∈ alternatives (spa_pod_get_values p2.value),
              cmp (spa_pod_get_values p1.value).type x a2 = 0)) := by
  rw [filter_prop_equal_result cmp b p1 p2 ht hs hk h1 h2 hw hfit]
  generalize hv1 : spa_pod_get_values p1.value = v1 at *
  generalize hv2 : spa_pod_get_values p2.value = v2 at *
  have hnil := equalMatches_eq_nil cmp v1.type (alternatives v1) (alternatives v2)
  have hmem := mem_equalMatches cmp v1.type (alternatives v1) (alternatives v2)
  by_cases hM : equalMatches cmp v1.type (alternatives v1) (alternatives v2) = []
  · simp only [hM, if_true, true_iff]
    refine ⟨hnil.mp hM, ?_⟩
    rintro ⟨a1, ha1, a2, ha2, h0⟩
    exact absurd h0 (hnil.mp hM a1 ha1 a2 ha2)
  · simp only [hM, if_false]
    refine ⟨⟨fun h => absurd h (by decide), fun h => absurd (hnil.mpr h) hM⟩,
      fun _ => ⟨trivial, ?_⟩⟩
    rw [fix_default_enum]
    refine ⟨_, rfl, ?_, ?_⟩
    · simp only; split <;> simp
    · intro x
      rw [← hmem]
      have hsingle : v1.choice = SPA_CHOICE_None →
          ∀ y ∈ equalMatches cmp v1.type (alternatives v1) (alternatives v2),
            y = v1.vals.headD [] := by
        intro hN y hy
        have hy1 := ((hmem y).mp hy).1
        obtain ⟨d, tl, hvals⟩ := List.exists_cons_of_ne_nil hw.1
        simpa [alternatives, hN, hvals] using hy1
      generalize equalMatches cmp v1.type (alternatives v1) (alternatives v2) = M at *
      rcases h1 with hN | hE
      · have hne : v1.choice ≠ SPA_CHOICE_Enum := by rw [hN]; decide
        simp only [hne, if_false, spa_pod_get_values, alternatives, if_true, enumDefault,
          List.find?_nil, List.headD_nil, List.take_succ_cons, List.take_zero,
          List.mem_singleton]
        constructor
        · rintro rfl
          obtain ⟨y, hy⟩ := List.exists_mem_of_ne_nil _ hM
          rw [← hsingle hN y hy]; exact hy
        · exact hsingle hN x
      · have hne : SPA_CHOICE_Enum ≠ SPA_CHOICE_None := by decide
        simp only [hE, if_true, hM, if_false, spa_pod_get_values, alternatives, hne,
          List.drop_succ_cons, List.drop_zero]

/-- Witness for C3: source `Enum {2,4,6,8}`, filter `Enum {4,8,10}`. -/
theorem filter_prop_enum_enum_intersection_witness :
    (spa_pod_filter_prop compareInt Builder.empty
        (intChoiceProp 7 SPA_CHOICE_Enum [2, 2, 4, 6, 8])
        (intChoiceProp 7 SPA_CHOICE_Enum [4, 4, 8, 10])).1 = 0 :=
  ((filter_prop_enum_enum_intersection compareInt Builder.empty
      (intChoiceProp 7 SPA_CHOICE_Enum [2, 2, 4, 6, 8])
      (intChoiceProp 7 SPA_CHOICE_Enum [4, 4, 8, 10])
      (by decide) (by decide) (by decide) (by decide) (by decide) (by decide) (by decide)).2
    ⟨int 4, by decide, int 4, by decide, by decide⟩).1

theorem range_bounds (v : Values) (hc : v.choice = SPA_CHOICE_Range) (d lo hi : Bytes)
    (rest : List Bytes) (hv : v.vals = d :: lo :: hi :: rest) :
    (alternatives v).getD 0 [] = lo ∧ (alternatives v).getD 1 [] = hi := by
  have hne : SPA_CHOICE_Range ≠ SPA_CHOICE_None := by decide
  simp [alternatives, hc, hne, hv]

/-- C4: for a source property of kind None or Enum and a filter property of kind
Range `[default, min, max]` with the same value type, size and key,
`spa_pod_filter_prop` returns 0 if and only if some source alternative `a` has
`min <= a <= max` (bounds inclusive) and returns `-EINVAL` otherwise; on success
the property written is an Enum whose alternatives are exactly the source
alternatives inside the range, in source order, and whose default is an
alternative equal to the source default when there is one and the first
alternative otherwise. -/
theorem filter_prop_enum_range (cmp : Nat → Bytes → Bytes → Int) (b : Builder)
    (p1 p2 : PodProp) (d2 lo hi : Bytes) (rest : List Bytes)
    (ht : (spa_pod_get_values p1.value).type = (spa_pod_get_values p2.value).type)
    (hs : (spa_pod_get_values p1.value).size = (spa_pod_get_values p2.value).size)
    (hk : p1.key = p2.key)
    (h1 : (spa_pod_get_values p1.value).choice = SPA_CHOICE_None ∨
          (spa_pod_get_values p1.value).choice = SPA_CHOICE_Enum)
    (h2 : (spa_pod_get_values p2.value).choice = SPA_CHOICE_Range)
    (hv2 : (spa_pod_get_values p2.value).vals = d2 :: lo :: hi :: rest)
    (hw : (spa_pod_get_values p1.value).WF)
    (hfit : Fits (spa_pod_get_values p1.value).size
      (1 + (alternatives (spa_pod_get_values p1.value)).length)) :
    ((spa_pod_filter_prop cmp b p1 p2).1 = 0 ↔
      ∃ a ∈ alternatives (spa_pod_get_values p1.value),
        0 ≤ cmp (spa_pod_get_values p1.value).type a lo ∧
        cmp (spa_pod_get_values p1.value).type a hi ≤ 0) ∧
    ((¬ ∃ a ∈ alternatives (spa_pod_get_values p1.value),
        0 ≤ cmp (spa_pod_get_values p1.value).type a lo ∧
        cmp (spa_pod_get_values p1.value).type a hi ≤ 0) →
      (spa_pod_filter_prop cmp b p1 p2).1 = -EINVAL) ∧
    ((spa_pod_filter_prop cmp b p1 p2).1 = 0 →
      ∃ d1 : Bytes,
        (spa_pod_filter_prop cmp b p1 p2).2 = closedBuilder b p1.key
          { kind := SPA_CHOICE_Enum, flags := 0
            childType := (spa_pod_get_values p1.value).type
            childSize := (spa_pod_get_values p1.value).size
            values := d1 :: (alternatives (spa_pod_get_values p1.value)).filter
              (fun a => 0 ≤ cmp (spa_pod_get_values p1.value).type a lo ∧
                        cmp (spa_pod_get_values p1.value).type a hi ≤ 0) } ∧
        ((∃ a ∈ (alternatives (spa_pod_get_values p1.value)).filter
              (fun a => 0 ≤ cmp (spa_pod_get_values p1.value).type a lo ∧
                        cmp (spa_pod_get_values p1.value).type a hi ≤ 0),
            cmp (spa_pod_get_values p1.value).type
              ((spa_pod_get_values p1.value).vals.headD []) a = 0) →
          d1 ∈ (alternatives (spa_pod_get_values p1.value)).filter
              (fun a => 0 ≤ cmp (spa_pod_get_values p1.value).type a lo ∧
                        cmp (spa_pod_get_values p1.value).type a hi ≤ 0) ∧
          cmp (spa_pod_get_values p1.value).type
            ((spa_pod_get_values p1.value).vals.headD []) d1 = 0) ∧
        ((∀ a ∈ (alternatives (spa_pod_get_values p1.value)).filter
              (fun a => 0 ≤ cmp (spa_pod_get_values p1.value).type a lo ∧
                        cmp (spa_pod_get_values p1.value).type a hi ≤ 0),
            cmp (spa_pod_get_values p1.value).type
              ((spa_pod_get_values p1.value).vals.headD []) a ≠ 0) →
          some d1 = ((alternatives (spa_pod_get_values p1.value)).filter
              (fun a => 0 ≤ cmp (spa_pod_get_values p1.value).type a lo ∧
                        cmp (spa_pod_get_values p1.value).type a hi ≤ 0)).head?)) := by
  rw [filter_prop_enum_range_result cmp b p1 p2 ht hs hk h1 h2 hw hfit]
  obtain ⟨hlo, hhi⟩ := range_bounds _ h2 d2 lo hi rest hv2
  rw [hlo, hhi]
  generalize hv1 : spa_pod_get_values p1.value = v1 at *
  have hmem := mem_inRange cmp v1.type lo hi (alternatives v1)
  have hW : inRange cmp v1.type lo hi (alternatives v1) =
      (alternatives v1).filter (fun a => 0 ≤ cmp v1.type a lo ∧ cmp v1.type a hi ≤ 0) := rfl
  rw [← hW]
  have hex : (∃ a ∈ alternatives v1, 0 ≤ cmp v1.type a lo ∧ cmp v1.type a hi ≤ 0) ↔
      inRange cmp v1.type lo hi (alternatives v1) ≠ [] := by
    constructor
    · rintro ⟨a, ha, hr⟩ hnil
      have := (hmem a).mpr ⟨ha, hr⟩
      rw [hnil] at this
      exact absurd this (List.not_mem_nil _)
    · intro hne
      obtain ⟨a, ha⟩ := List.exists_mem_of_ne_nil _ hne
      exact ⟨a, ((hmem a).mp ha).1, ((hmem a).mp ha).2⟩
  rw [hex]
  generalize inRange cmp v1.type lo hi (alternatives v1) = W at *
  by_cases hWn : W = []
  · subst hWn
    simp [EINVAL]
  · simp only [hWn, if_false, ne_eq, not_false_eq_true, true_iff, not_true_eq_false,
      false_implies, true_and, forall_true_left]
    refine ⟨_, rfl, fun he => enumDefault_of_exists cmp v1.type _ W he, fun hn => ?_⟩
    rw [enumDefault_of_none cmp v1.type _ W hn]
    cases W with
    | nil => exact absurd rfl hWn
    | cons a t => rfl

/-- Witness for C4 (the example of the spec): source `Enum {2,4,6,8}` with
default 2 and filter `Range [3,7]` give `Enum {4,6}` with default 4. -/
theorem filter_prop_enum_range_witness :
    (spa_pod_filter_prop compareInt Builder.empty
        (intChoiceProp 7 SPA_CHOICE_Enum [2, 2, 4, 6, 8])
        (intChoiceProp 7 SPA_CHOICE_Range [5, 3, 7])).1 = 0 ∧
    (spa_pod_filter_prop compareInt Builder.empty
        (intChoiceProp 7 SPA_CHOICE_Enum [2, 2, 4, 6, 8])
        (intChoiceProp 7 SPA_CHOICE_Range [5, 3, 7])).2 =
      closedBuilder Builder.empty 7
        { kind := SPA_CHOICE_Enum, flags := 0, childType := SPA_TYPE_Int, childSize := 4
          values := [int 4, int 4, int 6] } :=
  ⟨(filter_prop_enum_range compareInt Builder.empty
      (intChoiceProp 7 SPA_CHOICE_Enum [2, 2, 4, 6, 8])
      (intChoiceProp 7 SPA_CHOICE_Range [5, 3, 7]) (int 5) (int 3) (int 7) []
      (by decide) (by decide) (by decide) (by decide) (by decide) (by decide) (by decide)
      (by decide)).1.mpr ⟨int 4, by decide, by decide, by decide⟩,
   by decide⟩

/-- C5: for a source property of kind Range `[default, min, max]` and a filter
property of kind None or Enum with the same value type, size and key,
`spa_pod_filter_prop` returns 0 if and only if some filter alternative `a` has
`min <= a <= max` and returns `-EINVAL` otherwise; on success the property
written is an Enum whose alternatives are exactly the filter alternatives inside
the source range, in filter order, and whose default is an alternative equal to
the source default when there is one and the first alternative otherwise. -/
theorem filter_prop_range_enum (cmp : Nat → Bytes → Bytes → Int) (b : Builder)
    (p1 p2 : PodProp) (d lo hi : Bytes) (rest : List Bytes)
    (ht : (spa_pod_get_values p1.value).type = (spa_pod_get_values p2.value).type)
    (hs : (spa_pod_get_values p1.value).size = (spa_pod_get_values p2.value).size)
    (hk : p1.key = p2.key)
    (h1 : (spa_pod_get_values p1.value).choice = SPA_CHOICE_Range)
    (h2 : (spa_pod_get_values p2.value).choice = SPA_CHOICE_None ∨
          (spa_pod_get_values p2.value).choice = SPA_CHOICE_Enum)
    (hv1 : (spa_pod_get_values p1.value).vals = d :: lo :: hi :: rest)
    (hw : (spa_pod_get_values p1.value).WF)
    (hw2 : (spa_pod_get_values p2.value).WF)
    (hfit : Fits (spa_pod_get_values p1.value).size
      (1 + (alternatives (spa_pod_get_values p2.value)).length)) :
    ((spa_pod_filter_prop cmp b p1 p2).1 = 0 ↔
      ∃ a ∈ alternatives (spa_pod_get_values p2.value),
        0 ≤ cmp (spa_pod_get_values p1.value).type a lo ∧
        cmp (spa_pod_get_values p1.value).type a hi ≤ 0) ∧
    ((¬ ∃ a ∈ alternatives (spa_pod_get_values p2.value),
        0 ≤ cmp (spa_pod_get_values p1.value).type a lo ∧
        cmp (spa_pod_get_values p1.value).type a hi ≤ 0) →
      (spa_pod_filter_prop cmp b p1 p2).1 = -EINVAL) ∧
    ((spa_pod_filter_prop cmp b p1 p2).1 = 0 →
      ∃ d1 : Bytes,
        (spa_pod_filter_prop cmp b p1 p2).2 = closedBuilder b p1.key
          { kind := SPA_CHOICE_Enum, flags := 0
            childType := (spa_pod_get_values p1.value).type
            childSize := (spa_pod_get_values p1.value).size
            values := d1 :: (alternatives (spa_pod_get_values p2.value)).filter
              (fun a => 0 ≤ cmp (spa_pod_get_values p1.value).type a lo ∧
                        cmp (spa_pod_get_values p1.value).type a hi ≤ 0) } ∧
        ((∃ a ∈ (alternatives (spa_pod_get_values p2.value)).filter
              (fun a => 0 ≤ cmp (spa_pod_get_values p1.value).type a lo ∧
                        cmp (spa_pod_get_values p1.value).type a hi ≤ 0),
            cmp (spa_pod_get_values p1.value).type d a = 0) →
          d1 ∈ (alternatives (spa_pod_get_values p2.value)).filter
              (fun a => 0 ≤ cmp (spa_pod_get_values p1.value).type a lo ∧
                        cmp (spa_pod_get_values p1.value).type a hi ≤ 0) ∧
          cmp (spa_pod_get_values p1.value).type d d1 = 0) ∧
        ((∀ a ∈ (alternatives (spa_pod_get_values p2.value)).filter
              (fun a => 0 ≤ cmp (spa_pod_get_values p1.value).type a lo ∧
                        cmp (spa_pod_get_values p1.value).type a hi ≤ 0),
            cmp (spa_pod_get_values p1.value).type d a ≠ 0) →
          some d1 = ((alternatives (spa_pod_get_values p2.value)).filter
              (fun a => 0 ≤ cmp (spa_pod_get_values p1.value).type a lo ∧
                        cmp (spa_pod_get_values p1.value).type a hi ≤ 0)).head?)) := by
  rw [filter_prop_range_enum_result cmp b p1 p2 ht hs hk h1 h2 hw hw2 hfit]
  obtain ⟨hlo, hhi⟩ := range_bounds _ h1 d lo hi rest hv1
  rw [hlo, hhi]
  have hd : (spa_pod_get_values p1.value).vals.headD [] = d := by rw [hv1]; rfl
  rw [hd]
  generalize hg1 : spa_pod_get_values p1.value = v1 at *
  generalize hg2 : spa_pod_get_values p2.value = v2 at *
  have hmem := mem_inRange cmp v1.type lo hi (alternatives v2)
  have hW : inRange cmp v1.type lo hi (alternatives v2) =
      (alternatives v2).filter (fun a => 0 ≤ cmp v1.type a lo ∧ cmp v1.type a hi ≤ 0) := rfl
  rw [← hW]
  have hex : (∃ a ∈ alternatives v2, 0 ≤ cmp v1.type a lo ∧ cmp v1.type a hi ≤ 0) ↔
      inRange cmp v1.type lo hi (alternatives v2) ≠ [] := by
    constructor
    · rintro ⟨a, ha, hr⟩ hnil
      have := (hmem a).mpr ⟨ha, hr⟩
      rw [hnil] at this
      exact absurd this (List.not_mem_nil _)
    · intro hne
      obtain ⟨a, ha⟩ := List.exists_mem_of_ne_nil _ hne
      exact ⟨a, ((hmem a).mp ha).1, ((hmem a).mp ha).2⟩
  rw [hex]
  generalize inRange cmp v1.type lo hi (alternatives v2) = W at *
  by_cases hWn : W = []
  · subst hWn
    simp [EINVAL]
  · simp only [hWn, if_false, ne_eq, not_false_eq_true, true_iff, not_true_eq_false,
      false_implies, true_and, forall_true_left]
    refine ⟨_, rfl, fun he => enumDefault_of_exists cmp v1.type _ W he, fun hn => ?_⟩
    rw [enumDefault_of_none cmp v1.type _ W hn]
    cases W with
    | nil => exact absurd rfl hWn
    | cons a t => rfl

/-- Witness for C5: source `Range [5, 3..7]`, filter `Enum {2,4,6,8}` give
`Enum {4,6}` with default 4 (5 is not among the alternatives). -/
theorem filter_prop_range_enum_witness :
    (spa_pod_filter_prop compareInt Builder.empty
        (intChoiceProp 7 SPA_CHOICE_Range [5, 3, 7])
        (intChoiceProp 7 SPA_CHOICE_Enum [2, 2, 4, 6, 8])).1 = 0 ∧
    (spa_pod_filter_prop compareInt Builder.empty
        (intChoiceProp 7 SPA_CHOICE_Range [5, 3, 7])
        (intChoiceProp 7 SPA_CHOICE_Enum [2, 2, 4, 6, 8])).2 =
      closedBuilder Builder.empty 7
        { kind := SPA_CHOICE_Enum, flags := 0, childType := SPA_TYPE_Int, childSize := 4
          values := [int 4, int 4, int 6] } :=
  ⟨(filter_prop_range_enum compareInt Builder.empty
      (intChoiceProp 7 SPA_CHOICE_Range [5, 3, 7])
      (intChoiceProp 7 SPA_CHOICE_Enum [2, 2, 4, 6, 8]) (int 5) (int 3) (int 7) []
      (by decide) (by decide) (by decide) (by decide) (by decide) (by decide) (by decide)
      (by decide) (by decide)).1.mpr ⟨int 4, by decide, by decide, by decide⟩,
   by decide⟩

/-- C6: for a source Range `[d, min1, max1]` and a filter Range `[_, min2, max2]`
with the same value type, size and key, `spa_pod_filter_prop` always returns 0
and writes a choice of kind Range whose min is the larger of `min1`, `min2` and
whose max is the smaller of `max1`, `max2`, each taken on its own position: no
hypothesis relates the resulting min and max, so an inverted range is returned
as it is.  The default is `d` clamped by the new bounds. -/
theorem filter_prop_range_range (cmp : Nat → Bytes → Bytes → Int) (b : Builder)
    (p1 p2 : PodProp) (d lo1 hi1 d2 lo2 hi2 : Bytes) (r1 r2 : List Bytes)
    (ht : (spa_pod_get_values p1.value).type = (spa_pod_get_values p2.value).type)
    (hs : (spa_pod_get_values p1.value).size = (spa_pod_get_values p2.value).size)
    (hk : p1.key = p2.key)
    (h1 : (spa_pod_get_values p1.value).choice = SPA_CHOICE_Range)
    (h2 : (spa_pod_get_values p2.value).choice = SPA_CHOICE_Range)
    (hv1 : (spa_pod_get_values p1.value).vals = d :: lo1 :: hi1 :: r1)
    (hv2 : (spa_pod_get_values p2.value).vals = d2 :: lo2 :: hi2 :: r2)
    (hw : (spa_pod_get_values p1.value).WF)
    (hw2 : (spa_pod_get_values p2.value).WF)
    (hfit : Fits (spa_pod_get_values p1.value).size 3) :
    spa_pod_filter_prop cmp b p1 p2 =
      (0, closedBuilder b p1.key
        { kind := SPA_CHOICE_Range, flags := 0
          childType := (spa_pod_get_values p1.value).type
          childSize := (spa_pod_get_values p1.value).size
          values :=
            [clampDefault cmp (spa_pod_get_values p1.value).type d
               (if cmp (spa_pod_get_values p1.value).type lo1 lo2 < 0 then lo2 else lo1)
               (if cmp (spa_pod_get_values p1.value).type hi1 hi2 < 0 then hi1 else hi2),
             if cmp (spa_pod_get_values p1.value).type lo1 lo2 < 0 then lo2 else lo1,
             if cmp (spa_pod_get_values p1.value).type hi1 hi2 < 0 then hi1 else hi2] }) := by
  rw [filter_prop_chain cmp b p1 p2 ht hs hk, h1, h2, chain_range_range]
  obtain ⟨hlo1, hhi1⟩ := range_bounds _ h1 d lo1 hi1 r1 hv1
  obtain ⟨hlo2, hhi2⟩ := range_bounds _ h2 d2 lo2 hi2 r2 hv2
  rw [hlo1, hhi1, hlo2, hhi2]
  have hd : (spa_pod_get_values p1.value).vals.headD [] = d := by rw [hv1]; rfl
  rw [hd]
  generalize hg1 : spa_pod_get_values p1.value = v1 at *
  generalize hg2 : spa_pod_get_values p2.value = v2 at *
  have hopen : ∀ x y : Bytes,
      (spa_pod_builder_raw (spa_pod_builder_raw (openBuilder b p1.key v1.size v1.type [d]) x).2
        y).2 = openBuilder b p1.key v1.size v1.type [d, x, y] := by
    intro x y
    simp [spa_pod_builder_raw, openBuilder, openProp]
  simp only [hopen]
  rw [close_open, fix_default_range _ _ _ _ _ _ _ _ _ (Or.inl rfl)]
  obtain ⟨_, h0, hlt, hty, hl1⟩ := hw
  have hl2 := hw2.2.2.2.2
  refine ⟨by norm_num [SPA_CHOICE_Range], by norm_num, hty, h0, hlt, ?_, hfit⟩
  intro x hx
  simp only [List.mem_cons, List.mem_singleton, List.not_mem_nil, or_false] at hx
  have m1 : ∀ y ∈ [d, lo1, hi1], y.length = v1.size := fun y hy =>
    hl1 y (by rw [hv1]; simp at hy ⊢; tauto)
  have m2 : ∀ y ∈ [lo2, hi2], y.length = v1.size := fun y hy => by
    rw [hs]; exact hl2 y (by rw [hv2]; simp at hy ⊢; tauto)
  rcases hx with rfl | rfl | rfl
  · exact m1 _ (by simp)
  · split
    · exact m2 _ (by simp)
    · exact m1 _ (by simp)
  · split
    · exact m1 _ (by simp)
    · exact m2 _ (by simp)

/-- Witness for C6 (the example of the spec): source `Range [0,10]` and filter
`Range [5,15]` give `Range [5,10]`. -/
theorem filter_prop_range_range_witness :
    spa_pod_filter_prop compareInt Builder.empty
        (intChoiceProp 7 SPA_CHOICE_Range [3, 0, 10])
        (intChoiceProp 7 SPA_CHOICE_Range [9, 5, 15]) =
      (0, closedBuilder Builder.empty 7
        { kind := SPA_CHOICE_Range, flags := 0, childType := SPA_TYPE_Int, childSize := 4
          values := [int 5, int 5, int 10] }) :=
  (filter_prop_range_range compareInt Builder.empty
      (intChoiceProp 7 SPA_CHOICE_Range [3, 0, 10])
      (intChoiceProp 7 SPA_CHOICE_Range [9, 5, 15])
      (int 3) (int 0) (int 10) (int 9) (int 5) (int 15) [] []
      (by decide) (by decide) (by decide) (by decide) (by decide) (by decide) (by decide)
      (by decide) (by decide) (by decide)).trans (by decide)

/-- C7 (the code at the failing input): source `Range [2, 0..3]` and filter
`Range [9, 5..15]`, both well-formed and disjoint, make `spa_pod_filter_prop`
return 0 with the choice `Range [default 3, min 5, max 3]`: the default 3 lies
in the source range but below the filter minimum 5, so it is not acceptable to
the filter. -/
theorem filter_prop_disjoint_ranges_default :
    spa_pod_filter_prop compareInt Builder.empty
        (intChoiceProp 7 SPA_CHOICE_Range [2, 0, 3])
        (intChoiceProp 7 SPA_CHOICE_Range [9, 5, 15]) =
      (0, closedBuilder Builder.empty 7
        { kind := SPA_CHOICE_Range, flags := 0, childType := SPA_TYPE_Int, childSize := 4
          values := [int 3, int 5, int 3] }) ∧
    compareInt SPA_TYPE_Int (int 3) (int 5) < 0 := by
  decide

/-- C8 (the claim as stated fails): on two well-formed `Int` properties the
pairs of kinds that return `-ENOTSUP` are sixteen of the 25, not fifteen: five
with source Step, five with source Flags, and six with source None, Enum or
Range and filter Step or Flags. -/
theorem notsup_pairs_count :
    notSupPairs =
      [(0, 2), (0, 4), (1, 2), (1, 4), (2, 0), (2, 1), (2, 2), (2, 3), (2, 4),
       (3, 2), (3, 4), (4, 0), (4, 1), (4, 2), (4, 3), (4, 4)] ∧
    notSupPairs.length = 16 ∧ notSupPairs.length ≠ 15 := by
  decide

/-- C8 (amended): for two properties with the same value type, size and key and
kinds among the five, `spa_pod_filter_prop` returns `-ENOTSUP` exactly when the
source kind is Step or Flags or the filter kind is Step or Flags (16 of the 25
pairs), and then it does not return `-EINVAL`; for the other 9 pairs it returns
0 or `-EINVAL`, never `-ENOTSUP`. -/
theorem filter_prop_notsup_iff (cmp : Nat → Bytes → Bytes → Int) (b : Builder)
    (p1 p2 : PodProp)
    (ht : (spa_pod_get_values p1.value).type = (spa_pod_get_values p2.value).type)
    (hs : (spa_pod_get_values p1.value).size = (spa_pod_get_values p2.value).size)
    (hk : p1.key = p2.key)
    (h1 : (spa_pod_get_values p1.value).choice ≤ 4)
    (h2 : (spa_pod_get_values p2.value).choice ≤ 4) :
    ((spa_pod_filter_prop cmp b p1 p2).1 = -ENOTSUP ↔
      ((spa_pod_get_values p1.value).choice = SPA_CHOICE_Step ∨
       (spa_pod_get_values p1.value).choice = SPA_CHOICE_Flags ∨
       (spa_pod_get_values p2.value).choice = SPA_CHOICE_Step ∨
       (spa_pod_get_values p2.value).choice = SPA_CHOICE_Flags)) ∧
    ((spa_pod_filter_prop cmp b p1 p2).1 = -ENOTSUP →
      (spa_pod_filter_prop cmp b p1 p2).1 ≠ -EINVAL) ∧
    ((spa_pod_filter_prop cmp b p1 p2).1 ≠ -ENOTSUP →
      (spa_pod_filter_prop cmp b p1 p2).1 = 0 ∨
      (spa_pod_filter_prop cmp b p1 p2).1 = -EINVAL) := by
  by_cases h : (spa_pod_get_values p1.value).choice = SPA_CHOICE_Step ∨
       (spa_pod_get_values p1.value).choice = SPA_CHOICE_Flags ∨
       (spa_pod_get_values p2.value).choice = SPA_CHOICE_Step ∨
       (spa_pod_get_values p2.value).choice = SPA_CHOICE_Flags
  · rw [filter_prop_notsup_result cmp b p1 p2 ht hs hk h1 h2 h]
    simp [h, ENOTSUP, EINVAL]
  · have hs1 : (spa_pod_get_values p1.value).choice = SPA_CHOICE_None ∨
        (spa_pod_get_values p1.value).choice = SPA_CHOICE_Enum ∨
        (spa_pod_get_values p1.value).choice = SPA_CHOICE_Range := by
      simp only [SPA_CHOICE_Step, SPA_CHOICE_Flags, SPA_CHOICE_None, SPA_CHOICE_Enum,
        SPA_CHOICE_Range] at h ⊢
      omega
    have hs2 : (spa_pod_get_values p2.value).choice = SPA_CHOICE_None ∨
        (spa_pod_get_values p2.value).choice = SPA_CHOICE_Enum ∨
        (spa_pod_get_values p2.value).choice = SPA_CHOICE_Range := by
      simp only [SPA_CHOICE_Step, SPA_CHOICE_Flags, SPA_CHOICE_None, SPA_CHOICE_Enum,
        SPA_CHOICE_Range] at h ⊢
      omega
    have hc := filter_prop_supported_code cmp b p1 p2 ht hs hk hs1 hs2
    have hne : (spa_pod_filter_prop cmp b p1 p2).1 ≠ -ENOTSUP := by
      rcases hc with hc | hc <;> rw [hc] <;> decide
    exact ⟨⟨fun he => absurd he hne, fun hh => absurd hh h⟩, fun he => absurd he hne,
      fun _ => hc⟩

/-- Witness for C8 (the example of the spec): source `Step [0, 0..10, step 2]`
with filter `Enum {2,4}` fails with `-ENOTSUP`. -/
theorem filter_prop_notsup_iff_witness :
    (spa_pod_filter_prop compareInt Builder.empty
        (intChoiceProp 7 SPA_CHOICE_Step [0, 0, 10, 2])
        (intChoiceProp 7 SPA_CHOICE_Enum [2, 2, 4])).1 = -ENOTSUP :=
  (filter_prop_notsup_iff compareInt Builder.empty
      (intChoiceProp 7 SPA_CHOICE_Step [0, 0, 10, 2])
      (intChoiceProp 7 SPA_CHOICE_Enum [2, 2, 4])
      (by decide) (by decide) (by decide) (by decide) (by decide)).1.mpr (Or.inl (by decide))

/-- C9: when the two values differ in type or in size, or the keys differ,
`spa_pod_filter_prop` returns `-EINVAL` at once, whatever the two choice kinds
are, and the builder is untouched. -/
theorem filter_prop_header_mismatch (cmp : Nat → Bytes → Bytes → Int) (b : Builder)
    (p1 p2 : PodProp)
    (h : (spa_pod_get_values p1.value).type ≠ (spa_pod_get_values p2.value).type ∨
         (spa_pod_get_values p1.value).size ≠ (spa_pod_get_values p2.value).size ∨
         p1.key ≠ p2.key) :
    spa_pod_filter_prop cmp b p1 p2 = (-EINVAL, b) := by
  unfold spa_pod_filter_prop
  simp only [if_pos h]

/-- Witness for C9: a source of kind Step against a filter with another key. -/
theorem filter_prop_header_mismatch_witness :
    spa_pod_filter_prop compareInt exBuilder
        (intChoiceProp 7 SPA_CHOICE_Step [0, 0, 10, 2])
        (intChoiceProp 8 SPA_CHOICE_Enum [2, 2, 4]) = (-EINVAL, exBuilder) :=
  filter_prop_header_mismatch compareInt exBuilder
    (intChoiceProp 7 SPA_CHOICE_Step [0, 0, 10, 2])
    (intChoiceProp 8 SPA_CHOICE_Enum [2, 2, 4]) (Or.inr (Or.inr (by decide)))

theorem compareInt_isOrder (type : Nat) : IsOrder compareInt type := by
  refine ⟨fun a => ?_, fun a b => ?_, fun a b c => ?_⟩
  · simp [compareInt]
  · simp only [compareInt]; omega
  · simp only [compareInt]; omega

/-- C10: on a choice of kind Range or Step with values `[d, min, max, ...]` and
`min <= max`, `spa_pod_choice_fix_default` returns 0, changes nothing but the
default, keeps the default when `min <= d <= max`, replaces it by `min` when
`d < min` and by `max` when `d > max`; afterwards `min <= default <= max`. -/
theorem fix_default_clamps (cmp : Nat → Bytes → Bytes → Int) (k flags type size : Nat)
    (d lo hi : Bytes) (rest : List Bytes)
    (hk : k = SPA_CHOICE_Range ∨ k = SPA_CHOICE_Step)
    (hord : IsOrder cmp type) (hle : cmp type lo hi ≤ 0) :
    ∃ d1 : Bytes,
      spa_pod_choice_fix_default cmp
        { kind := k, flags := flags, childType := type, childSize := size,
          values := d :: lo :: hi :: rest } =
        (0, { kind := k, flags := flags, childType := type, childSize := size,
              values := d1 :: lo :: hi :: rest }) ∧
      (0 ≤ cmp type d lo ∧ cmp type d hi ≤ 0 → d1 = d) ∧
      (cmp type d lo < 0 → d1 = lo) ∧
      (0 < cmp type d hi → d1 = hi) ∧
      0 ≤ cmp type d1 lo ∧ cmp type d1 hi ≤ 0 := by
  obtain ⟨hrefl, hsym, htrans⟩ := hord
  have h2 := fix_default_range cmp k flags type size d lo hi rest hk
  have h1 : (spa_pod_choice_fix_default cmp
      { kind := k, flags := flags, childType := type, childSize := size,
        values := d :: lo :: hi :: rest }).1 = 0 := by
    unfold spa_pod_choice_fix_default
    simp only
    split_ifs <;> rfl
  refine ⟨clampDefault cmp type d lo hi, Prod.ext h1 h2, ?_, ?_, ?_, ?_⟩
  · rintro ⟨ha, hb⟩
    simp [clampDefault, not_lt.mpr ha, not_lt.mpr hb]
  · intro ha
    simp [clampDefault, ha, not_lt.mpr hle]
  · intro hb
    have ha : ¬ cmp type d lo < 0 := by
      intro ha
      have := htrans d lo hi (le_of_lt ha) hle
      omega
    simp [clampDefault, ha, hb]
  · unfold clampDefault
    have hhl : 0 ≤ cmp type hi lo := by
      by_contra hneg
      have := (hsym hi lo).mp (not_le.mp hneg)
      omega
    by_cases ha : cmp type d lo < 0
    · simp only [ha, if_true, gt_iff_lt, not_lt.mpr hle, if_false]
      exact ⟨by rw [hrefl lo], hle⟩
    · simp only [ha, if_false, gt_iff_lt]
      by_cases hb : 0 < cmp type d hi
      · simp only [hb, if_true]
        exact ⟨hhl, by rw [hrefl hi]⟩
      · simp only [hb, if_false]
        exact ⟨not_lt.mp ha, not_lt.mp hb⟩

/-- Witness for C10: `Range [12, 0..10]` gets the default 10. -/
theorem fix_default_clamps_witness :
    ∃ d1 : Bytes,
      spa_pod_choice_fix_default compareInt
        { kind := SPA_CHOICE_Range, flags := 0, childType := SPA_TYPE_Int, childSize := 4,
          values := int 12 :: int 0 :: int 10 :: [] } =
        (0, { kind := SPA_CHOICE_Range, flags := 0, childType := SPA_TYPE_Int, childSize := 4,
              values := d1 :: int 0 :: int 10 :: [] }) ∧
      (0 ≤ compareInt SPA_TYPE_Int (int 12) (int 0) ∧
        compareInt SPA_TYPE_Int (int 12) (int 10) ≤ 0 → d1 = int 12) ∧
      (compareInt SPA_TYPE_Int (int 12) (int 0) < 0 → d1 = int 0) ∧
      (0 < compareInt SPA_TYPE_Int (int 12) (int 10) → d1 = int 10) ∧
      0 ≤ compareInt SPA_TYPE_Int d1 (int 0) ∧ compareInt SPA_TYPE_Int d1 (int 10) ≤ 0 :=
  fix_default_clamps compareInt SPA_CHOICE_Range 0 SPA_TYPE_Int 4 (int 12) (int 0) (int 10) []
    (Or.inl rfl) (compareInt_isOrder SPA_TYPE_Int) (by decide)

/-! ## Claims on `spa_pod_choice_fix_default` -/

theorem fix_default_code (cmp : Nat → Bytes → Bytes → Int) (c : Choice) :
    (spa_pod_choice_fix_default cmp c).1 = 0 := by
  unfold spa_pod_choice_fix_default
  simp only
  split_ifs <;> rfl

/-- C11: on a choice of kind Enum with values `[d, a1, ..., an]`, `n >= 1`,
`spa_pod_choice_fix_default` returns 0, keeps the kind and the alternatives, and
leaves as default an alternative that compares equal to `d` when there is one
(so the default is `d` itself when comparing equal means being the same value),
and the first alternative `a1` otherwise. -/
theorem fix_default_enum_default (cmp : Nat → Bytes → Bytes → Int) (flags type size : Nat)
    (d a1 : Bytes) (rest : List Bytes) :
    ∃ d1 : Bytes,
      spa_pod_choice_fix_default cmp
        { kind := SPA_CHOICE_Enum, flags := flags, childType := type, childSize := size,
          values := d :: a1 :: rest } =
        (0, { kind := SPA_CHOICE_Enum, flags := flags, childType := type, childSize := size,
              values := d1 :: a1 :: rest }) ∧
      ((∃ a ∈ a1 :: rest, cmp type d a = 0) → d1 ∈ a1 :: rest ∧ cmp type d d1 = 0) ∧
      ((∃ a ∈ a1 :: rest, cmp type d a = 0) → (∀ a, cmp type d a = 0 → a = d) → d1 = d) ∧
      ((∀ a ∈ a1 :: rest, cmp type d a ≠ 0) → d1 = a1) := by
  refine ⟨enumDefault cmp type d (a1 :: rest), ?_, ?_, ?_, ?_⟩
  · refine Prod.ext (fix_default_code cmp _) ?_
    rw [fix_default_enum]
    simp
  · exact fun h => enumDefault_of_exists cmp type d _ h
  · intro h heq
    exact heq _ (enumDefault_of_exists cmp type d _ h).2
  · intro h
    rw [enumDefault_of_none cmp type d _ h]
    rfl

/-- Witness for C11: `Enum [default 5; 2, 4]` gets the default 2, the first
alternative. -/
theorem fix_default_enum_default_witness :
    ∃ d1 : Bytes,
      spa_pod_choice_fix_default compareInt
        { kind := SPA_CHOICE_Enum, flags := 0, childType := SPA_TYPE_Int, childSize := 4,
          values := int 5 :: int 2 :: [int 4] } =
        (0, { kind := SPA_CHOICE_Enum, flags := 0, childType := SPA_TYPE_Int, childSize := 4,
              values := d1 :: int 2 :: [int 4] }) ∧
      d1 = int 2 := by
  obtain ⟨d1, h1, _, _, h4⟩ := fix_default_enum_default compareInt 0 SPA_TYPE_Int 4
    (int 5) (int 2) [int 4]
  exact ⟨d1, h1, h4 (by decide)⟩

/-- C12 (the claim as stated fails): an Enum that holds exactly one alternative
stays Enum: `Enum [4; 4]` is returned with kind Enum, and source `Enum {2,4}`
filtered by the fixed value 4 gives the choice `Enum [4; 4]`, not a choice of
kind None. -/
theorem enum_one_alternative_stays_enum :
    (spa_pod_choice_fix_default compareInt
      { kind := SPA_CHOICE_Enum, flags := 0, childType := SPA_TYPE_Int, childSize := 4,
        values := [int 4, int 4] }).2.kind = SPA_CHOICE_Enum ∧
    spa_pod_filter_prop compareInt Builder.empty
        (intChoiceProp 7 SPA_CHOICE_Enum [2, 2, 4])
        (intChoiceProp 7 SPA_CHOICE_None [4]) =
      (0, closedBuilder Builder.empty 7
        { kind := SPA_CHOICE_Enum, flags := 0, childType := SPA_TYPE_Int, childSize := 4
          values := [int 4, int 4] }) := by
  decide

/-- C12 (amended): after `spa_pod_choice_fix_default` on a choice of kind Enum
the kind is None exactly when the choice holds at most one value, the default
included (`nvals <= 1`, no alternative at all), and stays Enum otherwise; in
particular it stays Enum with one alternative. -/
theorem fix_default_enum_kind (cmp : Nat → Bytes → Bytes → Int) (c : Choice)
    (hk : c.kind = SPA_CHOICE_Enum) :
    (c.values.length ≤ 1 → (spa_pod_choice_fix_default cmp c).2.kind = SPA_CHOICE_None) ∧
    (1 < c.values.length → (spa_pod_choice_fix_default cmp c).2.kind = SPA_CHOICE_Enum) := by
  obtain ⟨kind, flags, ty, sz, values⟩ := c
  simp only at hk
  subst hk
  cases values with
  | nil =>
    constructor
    · intro _
      unfold spa_pod_choice_fix_default
      simp [SPA_CHOICE_Enum, SPA_CHOICE_None, SPA_CHOICE_Range, SPA_CHOICE_Step, enumBest]
    · intro h; simp at h
  | cons d tl =>
    rw [fix_default_enum]
    cases tl with
    | nil => simp
    | cons a t => simp

/-- Witness for C12: `Enum [4]` becomes None, `Enum [2; 4]` stays Enum. -/
theorem fix_default_enum_kind_witness :
    (spa_pod_choice_fix_default compareInt
      { kind := SPA_CHOICE_Enum, flags := 0, childType := SPA_TYPE_Int, childSize := 4,
        values := [int 4] }).2.kind = SPA_CHOICE_None ∧
    (spa_pod_choice_fix_default compareInt
      { kind := SPA_CHOICE_Enum, flags := 0, childType := SPA_TYPE_Int, childSize := 4,
        values := [int 2, int 4] }).2.kind = SPA_CHOICE_Enum :=
  ⟨(fix_default_enum_kind compareInt
      { kind := SPA_CHOICE_Enum, flags := 0, childType := SPA_TYPE_Int, childSize := 4,
        values := [int 4] } rfl).1 (by decide),
   (fix_default_enum_kind compareInt
      { kind := SPA_CHOICE_Enum, flags := 0, childType := SPA_TYPE_Int, childSize := 4,
        values := [int 2, int 4] } rfl).2 (by decide)⟩

/-- C19: `spa_pod_choice_fix_default` returns 0 for every choice and changes
nothing but the value at index 0 and, for an Enum, possibly the kind: the flags,
the child type and size, the number of values and every value at index `>= 1`
are unchanged, the kind is unchanged unless it is Enum, and a choice of kind
None or Flags is returned as it is. -/
theorem fix_default_frame (cmp : Nat → Bytes → Bytes → Int) (c : Choice) :
    (spa_pod_choice_fix_default cmp c).1 = 0 ∧
    (spa_pod_choice_fix_default cmp c).2.flags = c.flags ∧
    (spa_pod_choice_fix_default cmp c).2.childType = c.childType ∧
    (spa_pod_choice_fix_default cmp c).2.childSize = c.childSize ∧
    (spa_pod_choice_fix_default cmp c).2.values.length = c.values.length ∧
    (spa_pod_choice_fix_default cmp c).2.values.tail = c.values.tail ∧
    (c.kind ≠ SPA_CHOICE_Enum → (spa_pod_choice_fix_default cmp c).2.kind = c.kind) ∧
    (c.kind = SPA_CHOICE_None ∨ c.kind = SPA_CHOICE_Flags →
      (spa_pod_choice_fix_default cmp c).2 = c) := by
  refine ⟨fix_default_code cmp c, ?_⟩
  have hNF : c.kind = SPA_CHOICE_None ∨ c.kind = SPA_CHOICE_Flags →
      (spa_pod_choice_fix_default cmp c).2 = c := by
    intro h
    unfold spa_pod_choice_fix_default
    rcases h with h | h
    · simp [h]
    · simp [h, SPA_CHOICE_Flags, SPA_CHOICE_None, SPA_CHOICE_Range, SPA_CHOICE_Step,
        SPA_CHOICE_Enum]
  have hkind : c.kind ≠ SPA_CHOICE_Enum → (spa_pod_choice_fix_default cmp c).2.kind = c.kind := by
    intro hne
    unfold spa_pod_choice_fix_default
    simp only [Choice.setDefault]
    split_ifs <;> rfl
  cases hv : c.values with
  | nil =>
    obtain ⟨k, hk⟩ := fix_default_nil cmp c hv
    rw [hv] at hk
    refine ⟨?_, ?_, ?_, ?_, ?_, hkind, hNF⟩ <;> simp [hk, hv]
  | cons d tl =>
    obtain ⟨k, d1, hk, _⟩ := fix_default_shape cmp c d tl hv
    refine ⟨?_, ?_, ?_, ?_, ?_, hkind, hNF⟩ <;> simp [hk]

/-- Witness for C19: a choice of kind Flags with a default outside its values,
and with flags set, comes back unchanged. -/
theorem fix_default_frame_witness :
    (spa_pod_choice_fix_default compareInt
      { kind := SPA_CHOICE_Flags, flags := 1, childType := SPA_TYPE_Int, childSize := 4,
        values := [int 9, int 1, int 2] }).2 =
      { kind := SPA_CHOICE_Flags, flags := 1, childType := SPA_TYPE_Int, childSize := 4,
        values := [int 9, int 1, int 2] } :=
  (fix_default_frame compareInt
      { kind := SPA_CHOICE_Flags, flags := 1, childType := SPA_TYPE_Int, childSize := 4,
        values := [int 9, int 1, int 2] }).2.2.2.2.2.2.2 (Or.inr rfl)

/-! ## Claims on the alternatives of the None/Enum case -/

theorem matchesOf_sublist (cmp : Nat → Bytes → Bytes → Int) (type : Nat) (alt2 : List Bytes)
    (a1 : Bytes) (h : (alt2.filter (fun a2 => cmp type a1 a2 = 0)).length ≤ 1) :
    List.Sublist (matchesOf cmp type alt2 a1) [a1] := by
  unfold matchesOf
  cases hf : alt2.filter (fun a2 => cmp type a1 a2 = 0) with
  | nil => simp
  | cons x t =>
    rw [hf] at h
    cases t with
    | nil => simp
    | cons y t2 => simp at h

theorem equalMatches_sublist (cmp : Nat → Bytes → Bytes → Int) (type : Nat)
    (alt1 alt2 : List Bytes)
    (h : ∀ a1 ∈ alt1, (alt2.filter (fun a2 => cmp type a1 a2 = 0)).length ≤ 1) :
    List.Sublist (equalMatches cmp type alt1 alt2) alt1 := by
  induction alt1 with
  | nil => simp [equalMatches]
  | cons a rest ih =>
    have h1 := matchesOf_sublist cmp type alt2 a (h a (List.mem_cons_self _ _))
    have h2 := ih (fun x hx => h x (List.mem_cons_of_mem _ hx))
    have := List.Sublist.append h1 h2
    simpa [equalMatches] using this

/-- C20 (the claim as stated fails): source `Enum [4; 4]` has one alternative;
filtered by `Enum [4; 4, 4]`, whose alternative list repeats 4, the result is
`Enum [4; 4, 4]` with two alternatives: more than the source has, so not a
sublist of the source alternatives. -/
theorem enum_duplicates_multiply :
    spa_pod_filter_prop compareInt Builder.empty
        (intChoiceProp 7 SPA_CHOICE_Enum [4, 4])
        (intChoiceProp 7 SPA_CHOICE_Enum [4, 4, 4]) =
      (0, closedBuilder Builder.empty 7
        { kind := SPA_CHOICE_Enum, flags := 0, childType := SPA_TYPE_Int, childSize := 4
          values := [int 4, int 4, int 4] }) ∧
    ¬ List.Sublist [int 4, int 4]
        (alternatives (spa_pod_get_values (intChoiceProp 7 SPA_CHOICE_Enum [4, 4]).value)) := by
  decide

/-- C20 (amended): in the None/Enum against None/Enum case with a source of kind
Enum, a successful `spa_pod_filter_prop` writes as alternatives each source
alternative once per filter alternative that compares equal to it, in source
order: every alternative written is a source alternative and there are at most
(source alternatives) x (filter alternatives) of them; when every source
alternative compares equal to at most one filter alternative, the alternatives
written form a sublist of the source alternatives, so they are not more than
the source has. -/
theorem filter_prop_enum_alternatives (cmp : Nat → Bytes → Bytes → Int) (b : Builder)
    (p1 p2 : PodProp)
    (ht : (spa_pod_get_values p1.value).type = (spa_pod_get_values p2.value).type)
    (hs : (spa_pod_get_values p1.value).size = (spa_pod_get_values p2.value).size)
    (hk : p1.key = p2.key)
    (h1 : (spa_pod_get_values p1.value).choice = SPA_CHOICE_Enum)
    (h2 : (spa_pod_get_values p2.value).choice = SPA_CHOICE_None ∨
          (spa_pod_get_values p2.value).choice = SPA_CHOICE_Enum)
    (hw : (spa_pod_get_values p1.value).WF)
    (hfit : Fits (spa_pod_get_values p1.value).size
      (1 + (alternatives (spa_pod_get_values p1.value)).length *
           (alternatives (spa_pod_get_values p2.value)).length))
    (hok : (spa_pod_filter_prop cmp b p1 p2).1 = 0) :
    ∃ (d1 : Bytes) (alts : List Bytes),
      (spa_pod_filter_prop cmp b p1 p2).2 = closedBuilder b p1.key
        { kind := SPA_CHOICE_Enum, flags := 0
          childType := (spa_pod_get_values p1.value).type
          childSize := (spa_pod_get_values p1.value).size
          values := d1 :: alts } ∧
      alts = (alternatives (spa_pod_get_values p1.value)).flatMap (fun a1 =>
        ((alternatives (spa_pod_get_values p2.value)).filter
          (fun a2 => cmp (spa_pod_get_values p1.value).type a1 a2 = 0)).map (fun _ => a1)) ∧
      (∀ x ∈ alts, x ∈ alternatives (spa_pod_get_values p1.value)) ∧
      alts.length ≤ (alternatives (spa_pod_get_values p1.value)).length *
        (alternatives (spa_pod_get_values p2.value)).length ∧
      ((∀ a1 ∈ alternatives (spa_pod_get_values p1.value),
          ((alternatives (spa_pod_get_values p2.value)).filter
            (fun a2 => cmp (spa_pod_get_values p1.value).type a1 a2 = 0)).length ≤ 1) →
        List.Sublist alts (alternatives (spa_pod_get_values p1.value)) ∧
        alts.length ≤ (alternatives (spa_pod_get_values p1.value)).length) := by
  rw [filter_prop_equal_result cmp b p1 p2 ht hs hk (Or.inr h1) h2 hw hfit] at hok ⊢
  generalize hv1 : spa_pod_get_values p1.value = v1 at *
  generalize hv2 : spa_pod_get_values p2.value = v2 at *
  by_cases hM : equalMatches cmp v1.type (alternatives v1) (alternatives v2) = []
  · rw [if_pos hM] at hok
    simp [EINVAL] at hok
  · rw [if_neg hM, fix_default_enum]
    simp only [h1, if_true, hM, if_false]
    refine ⟨_, _, rfl, rfl, ?_, equalMatches_length_le cmp v1.type _ _, fun hd => ?_⟩
    · intro x hx
      exact ((mem_equalMatches cmp v1.type _ _ x).mp hx).1
    · have hsub := equalMatches_sublist cmp v1.type (alternatives v1) (alternatives v2) hd
      exact ⟨hsub, hsub.length_le⟩

/-- Witness for C20: source `Enum {2,4,6,8}`, filter `Enum {4,8,10}`. -/
theorem filter_prop_enum_alternatives_witness :
    ∃ (d1 : Bytes) (alts : List Bytes),
      (spa_pod_filter_prop compareInt Builder.empty
          (intChoiceProp 7 SPA_CHOICE_Enum [2, 2, 4, 6, 8])
          (intChoiceProp 7 SPA_CHOICE_Enum [4, 4, 8, 10])).2 =
        closedBuilder Builder.empty 7
          { kind := SPA_CHOICE_Enum, flags := 0, childType := SPA_TYPE_Int, childSize := 4
            values := d1 :: alts } ∧
      alts = [int 4, int 8] := by
  obtain ⟨d1, alts, h1, h2, _⟩ := filter_prop_enum_alternatives compareInt Builder.empty
    (intChoiceProp 7 SPA_CHOICE_Enum [2, 2, 4, 6, 8])
    (intChoiceProp 7 SPA_CHOICE_Enum [4, 4, 8, 10])
    (by decide) (by decide) (by decide) (by decide) (by decide) (by decide) (by decide)
    (by decide)
  exact ⟨d1, alts, h1, h2.trans (by decide)⟩

/-! ## Claims on `spa_pod_filter_part` -/

/-- C14: for a source sibling that is neither an Object nor a Struct and a
present filter sibling `pf`, the loop body of `spa_pod_filter_part` accepts the
sibling if and only if `pf` has the same total size and the same bytes (header
and body): then it appends a verbatim copy of the source sibling (padded) and
advances the filter cursor; otherwise it returns `-EINVAL` with nothing written,
and so does the whole call.  Nothing else is looked at, also for Choice and
Array PODs. -/
theorem filter_leaf_exact (cmp : Nat → Bytes → Bytes → Int) (pp pf : Pod) (res : Int)
    (b : Builder) (rest after more : List Pod)
    (hS : pp.type ≠ SPA_TYPE_Struct) (hO : pp.type ≠ SPA_TYPE_Object) (hres : 0 ≤ res) :
    (pp.size = pf.size ∧ pp.bytes = pf.bytes →
      filterSibling cmp pp res b { pf := some pf, rest := rest, after := after } =
        .ok (res, { data := b.data ++ pp.bytes ++ zeros (pad8 pp.size), frames := b.frames },
          Cursor.advance { pf := some pf, rest := rest, after := after })) ∧
    (¬ (pp.size = pf.size ∧ pp.bytes = pf.bytes) →
      filterSibling cmp pp res b { pf := some pf, rest := rest, after := after } =
        .error (-EINVAL, b)) ∧
    (¬ (pp.size = pf.size ∧ pp.bytes = pf.bytes) →
      spa_pod_filter_part cmp b (pp :: more) (pf :: rest) after = (-EINVAL, b)) := by
  have key : ∀ (r : Int), 0 ≤ r → ∀ (c : Cursor), c.pf = some pf →
      (pp.size = pf.size ∧ pp.bytes = pf.bytes →
        filterSibling cmp pp r b c =
          .ok (r, { data := b.data ++ pp.bytes ++ zeros (pad8 pp.size), frames := b.frames },
            c.advance)) ∧
      (¬ (pp.size = pf.size ∧ pp.bytes = pf.bytes) →
        filterSibling cmp pp r b c = .error (-EINVAL, b)) := by
    intro r hr c hc
    have hnr : ¬ r < 0 := not_lt.mpr hr
    cases pp with
    | struct items => exact absurd rfl hS
    | object t id props => exact absurd rfl hO
    | leaf t body =>
      unfold filterSibling
      simp only [hc]
      constructor
      · rintro ⟨h1, h2⟩
        simp [h1, h2, hnr, spa_pod_builder_raw_padded, pod_bytes_length]
      · intro h
        by_cases h1 : (Pod.leaf t body).size = pf.size
        · have h2 : (Pod.leaf t body).bytes ≠ pf.bytes := fun h2 => h ⟨h1, h2⟩
          simp [h1, h2]
        · simp [h1]
    | choice c0 =>
      unfold filterSibling
      simp only [hc]
      constructor
      · rintro ⟨h1, h2⟩
        simp [h1, h2, hnr, spa_pod_builder_raw_padded, pod_bytes_length]
      · intro h
        by_cases h1 : (Pod.choice c0).size = pf.size
        · have h2 : (Pod.choice c0).bytes ≠ pf.bytes := fun h2 => h ⟨h1, h2⟩
          simp [h1, h2]
        · simp [h1]
  refine ⟨(key res hres _ rfl).1, (key res hres _ rfl).2, fun h => ?_⟩
  unfold spa_pod_filter_part filterSiblings
  have := (key 0 (le_refl 0) (Cursor.init (pf :: rest) after) rfl).2 h
  rw [this]

/-- Witness for C14: a Choice sibling `Enum {2,4}` against the Choice sibling
`Enum {2,6}` of the same size is rejected with `-EINVAL`; no intersection is
computed for a Choice that is a direct sibling. -/
theorem filter_leaf_exact_witness :
    spa_pod_filter_part compareInt exBuilder
        [(intChoiceProp 7 SPA_CHOICE_Enum [2, 2, 4]).value]
        [(intChoiceProp 7 SPA_CHOICE_Enum [2, 2, 6]).value] [] = (-EINVAL, exBuilder) :=
  (filter_leaf_exact compareInt (intChoiceProp 7 SPA_CHOICE_Enum [2, 2, 4]).value
      (intChoiceProp 7 SPA_CHOICE_Enum [2, 2, 6]).value 0 exBuilder [] [] []
      (by decide) (by decide) (by decide)).2.2 (by decide)

/-- C18 (the code at the failing input): the source `Struct {Struct {Int 1}}` is
filtered by `Struct {Struct {}, Int 2}`.  The inner filter region (the body of
the empty Struct) is empty, yet the call fails with `-EINVAL`: the cursor starts
at the first byte after the region, where the header of `Int 2` is read and
compared with the source sibling.  With `Int 1` after the empty Struct the same
call succeeds, and on the bare empty region the source sibling is not copied. -/
theorem filter_part_reads_past_empty_region :
    spa_pod_filter compareInt Builder.empty none
        (some (.struct [.struct [.leaf SPA_TYPE_Int (int 1)]]))
        (some (.struct [.struct [], .leaf SPA_TYPE_Int (int 2)])) [] =
      (-EINVAL, Builder.empty, none) ∧
    (spa_pod_filter compareInt Builder.empty none
        (some (.struct [.struct [.leaf SPA_TYPE_Int (int 1)]]))
        (some (.struct [.struct [], .leaf SPA_TYPE_Int (int 1)])) []).1 = 0 ∧
    spa_pod_filter_part compareInt Builder.empty [.leaf SPA_TYPE_Int (int 1)] []
        [.leaf SPA_TYPE_Int (int 2)] = (-EINVAL, Builder.empty) := by
  decide

theorem filterSibling_error_neg (cmp : Nat → Bytes → Bytes → Int) (pp : Pod) (res : Int)
    (b : Builder) (c : Cursor) (e : Int × Builder)
    (h : filterSibling cmp pp res b c = .error e) : e.1 < 0 := by
  have hE : -EINVAL < 0 := by decide
  cases pp <;> unfold filterSibling at h <;> cases hc : c.pf <;> simp only [hc] at h <;>
    split_ifs at h <;> simp only [Except.error.injEq, reduceCtorEq] at h <;> subst h <;>
    first | exact hE | assumption

theorem filterSibling_ok (cmp : Nat → Bytes → Bytes → Int) (pp : Pod) (res : Int)
    (b : Builder) (c : Cursor) (r : Int) (b1 : Builder) (c1 : Cursor)
    (h : filterSibling cmp pp res b c = .ok (r, b1, c1)) :
    0 ≤ r ∧ c1 = (if c.pf.isSome then c.advance else c) := by
  cases pp <;> unfold filterSibling at h <;> cases hc : c.pf <;> simp only [hc] at h <;>
    split_ifs at h <;>
    simp only [Except.ok.injEq, reduceCtorEq, Prod.mk.injEq] at h <;>
    obtain ⟨h1, _, h3⟩ := h <;> subst h1 <;> subst h3 <;>
    exact ⟨not_lt.mp (by assumption), by simp⟩

/-- Copy mode: with the filter cursor at `NULL` every remaining source sibling is
copied verbatim. -/
theorem filterSiblings_copy (cmp : Nat → Bytes → Bytes → Int) (back : List Pod) (res : Int)
    (b : Builder) (c : Cursor) (hc : c.pf = none) (hres : 0 ≤ res) :
    filterSiblings cmp back res b c =
      (res, { data := b.data ++ copiesOf back, frames := b.frames }) := by
  have hnr : ¬ res < 0 := not_lt.mpr hres
  induction back generalizing b with
  | nil => simp [filterSiblings, copiesOf]
  | cons pp rest ih =>
    unfold filterSiblings
    have hstep : filterSibling cmp pp res b c =
        .ok (res, { data := b.data ++ (pp.bytes ++ zeros (pad8 pp.size)), frames := b.frames },
          c) := by
      cases pp <;> unfold filterSibling <;>
        simp [hc, hnr, spa_pod_builder_raw_padded, pod_bytes_length]
    rw [hstep]
    simp only
    rw [ih]
    simp [copiesOf]

theorem filterSiblings_append (cmp : Nat → Bytes → Bytes → Int) (front back : List Pod)
    (res : Int) (b : Builder) (c : Cursor) (r : Int) (b1 : Builder)
    (hpf : c.pf.isSome) (hlen : c.rest.length + 1 = front.length)
    (hfront : filterSiblings cmp front res b c = (r, b1)) (hr : 0 ≤ r) :
    filterSiblings cmp (front ++ back) res b c =
      (r, { data := b1.data ++ copiesOf back, frames := b1.frames }) := by
  induction front generalizing res b c with
  | nil => simp at hlen
  | cons pp rest ih =>
    unfold filterSiblings at hfront
    rw [List.cons_append]
    unfold filterSiblings
    cases hs : filterSibling cmp pp res b c with
    | error e =>
      rw [hs] at hfront
      simp only at hfront
      have := filterSibling_error_neg cmp pp res b c e hs
      rw [hfront] at this
      simp only at this
      omega
    | ok v =>
      obtain ⟨r1, b2, c2⟩ := v
      rw [hs] at hfront
      simp only at hfront ⊢
      obtain ⟨hr1, hc2⟩ := filterSibling_ok cmp pp res b c r1 b2 c2 hs
      rw [if_pos hpf] at hc2
      subst hc2
      cases hrest : c.rest with
      | nil =>
        have hnil : rest = [] := by
          rw [hrest] at hlen
          simp at hlen
          exact hlen
        subst hnil
        have hnone : (c.advance).pf = none := by simp [Cursor.advance, hrest]
        simp only [filterSiblings] at hfront
        obtain ⟨h1, h2⟩ := Prod.mk.inj hfront
        subst h1; subst h2
        simpa using filterSiblings_copy cmp back r1 b2 c.advance hnone hr1
      | cons f fr =>
        have hsome : (c.advance).pf.isSome := by simp [Cursor.advance, hrest]
        have hl : (c.advance).rest.length + 1 = rest.length := by
          rw [hrest] at hlen
          simp [Cursor.advance, hrest] at hlen ⊢
          omega
        exact ih r1 b2 c.advance hsome hl hfront

/-- C15: when a source sequence starts with `k >= 1` siblings that the `k`
filter siblings accept (the call on these `k` alone succeeds with result `r`
and builder `b1`), the call on the whole source sequence succeeds with the same
`r` and appends to `b1` verbatim padded copies of all further source siblings,
whatever their type and content: the filter cursor is `NULL` from then on and
nothing is filtered or compared any more. -/
theorem filter_part_exhausted_copies (cmp : Nat → Bytes → Bytes → Int) (b : Builder)
    (front back fs beyond : List Pod) (r : Int) (b1 : Builder)
    (hk : fs.length = front.length) (hne : fs ≠ [])
    (hfront : spa_pod_filter_part cmp b front fs beyond = (r, b1)) (hr : 0 ≤ r) :
    spa_pod_filter_part cmp b (front ++ back) fs beyond =
      (r, { data := b1.data ++ copiesOf back, frames := b1.frames }) := by
  unfold spa_pod_filter_part at hfront ⊢
  cases fs with
  | nil => exact absurd rfl hne
  | cons f rest =>
    apply filterSiblings_append cmp front back 0 b _ r b1 _ _ hfront hr
    · simp [Cursor.init]
    · simpa [Cursor.init] using hk

/-- Witness for C15: one accepted leaf, then an Object, a Struct and a Step
choice that are copied without a filter sibling. -/
theorem filter_part_exhausted_copies_witness :
    spa_pod_filter_part compareInt Builder.empty
        ([.leaf SPA_TYPE_Int (int 1)] ++
          [exSource, (exProp SPA_CHOICE_Step).value, .object 1 2 [(7, 5, .leaf SPA_TYPE_Int (int 3))]])
        [.leaf SPA_TYPE_Int (int 1)] [] =
      (0, { data := (Pod.leaf SPA_TYPE_Int (int 1)).bytes ++ zeros 4 ++
              copiesOf [exSource, (exProp SPA_CHOICE_Step).value,
                .object 1 2 [(7, 5, .leaf SPA_TYPE_Int (int 3))]],
            frames := [] }) :=
  filter_part_exhausted_copies compareInt Builder.empty [.leaf SPA_TYPE_Int (int 1)]
    [exSource, (exProp SPA_CHOICE_Step).value, .object 1 2 [(7, 5, .leaf SPA_TYPE_Int (int 3))]]
    [.leaf SPA_TYPE_Int (int 1)] [] 0
    { data := (Pod.leaf SPA_TYPE_Int (int 1)).bytes ++ zeros 4, frames := [] }
    (by decide) (List.cons_ne_nil _ _) (by decide) (by decide)

/-! ## `spa_pod_filter_prop` does the same on every builder -/

theorem good_mono {pool : List Bytes} {n m k : Nat} {vals : List Bytes}
    (h : Good pool n k vals) (hnm : n ≤ m) : Good pool m k vals :=
  ⟨h.1, le_trans h.2.1 hnm, h.2.2⟩

theorem good_append {pool : List Bytes} {n k : Nat} {vals ws : List Bytes} (k1 m : Nat)
    (h : Good pool n k vals) (hk : k1 ≤ 4) (hlen : ws.length ≤ m) (hsub : ∀ w ∈ ws, w ∈ pool) :
    Good pool (n + m) k1 (vals ++ ws) := by
  refine ⟨hk, by rw [List.length_append]; have := h.2.1; omega, ?_⟩
  intro v hv
  rcases List.mem_append.mp hv with h1 | h1
  · exact h.2.2 v h1
  · exact hsub v h1

theorem uniform_mono {key size type : Nat} {pool : List Bytes} {n m : Nat}
    {F : Builder → Except (Int × Builder) Builder}
    (h : Uniform key size type pool n F) (hnm : n ≤ m) : Uniform key size type pool m F := by
  rcases h with ⟨e, k, vals, he, hg, hF⟩ | ⟨k, vals, hg, hF⟩
  · exact Or.inl ⟨e, k, vals, he, good_mono hg hnm, hF⟩
  · exact Or.inr ⟨k, vals, good_mono hg hnm, hF⟩

theorem uniform_bind {key size type : Nat} {pool : List Bytes} {n m : Nat}
    {F : Builder → Except (Int × Builder) Builder}
    {G : Builder → Builder → Except (Int × Builder) Builder}
    (hF : Uniform key size type pool n F)
    (hG : ∀ k vals, Good pool n k vals →
      Uniform key size type pool m (fun b => G b (openBuilderK b key k size type vals)))
    (hnm : n ≤ m) :
    Uniform key size type pool m (fun b => F b >>= G b) := by
  rcases hF with ⟨e, k, vals, he, hg, hF⟩ | ⟨k, vals, hg, hF⟩
  · refine Or.inl ⟨e, k, vals, he, good_mono hg hnm, fun b => ?_⟩
    simp only [hF b]; rfl
  · rcases hG k vals hg with ⟨e, k1, v1, he, hg1, hG1⟩ | ⟨k1, v1, hg1, hG1⟩
    · refine Or.inl ⟨e, k1, v1, he, hg1, fun b => ?_⟩
      simp only [hF b]; exact hG1 b
    · refine Or.inr ⟨k1, v1, hg1, fun b => ?_⟩
      simp only [hF b]; exact hG1 b

theorem uniform_notSupIf (key size type : Nat) (pool : List Bytes) (n k : Nat)
    (vals : List Bytes) (hg : Good pool n k vals) (c : Bool) :
    Uniform key size type pool n
      (fun b => notSupIf c (openBuilderK b key k size type vals)) := by
  cases c with
  | true => exact Or.inl ⟨-ENOTSUP, k, vals, by decide, hg, fun b => rfl⟩
  | false => exact Or.inr ⟨k, vals, hg, fun b => rfl⟩

theorem copyEqual_openK (cmp : Nat → Bytes → Bytes → Int) (type p1c : Nat)
    (alt2 alt1 : List Bytes) (b : Builder) (key k size : Nat) (vals : List Bytes) :
    copyEqual cmp type p1c alt2 0 alt1 (openBuilderK b key k size type vals, 0) =
      (openBuilderK b key k size type
        (vals ++ (if p1c = SPA_CHOICE_Enum then alt1.flatMap (matchesOf cmp type alt2)
               else alt1.tail.flatMap (matchesOf cmp type alt2))),
       (alt1.flatMap (matchesOf cmp type alt2)).length) := by
  rw [copyEqual_eq]
  simp only [openBuilderK, Nat.lt_irrefl, or_false, Nat.zero_add]
  by_cases h : p1c = SPA_CHOICE_Enum
  · simp only [h, if_true, openProp_append]
  · simp only [h, if_false, openProp_append]

theorem copyInRange_openK (cmp : Nat → Bytes → Bytes → Int) (type : Nat) (lo hi : Bytes)
    (as : List Bytes) (b : Builder) (key k size : Nat) (vals : List Bytes) :
    copyInRange cmp type lo hi as (openBuilderK b key k size type vals, 0) =
      (openBuilderK b key k size type (vals ++ inRange cmp type lo hi as),
       (inRange cmp type lo hi as).length) := by
  rw [copyInRange_eq]
  simp only [openBuilderK, Nat.zero_add, openProp_append]

theorem setChoiceKind_openK (b : Builder) (key k0 k size type : Nat) (vals : List Bytes) :
    setChoiceKind (openBuilderK b key k0 size type vals) (b.data.length + 8) k =
      openBuilderK b key k size type vals := by
  unfold openBuilderK
  rw [setChoiceKind_open]

theorem mem_pool_alt1 (p1c p2c : Nat) (d : Bytes) (alt1 alt2 : List Bytes) (x : Bytes)
    (h : x ∈ alt1) : x ∈ valuePool p1c p2c d alt1 alt2 := by
  simp [valuePool, h]

theorem mem_pool_alt2 (p1c p2c : Nat) (d : Bytes) (alt1 alt2 : List Bytes) (x : Bytes)
    (h : x ∈ alt2) : x ∈ valuePool p1c p2c d alt1 alt2 := by
  simp [valuePool, h]

theorem uniform_filterEqual (cmp : Nat → Bytes → Bytes → Int) (key size type p1c p2c : Nat)
    (d : Bytes) (alt1 alt2 : List Bytes) (n k : Nat) (vals : List Bytes)
    (hg : Good (valuePool p1c p2c d alt1 alt2) n k vals) :
    Uniform key size type (valuePool p1c p2c d alt1 alt2) (n + alt1.length * alt2.length)
      (fun b => filterEqual cmp type p1c p2c (b.data.length + 8) alt1 alt2
        (openBuilderK b key k size type vals)) := by
  unfold filterEqual
  split
  · simp only [copyEqual_openK, setChoiceKind_openK]
    have hlenM := equalMatches_length_le cmp type alt1 alt2
    unfold equalMatches at hlenM
    have hW : Good (valuePool p1c p2c d alt1 alt2) (n + alt1.length * alt2.length) k
        (vals ++ (if p1c = SPA_CHOICE_Enum then alt1.flatMap (matchesOf cmp type alt2)
               else alt1.tail.flatMap (matchesOf cmp type alt2))) ∧
        Good (valuePool p1c p2c d alt1 alt2) (n + alt1.length * alt2.length) SPA_CHOICE_Enum
        (vals ++ (if p1c = SPA_CHOICE_Enum then alt1.flatMap (matchesOf cmp type alt2)
               else alt1.tail.flatMap (matchesOf cmp type alt2))) := by
      have hlen : (if p1c = SPA_CHOICE_Enum then alt1.flatMap (matchesOf cmp type alt2)
               else alt1.tail.flatMap (matchesOf cmp type alt2)).length
          ≤ alt1.length * alt2.length := by
        split
        · exact hlenM
        · have h2 := equalMatches_length_le cmp type alt1.tail alt2
          unfold equalMatches at h2
          refine le_trans h2 (Nat.mul_le_mul_right _ ?_)
          simp
      have hsub : ∀ w ∈ (if p1c = SPA_CHOICE_Enum then alt1.flatMap (matchesOf cmp type alt2)
               else alt1.tail.flatMap (matchesOf cmp type alt2)),
          w ∈ valuePool p1c p2c d alt1 alt2 := by
        intro w hw
        apply mem_pool_alt1
        split at hw
        · exact ((mem_equalMatches cmp type alt1 alt2 w).mp hw).1
        · exact List.mem_of_mem_tail ((mem_equalMatches cmp type alt1.tail alt2 w).mp hw).1
      exact ⟨good_append k _ hg hg.1 hlen hsub, good_append _ _ hg (by decide) hlen hsub⟩
    by_cases hz : (alt1.flatMap (matchesOf cmp type alt2)).length = 0
    · exact Or.inl ⟨-EINVAL, _, _, by decide, hW.1, fun b => by simp only [hz, if_true]⟩
    · exact Or.inr ⟨_, _, hW.2, fun b => by simp only [hz, if_false]⟩
  · exact Or.inr ⟨k, vals, good_mono hg (Nat.le_add_right _ _), fun b => rfl⟩

theorem uniform_inRange (cmp : Nat → Bytes → Bytes → Int) (key size type : Nat)
    (pool : List Bytes) (lo hi : Bytes) (as : List Bytes) (n k : Nat) (vals : List Bytes)
    (hg : Good pool n k vals) (hsub : ∀ x ∈ as, x ∈ pool) :
    Uniform key size type pool (n + as.length)
      (fun b =>
        if (copyInRange cmp type lo hi as (openBuilderK b key k size type vals, 0)).2 = 0 then
          .error (-EINVAL,
            (copyInRange cmp type lo hi as (openBuilderK b key k size type vals, 0)).1)
        else .ok (setChoiceKind
          (copyInRange cmp type lo hi as (openBuilderK b key k size type vals, 0)).1
          (b.data.length + 8) SPA_CHOICE_Enum)) := by
  simp only [copyInRange_openK, setChoiceKind_openK]
  have hlen := inRange_length_le cmp type lo hi as
  have hs : ∀ w ∈ inRange cmp type lo hi as, w ∈ pool := fun w hw =>
    hsub w (inRange_subset cmp type lo hi as w hw)
  by_cases hz : (inRange cmp type lo hi as).length = 0
  · exact Or.inl ⟨-EINVAL, _, _, by decide, good_append k _ hg hg.1 hlen hs,
      fun b => by simp only [hz, if_true]⟩
  · exact Or.inr ⟨SPA_CHOICE_Enum, _, good_append SPA_CHOICE_Enum _ hg (by decide) hlen hs,
      fun b => by simp only [hz, if_false]⟩

theorem uniform_filterEnumRange (cmp : Nat → Bytes → Bytes → Int)
    (key size type p1c p2c : Nat) (d : Bytes) (alt1 alt2 : List Bytes) (n k : Nat)
    (vals : List Bytes) (hg : Good (valuePool p1c p2c d alt1 alt2) n k vals) :
    Uniform key size type (valuePool p1c p2c d alt1 alt2) (n + alt1.length)
      (fun b => filterEnumRange cmp type p1c p2c (b.data.length + 8) alt1 alt2
        (openBuilderK b key k size type vals)) := by
  unfold filterEnumRange
  split
  · exact uniform_inRange cmp key size type _ _ _ alt1 n k vals hg
      (fun x hx => mem_pool_alt1 p1c p2c d alt1 alt2 x hx)
  · exact Or.inr ⟨k, vals, good_mono hg (Nat.le_add_right _ _), fun b => rfl⟩

theorem uniform_filterRangeEnum (cmp : Nat → Bytes → Bytes → Int)
    (key size type p1c p2c : Nat) (d : Bytes) (alt1 alt2 : List Bytes) (n k : Nat)
    (vals : List Bytes) (hg : Good (valuePool p1c p2c d alt1 alt2) n k vals) :
    Uniform key size type (valuePool p1c p2c d alt1 alt2) (n + alt2.length)
      (fun b => filterRangeEnum cmp type p1c p2c (b.data.length + 8) alt1 alt2
        (openBuilderK b key k size type vals)) := by
  unfold filterRangeEnum
  split
  · exact uniform_inRange cmp key size type _ _ _ alt2 n k vals hg
      (fun x hx => mem_pool_alt2 p1c p2c d alt1 alt2 x hx)
  · exact Or.inr ⟨k, vals, good_mono hg (Nat.le_add_right _ _), fun b => rfl⟩

theorem uniform_filterRangeRange (cmp : Nat → Bytes → Bytes → Int)
    (key size type p1c p2c : Nat) (d : Bytes) (alt1 alt2 : List Bytes) (n k : Nat)
    (vals : List Bytes) (hg : Good (valuePool p1c p2c d alt1 alt2) n k vals) :
    Uniform key size type (valuePool p1c p2c d alt1 alt2) (n + 2)
      (fun b => filterRangeRange cmp type p1c p2c (b.data.length + 8) alt1 alt2
        (openBuilderK b key k size type vals)) := by
  unfold filterRangeRange
  split
  · rename_i hc
    have hopen : ∀ (b : Builder) (x y : Bytes),
        (spa_pod_builder_raw (spa_pod_builder_raw (openBuilderK b key k size type vals) x).2
          y).2 = openBuilderK b key k size type (vals ++ [x, y]) := by
      intro b x y
      simp [spa_pod_builder_raw, openBuilderK, openProp]
    have hpool : ∀ x ∈ [alt1.getD 0 [], alt1.getD 1 [], alt2.getD 0 [], alt2.getD 1 []],
        x ∈ valuePool p1c p2c d alt1 alt2 := by
      intro x hx
      unfold valuePool
      rw [if_pos hc]
      simp only [List.mem_cons, List.mem_append]
      right; right; simpa using hx
    refine Or.inr ⟨SPA_CHOICE_Range,
      vals ++ [if cmp type (alt1.getD 0 []) (alt2.getD 0 []) < 0 then alt2.getD 0 []
               else alt1.getD 0 [],
              if cmp type (alt1.getD 1 []) (alt2.getD 1 []) < 0 then alt1.getD 1 []
               else alt2.getD 1 []], ?_, fun b => ?_⟩
    · refine good_append _ 2 hg (by decide) (by simp) ?_
      intro w hw
      simp only [List.mem_cons, List.mem_singleton, List.not_mem_nil, or_false] at hw
      rcases hw with rfl | rfl <;> split <;> exact hpool _ (by simp)
    · rw [← setChoiceKind_openK b key k SPA_CHOICE_Range size type, ← hopen]
      split <;> split <;> rfl
  · exact Or.inr ⟨k, vals, good_mono hg (Nat.le_add_right _ _), fun b => rfl⟩

theorem uniform_chain (cmp : Nat → Bytes → Bytes → Int) (key size type p1c p2c : Nat)
    (d : Bytes) (alt1 alt2 : List Bytes) :
    Uniform key size type (valuePool p1c p2c d alt1 alt2)
      (3 + alt1.length * alt2.length + alt1.length + alt2.length)
      (fun b => filterChain cmp type p1c p2c (b.data.length + 8) alt1 alt2
        (openBuilderK b key 0 size type [d])) := by
  have h0 : Good (valuePool p1c p2c d alt1 alt2) 1 0 [d] :=
    ⟨by decide, by simp, by simp [valuePool]⟩
  unfold filterChain
  refine uniform_bind (uniform_filterEqual cmp key size type p1c p2c d alt1 alt2 1 0 [d] h0)
    (fun k vals hg => ?_) (by omega)
  refine uniform_bind (uniform_filterEnumRange cmp key size type p1c p2c d alt1 alt2 _ k vals hg)
    (fun k vals hg => ?_) (by omega)
  refine uniform_bind (uniform_notSupIf key size type _ _ k vals hg _)
    (fun k vals hg => ?_) (by omega)
  refine uniform_bind (uniform_filterRangeEnum cmp key size type p1c p2c d alt1 alt2 _ k vals hg)
    (fun k vals hg => ?_) (by omega)
  refine uniform_bind (uniform_filterRangeRange cmp key size type p1c p2c d alt1 alt2 _ k vals hg)
    (fun k vals hg => ?_) (by omega)
  iterate 14
    refine uniform_bind (uniform_notSupIf key size type _ _ k vals hg _)
      (fun k vals hg => ?_) (by omega)
  exact Or.inr ⟨k, vals, good_mono hg (by omega), fun b => rfl⟩

/-- The result code of `spa_pod_filter_prop` does not depend on the builder. -/
theorem filter_prop_code_indep (cmp : Nat → Bytes → Bytes → Int) (b b1 : Builder)
    (p1 p2 : PodProp) :
    (spa_pod_filter_prop cmp b p1 p2).1 = (spa_pod_filter_prop cmp b1 p1 p2).1 := by
  by_cases hm : (spa_pod_get_values p1.value).type ≠ (spa_pod_get_values p2.value).type ∨
         (spa_pod_get_values p1.value).size ≠ (spa_pod_get_values p2.value).size ∨
         p1.key ≠ p2.key
  · rw [filter_prop_mismatch cmp b p1 p2 hm, filter_prop_mismatch cmp b1 p1 p2 hm]
  · have hm1 : (spa_pod_get_values p1.value).type = (spa_pod_get_values p2.value).type ∧
         (spa_pod_get_values p1.value).size = (spa_pod_get_values p2.value).size ∧
         p1.key = p2.key := by
      simp only [not_or, not_not] at hm; exact hm
    rw [filter_prop_chain cmp b p1 p2 hm1.1 hm1.2.1 hm1.2.2,
      filter_prop_chain cmp b1 p1 p2 hm1.1 hm1.2.1 hm1.2.2]
    rcases uniform_chain cmp p1.key (spa_pod_get_values p1.value).size
      (spa_pod_get_values p1.value).type (spa_pod_get_values p1.value).choice
      (spa_pod_get_values p2.value).choice ((spa_pod_get_values p1.value).vals.headD [])
      (alternatives (spa_pod_get_values p1.value)) (alternatives (spa_pod_get_values p2.value))
      with ⟨e, k, vals, _, _, hF⟩ | ⟨k, vals, _, hF⟩
    · have h1 := hF b
      have h2 := hF b1
      simp only [openBuilderK] at h1 h2
      simp only [openBuilder, h1, h2]
    · have h1 := hF b
      have h2 := hF b1
      simp only [openBuilderK] at h1 h2
      simp only [openBuilder, h1, h2]

theorem getD_mem_of_lt (l : List Bytes) (i : Nat) (h : i < l.length) : l.getD i [] ∈ l := by
  rw [List.getD_eq_getElem _ _ h]
  exact List.getElem_mem h

theorem pool_lengths (p1 p2 : PodProp) (hw : PairWF p1 p2) :
    ∀ x ∈ valuePool (spa_pod_get_values p1.value).choice (spa_pod_get_values p2.value).choice
        ((spa_pod_get_values p1.value).vals.headD [])
        (alternatives (spa_pod_get_values p1.value))
        (alternatives (spa_pod_get_values p2.value)),
      x.length = (spa_pod_get_values p1.value).size := by
  obtain ⟨hw1, hl2, hr1, hr2, _⟩ := hw
  generalize spa_pod_get_values p1.value = v1 at *
  generalize spa_pod_get_values p2.value = v2 at *
  have hl1 := hw1.2.2.2.2
  have ha1 : ∀ x ∈ alternatives v1, x.length = v1.size := fun x hx =>
    hl1 x (alternatives_subset v1 x hx)
  have ha2 : ∀ x ∈ alternatives v2, x.length = v1.size := fun x hx =>
    hl2 x (alternatives_subset v2 x hx)
  intro x hx
  unfold valuePool at hx
  rcases List.mem_cons.mp hx with rfl | hx
  · exact hl1 _ (headD_mem_of_ne_nil _ hw1.1)
  · rcases List.mem_append.mp hx with hx | hx
    · rcases List.mem_append.mp hx with hx | hx
      · exact ha1 x hx
      · exact ha2 x hx
    · split at hx
      · rename_i hc
        have hne : SPA_CHOICE_Range ≠ SPA_CHOICE_None := by decide
        have hd1 : 2 ≤ (alternatives v1).length := by
          have := hr1 hc.1
          simp only [alternatives, hc.1, hne, if_false, List.length_drop]
          omega
        have hd2 : 2 ≤ (alternatives v2).length := by
          have := hr2 hc.2
          simp only [alternatives, hc.2, hne, if_false, List.length_drop]
          omega
        simp only [List.mem_cons, List.mem_singleton, List.not_mem_nil, or_false] at hx
        rcases hx with rfl | rfl | rfl | rfl
        · exact ha1 _ (getD_mem_of_lt _ 0 (by omega))
        · exact ha1 _ (getD_mem_of_lt _ 1 (by omega))
        · exact ha2 _ (getD_mem_of_lt _ 0 (by omega))
        · exact ha2 _ (getD_mem_of_lt _ 1 (by omega))
      · simp at hx

/-- On a well-formed pair, `spa_pod_filter_prop` either fails with one negative
code on every builder, or succeeds on every builder and leaves there one
property with the source key, property flags 0 and one choice `c` with flags 0
and the source's child type and size; `c` does not depend on the builder. -/
theorem filter_prop_closed (cmp : Nat → Bytes → Bytes → Int) (p1 p2 : PodProp)
    (hw : PairWF p1 p2) :
    (∃ e : Int, e < 0 ∧ ∀ b, (spa_pod_filter_prop cmp b p1 p2).1 = e) ∨
    (∃ c : Choice, c.flags = 0 ∧ c.childType = (spa_pod_get_values p1.value).type ∧
      c.childSize = (spa_pod_get_values p1.value).size ∧
      ∀ b, spa_pod_filter_prop cmp b p1 p2 = (0, closedBuilder b p1.key c)) := by
  by_cases hm : (spa_pod_get_values p1.value).type ≠ (spa_pod_get_values p2.value).type ∨
         (spa_pod_get_values p1.value).size ≠ (spa_pod_get_values p2.value).size ∨
         p1.key ≠ p2.key
  · exact Or.inl ⟨-EINVAL, by decide, fun b => by rw [filter_prop_mismatch cmp b p1 p2 hm]⟩
  · have hm1 : (spa_pod_get_values p1.value).type = (spa_pod_get_values p2.value).type ∧
         (spa_pod_get_values p1.value).size = (spa_pod_get_values p2.value).size ∧
         p1.key = p2.key := by
      simp only [not_or, not_not] at hm; exact hm
    have hpool := pool_lengths p1 p2 hw
    rcases uniform_chain cmp p1.key (spa_pod_get_values p1.value).size
      (spa_pod_get_values p1.value).type (spa_pod_get_values p1.value).choice
      (spa_pod_get_values p2.value).choice ((spa_pod_get_values p1.value).vals.headD [])
      (alternatives (spa_pod_get_values p1.value)) (alternatives (spa_pod_get_values p2.value))
      with ⟨e, k, vals, he, _, hF⟩ | ⟨k, vals, hg, hF⟩
    · refine Or.inl ⟨e, he, fun b => ?_⟩
      rw [filter_prop_chain cmp b p1 p2 hm1.1 hm1.2.1 hm1.2.2]
      have h1 := hF b
      simp only [openBuilderK] at h1
      simp only [openBuilder, h1]
    · have hwf : Choice.WF
          { kind := k, flags := 0, childType := (spa_pod_get_values p1.value).type,
            childSize := (spa_pod_get_values p1.value).size, values := vals } := by
        obtain ⟨hw1, _, _, _, hfit⟩ := hw
        obtain ⟨_, h0, hlt, hty, _⟩ := hw1
        refine ⟨by have := hg.1; simp only; omega, by norm_num, hty, h0, hlt,
          fun v hv => hpool v (hg.2.2 v hv), fits_mono hfit hg.2.1⟩
      have hshape : ∃ k1 vals1, (spa_pod_choice_fix_default cmp
          { kind := k, flags := 0, childType := (spa_pod_get_values p1.value).type,
            childSize := (spa_pod_get_values p1.value).size, values := vals }).2 =
          { kind := k1, flags := 0, childType := (spa_pod_get_values p1.value).type,
            childSize := (spa_pod_get_values p1.value).size, values := vals1 } := by
        cases hv : vals with
        | nil =>
          obtain ⟨k1, hk1⟩ := fix_default_nil cmp
            { kind := k, flags := 0, childType := (spa_pod_get_values p1.value).type,
              childSize := (spa_pod_get_values p1.value).size, values := [] } rfl
          exact ⟨k1, [], hk1⟩
        | cons d tl =>
          obtain ⟨k1, d1, hk1, _⟩ := fix_default_shape cmp
            { kind := k, flags := 0, childType := (spa_pod_get_values p1.value).type,
              childSize := (spa_pod_get_values p1.value).size, values := d :: tl } d tl rfl
          exact ⟨k1, d1 :: tl, hk1⟩
      obtain ⟨k1, vals1, hk1⟩ := hshape
      refine Or.inr ⟨
        { kind := k1, flags := 0, childType := (spa_pod_get_values p1.value).type,
          childSize := (spa_pod_get_values p1.value).size, values := vals1 }, rfl, rfl, rfl,
        fun b => ?_⟩
      rw [filter_prop_chain cmp b p1 p2 hm1.1 hm1.2.1 hm1.2.2]
      have h1 := hF b
      simp only [openBuilderK] at h1
      simp only [openBuilder, h1]
      rw [close_prop cmp b.data b.frames p1.key k _ _ vals hwf, hk1]
      rfl

/-! ## The Object case of `spa_pod_filter_part` -/

theorem pad8_add_aligned (a n : Nat) (h : a % 8 = 0) : pad8 (a + n) = pad8 n := by
  unfold pad8; omega

theorem add_pad8_aligned (n : Nat) : (n + pad8 n) % 8 = 0 := by
  unfold pad8; omega

theorem pad8_of_aligned (n : Nat) (h : n % 8 = 0) : pad8 n = 0 := by
  unfold pad8; omega

theorem zeros_length (n : Nat) : (zeros n).length = n := by
  simp [zeros]

theorem bodyProps_cons (o : Nat × Nat × Pod) (os : List (Nat × Nat × Pod)) :
    bodyProps (o :: os) =
      le32 o.1 ++ le32 o.2.1 ++ le32 o.2.2.body.length ++ le32 o.2.2.type ++ o.2.2.body
        ++ zeros (pad8 o.2.2.body.length) ++ bodyProps os := by
  obtain ⟨k, f, v⟩ := o
  simp [bodyProps]

theorem bodyProps_aligned (os : List (Nat × Nat × Pod)) : (bodyProps os).length % 8 = 0 := by
  induction os with
  | nil => simp [bodyProps]
  | cons o rest ih =>
    rw [bodyProps_cons]
    simp only [List.length_append, le32_length, zeros_length]
    have := add_pad8_aligned o.2.2.body.length
    omega

/-- A verbatim padded copy of a property is its entry in an Object body. -/
theorem prop_copy_eq (k f : Nat) (v : Pod) :
    (PodProp.mk k f v).bytes ++ zeros (pad8 (PodProp.mk k f v).bytes.length) =
      bodyProps [(k, f, v)] := by
  have hl : (PodProp.mk k f v).bytes.length = 16 + v.body.length := by
    simp [PodProp.bytes, Pod.bytes, le32_length]; omega
  rw [hl, show 16 + v.body.length = 16 + v.body.length from rfl,
    pad8_add_aligned 16 v.body.length (by decide)]
  simp [bodyProps, PodProp.bytes, Pod.bytes]

/-- On an aligned builder the property written by `spa_pod_filter_prop` is its
entry in an Object body. -/
theorem closedProp_eq (pre : Bytes) (key : Nat) (c : Choice) (h : pre.length % 8 = 0) :
    closedProp pre key c = pre ++ bodyProps [(key, 0, .choice c)] := by
  have hl : (PodProp.mk key 0 (.choice c)).bytes.length = 16 + (Pod.choice c).body.length := by
    simp [PodProp.bytes, Pod.bytes, le32_length]; omega
  unfold closedProp
  rw [hl, ← Nat.add_assoc, pad8_add_aligned (pre.length + 16) _ (by omega)]
  simp [bodyProps, PodProp.bytes, Pod.bytes]

theorem bodyProps_append_one (o : Nat × Nat × Pod) (os : List (Nat × Nat × Pod)) :
    bodyProps [o] ++ bodyProps os = bodyProps (o :: os) := by
  obtain ⟨k, f, v⟩ := o
  simp [bodyProps]

/-- The loop over the source properties on an aligned builder: it either fails
with a negative code or appends one Object-body entry per source property, each
as `PropOut` says. -/
theorem filterProps_out (cmp : Nat → Bytes → Bytes → Int) (pf : Pod)
    (props : List (Nat × Nat × Pod)) (res : Int) (b0 : Builder)
    (hal : b0.data.length % 8 = 0) (hres : 0 ≤ res) (hwf : PropsWF pf props) :
    (filterProps cmp pf props res b0).1 < 0 ∨
    ∃ (r : Int) (outs : List (Nat × Nat × Pod)),
      filterProps cmp pf props res b0 =
        (r, { data := b0.data ++ bodyProps outs, frames := b0.frames }) ∧
      0 ≤ r ∧ List.Forall₂ (PropOut cmp pf) props outs := by
  induction props generalizing res b0 with
  | nil =>
    right
    exact ⟨res, [], by simp [filterProps, bodyProps], hres, List.Forall₂.nil⟩
  | cons p rest ih =>
    obtain ⟨k, f, v⟩ := p
    have hwf1 : PropsWF pf rest := fun q hq p2 h2 => hwf q (List.mem_cons_of_mem _ hq) p2 h2
    unfold filterProps
    cases hfind : spa_pod_find_prop pf k with
    | none =>
      simp only [not_lt.mpr hres, if_false]
      have hb1 : (spa_pod_builder_raw_padded b0 (PodProp.mk k f v).bytes).2.data =
          b0.data ++ bodyProps [(k, f, v)] := by
        simp only [spa_pod_builder_raw_padded, List.append_assoc]
        rw [prop_copy_eq]
      have hf1 : (spa_pod_builder_raw_padded b0 (PodProp.mk k f v).bytes).2.frames =
          b0.frames := rfl
      have hal1 : (spa_pod_builder_raw_padded b0 (PodProp.mk k f v).bytes).2.data.length % 8
          = 0 := by
        rw [hb1, List.length_append]
        have := bodyProps_aligned [(k, f, v)]
        omega
      rcases ih res (spa_pod_builder_raw_padded b0 (PodProp.mk k f v).bytes).2 hal1 hres hwf1
        with hneg | ⟨r, outs, heq, hr, hrel⟩
      · exact Or.inl hneg
      · refine Or.inr ⟨r, (k, f, v) :: outs, ?_, hr, List.Forall₂.cons ?_ hrel⟩
        · rw [heq, hb1, hf1]
          simp only [List.append_assoc, bodyProps_append_one]
        · simp only [PropOut, hfind]
    | some p2 =>
      have hpw := hwf (k, f, v) (List.mem_cons_self _ _) p2 hfind
      rcases filter_prop_closed cmp { key := k, flags := f, value := v } p2 hpw
        with ⟨e, he, hcode⟩ | ⟨c, _, _, _, hall⟩
      · left
        have h1 := hcode b0
        simp only [h1, he, if_true]
      · have h1 := hall b0
        simp only [h1, show ¬ ((0 : Int) < 0) from by decide, if_false]
        have hcl := closedProp_eq b0.data k c hal
        have hal1 : (closedBuilder b0 k c).data.length % 8 = 0 := by
          simp only [closedBuilder, hcl, List.length_append]
          have := bodyProps_aligned [(k, 0, Pod.choice c)]
          omega
        rcases ih 0 (closedBuilder b0 k c) hal1 (le_refl 0) hwf1
          with hneg | ⟨r, outs, heq, hr, hrel⟩
        · exact Or.inl hneg
        · refine Or.inr ⟨r, (k, 0, .choice c) :: outs, ?_, hr, List.Forall₂.cons ?_ hrel⟩
          · rw [heq]
            simp only [closedBuilder, hcl, List.append_assoc, bodyProps_append_one]
          · simp only [PropOut, hfind]
            exact ⟨c, rfl, hall⟩

/-- Closing a container frame that starts at `pre.length`: the size field gets
the body length and the padding brings the offset to a multiple of 8. -/
theorem pop_container (pre : Bytes) (x ty : Nat) (body : Bytes) (f : Frame)
    (fr : List Frame) (hf : f.start = pre.length) :
    spa_pod_builder_pop { data := pre ++ (le32 x ++ (le32 ty ++ body)), frames := f :: fr } =
      { data := pre ++ (le32 body.length ++ (le32 ty ++ body))
          ++ zeros (pad8 (pre.length + (8 + body.length))),
        frames := fr } := by
  unfold spa_pod_builder_pop
  simp only [hf]
  have hlen : (pre ++ (le32 x ++ (le32 ty ++ body))).length - pre.length - 8 = body.length := by
    simp only [List.length_append, le32_length]; omega
  have hp : patch (pre ++ (le32 x ++ (le32 ty ++ body))) pre.length (le32 body.length) =
      pre ++ (le32 body.length ++ (le32 ty ++ body)) := by
    have := patch_append_left pre (le32 x ++ (le32 ty ++ body)) 0 (le32 body.length)
    rw [Nat.add_zero] at this
    rw [this, patch_le32_head]
  rw [hlen, hp]
  simp only [List.length_append, le32_length, Builder.mk.injEq, and_true]
  rw [show pre.length + (4 + (4 + body.length)) = pre.length + (8 + body.length) from by omega]

theorem propOut_keys (cmp : Nat → Bytes → Bytes → Int) (pf : Pod)
    (props outs : List (Nat × Nat × Pod)) (h : List.Forall₂ (PropOut cmp pf) props outs) :
    outs.map (fun o => o.1) = props.map (fun p => p.1) := by
  induction h with
  | nil => rfl
  | cons hpo _ ih =>
    rename_i p o ps os
    simp only [List.map_cons, ih, List.cons.injEq, and_true]
    unfold PropOut at hpo
    split at hpo
    · rw [hpo]
    · obtain ⟨c, hc, _⟩ := hpo
      rw [hc]

/-- The Object case on an aligned builder, in closed form: when the loop body
succeeds, it has appended exactly one Object POD with the source type and id and
one property per source property. -/
theorem filterSibling_object_ok (cmp : Nat → Bytes → Bytes → Int) (t id : Nat)
    (props : List (Nat × Nat × Pod)) (pf : Pod) (res : Int) (b : Builder) (cur : Cursor)
    (r : Int) (b1 : Builder) (c1 : Cursor)
    (hpf : cur.pf = some pf) (hal : b.data.length % 8 = 0) (hres : 0 ≤ res)
    (hwf : PropsWF pf props)
    (hok : filterSibling cmp (.object t id props) res b cur = .ok (r, b1, c1)) :
    ∃ outs : List (Nat × Nat × Pod),
      b1 = { data := b.data ++ (Pod.object t id outs).bytes, frames := b.frames } ∧
      List.Forall₂ (PropOut cmp pf) props outs ∧ 0 ≤ r ∧ c1 = cur.advance := by
  unfold filterSibling at hok
  simp only [hpf] at hok
  split_ifs at hok with h1 h2
  simp only [Except.ok.injEq, Prod.mk.injEq] at hok
  obtain ⟨hr, hb, hc⟩ := hok
  have hpush : (spa_pod_builder_push_object b t id).2 =
      { data := b.data ++ (le32 0 ++ (le32 SPA_TYPE_Object ++ (le32 t ++ le32 id))),
        frames := { start := b.data.length, isChoice := false, first := false } :: b.frames } := by
    simp [spa_pod_builder_push_object, Builder.offset]
  rw [hpush] at hr hb h2
  have hal0 : (b.data ++ (le32 0 ++ (le32 SPA_TYPE_Object ++ (le32 t ++ le32 id)))).length % 8
      = 0 := by
    simp only [List.length_append, le32_length]; omega
  rcases filterProps_out cmp pf props res
    ⟨b.data ++ (le32 0 ++ (le32 SPA_TYPE_Object ++ (le32 t ++ le32 id))),
      { start := b.data.length, isChoice := false, first := false } :: b.frames⟩
    hal0 hres hwf with hneg | ⟨r0, outs, heq, hr0, hrel⟩
  · exact absurd hneg h2
  · rw [heq] at hr hb
    simp only at hr hb
    refine ⟨outs, ?_, hrel, by rw [← hr]; exact hr0, hc.symm⟩
    rw [← hb]
    have hbody : (Pod.object t id outs).body = le32 t ++ le32 id ++ bodyProps outs := by
      simp [Pod.body]
    have := pop_container b.data 0 SPA_TYPE_Object (le32 t ++ (le32 id ++ bodyProps outs))
      { start := b.data.length, isChoice := false, first := false } b.frames rfl
    simp only [List.append_assoc] at this ⊢
    rw [this]
    have hpad : pad8 (b.data.length + (8 + (le32 t ++ (le32 id ++ bodyProps outs)).length))
        = 0 := by
      apply pad8_of_aligned
      simp only [List.length_append, le32_length]
      have := bodyProps_aligned outs
      omega
    rw [hpad]
    simp [Pod.bytes, hbody, Pod.type, zeros]

theorem push_object_eq (b : Builder) (t id : Nat) :
    (spa_pod_builder_push_object b t id).2 =
      { data := b.data ++ (le32 0 ++ (le32 SPA_TYPE_Object ++ (le32 t ++ le32 id))),
        frames := { start := b.data.length, isChoice := false, first := false } :: b.frames } := by
  simp [spa_pod_builder_push_object, Builder.offset]

theorem push_struct_eq (b : Builder) :
    (spa_pod_builder_push_struct b).2 =
      { data := b.data ++ (le32 0 ++ (le32 SPA_TYPE_Struct ++ [])),
        frames := { start := b.data.length, isChoice := false, first := false } :: b.frames } := by
  simp [spa_pod_builder_push_struct, Builder.offset]

/-- An Object with one property whose pair succeeds, on an aligned builder. -/
theorem filterSibling_object_single (cmp : Nat → Bytes → Bytes → Int) (t id k f : Nat) (v : Pod)
    (pf : Pod) (p2 : PodProp) (c : Choice) (res : Int) (b : Builder) (cur : Cursor)
    (hpf : cur.pf = some pf) (hty : pf.type = SPA_TYPE_Object)
    (hfind : spa_pod_find_prop pf k = some p2) (hal : b.data.length % 8 = 0)
    (hall : ∀ b0, spa_pod_filter_prop cmp b0 { key := k, flags := f, value := v } p2 =
      (0, closedBuilder b0 k c)) :
    filterSibling cmp (.object t id [(k, f, v)]) res b cur =
      .ok (0, { data := b.data ++ (Pod.object t id [(k, 0, .choice c)]).bytes,
                frames := b.frames }, cur.advance) := by
  unfold filterSibling
  simp only [hpf, hty, ne_eq, not_true_eq_false, if_false]
  have hprops : filterProps cmp pf [(k, f, v)] res (spa_pod_builder_push_object b t id).2 =
      (0, closedBuilder (spa_pod_builder_push_object b t id).2 k c) := by
    simp [filterProps, hfind, hall]
  rw [hprops]
  simp only [show ¬ ((0 : Int) < 0) from by decide, if_false, Except.ok.injEq, Prod.mk.injEq,
    true_and, and_true]
  rw [push_object_eq]
  have hal0 : (b.data ++ (le32 0 ++ (le32 SPA_TYPE_Object ++ (le32 t ++ le32 id)))).length % 8
      = 0 := by
    simp only [List.length_append, le32_length]; omega
  simp only [closedBuilder, closedProp_eq _ k c hal0, List.append_assoc]
  have := pop_container b.data 0 SPA_TYPE_Object
    (le32 t ++ (le32 id ++ bodyProps [(k, 0, .choice c)]))
    { start := b.data.length, isChoice := false, first := false } b.frames rfl
  rw [this]
  have hpad : pad8 (b.data.length +
      (8 + (le32 t ++ (le32 id ++ bodyProps [(k, 0, Pod.choice c)])).length)) = 0 := by
    apply pad8_of_aligned
    simp only [List.length_append, le32_length]
    have := bodyProps_aligned [(k, 0, Pod.choice c)]
    omega
  rw [hpad]
  simp [Pod.bytes, Pod.body, Pod.type, zeros]

/-- An Object with one property whose pair fails: the loop body stops with the
code of `spa_pod_filter_prop`. -/
theorem filterSibling_object_single_fail (cmp : Nat → Bytes → Bytes → Int) (t id k f : Nat)
    (v : Pod) (pf : Pod) (p2 : PodProp) (res : Int) (b : Builder) (cur : Cursor)
    (hpf : cur.pf = some pf) (hty : pf.type = SPA_TYPE_Object)
    (hfind : spa_pod_find_prop pf k = some p2)
    (hneg : (spa_pod_filter_prop cmp Builder.empty { key := k, flags := f, value := v } p2).1
      < 0) :
    ∃ bx, filterSibling cmp (.object t id [(k, f, v)]) res b cur =
      .error ((spa_pod_filter_prop cmp Builder.empty
        { key := k, flags := f, value := v } p2).1, bx) := by
  unfold filterSibling
  simp only [hpf, hty, ne_eq, not_true_eq_false, if_false]
  have hcode := filter_prop_code_indep cmp (spa_pod_builder_push_object b t id).2
    Builder.empty { key := k, flags := f, value := v } p2
  have hprops : (filterProps cmp pf [(k, f, v)] res (spa_pod_builder_push_object b t id).2).1 =
      (spa_pod_filter_prop cmp Builder.empty { key := k, flags := f, value := v } p2).1 := by
    simp only [filterProps, hfind, hcode, hneg, if_true]
  rw [hprops]
  simp only [hneg, if_true]
  exact ⟨_, rfl⟩

/-! ## Claims on Objects and nested containers -/

/-- C13: when `spa_pod_filter_part` succeeds on a source Object against a filter
Object (aligned builder, well-formed property pairs), it has appended exactly
one Object POD with the source's object type and id that holds one property per
source property, in source order and with the source keys: a source property
whose key does not occur in the filter Object is there unmodified, a source
property whose key occurs is replaced by the property that
`spa_pod_filter_prop` writes for it and the first filter property with that key
(`PropOut`); filter properties contribute nothing else. -/
theorem filter_object_properties (cmp : Nat → Bytes → Bytes → Int) (b : Builder)
    (t id ft fid : Nat) (props fprops : List (Nat × Nat × Pod)) (beyond : List Pod)
    (r : Int) (b1 : Builder)
    (hal : b.data.length % 8 = 0)
    (hwf : PropsWF (.object ft fid fprops) props)
    (hrun : spa_pod_filter_part cmp b [.object t id props] [.object ft fid fprops] beyond
      = (r, b1))
    (hr : 0 ≤ r) :
    ∃ outs : List (Nat × Nat × Pod),
      b1 = { data := b.data ++ (Pod.object t id outs).bytes, frames := b.frames } ∧
      outs.length = props.length ∧
      outs.map (fun o => o.1) = props.map (fun p => p.1) ∧
      List.Forall₂ (PropOut cmp (.object ft fid fprops)) props outs := by
  unfold spa_pod_filter_part filterSiblings at hrun
  cases hs : filterSibling cmp (.object t id props) 0 b
      (Cursor.init [.object ft fid fprops] beyond) with
  | error e =>
    rw [hs] at hrun
    simp only at hrun
    have := filterSibling_error_neg cmp _ _ _ _ e hs
    rw [hrun] at this
    simp only at this
    omega
  | ok v =>
    obtain ⟨r0, b0, c0⟩ := v
    rw [hs] at hrun
    simp only [filterSiblings] at hrun
    obtain ⟨h1, h2⟩ := Prod.mk.inj hrun
    subst h1; subst h2
    obtain ⟨outs, hb, hrel, _, _⟩ := filterSibling_object_ok cmp t id props
      (.object ft fid fprops) 0 b _ r0 b0 c0 rfl hal (le_refl 0) hwf hs
    exact ⟨outs, hb, hrel.length_eq.symm, propOut_keys cmp _ props outs hrel, hrel⟩

/-- Witness for C13: property 7 is narrowed by the filter's `Range [3,7]`,
property 9 has no counterpart and keeps its flags 5, and the filter's property 8
leaves no trace. -/
theorem filter_object_properties_witness :
    ∃ outs : List (Nat × Nat × Pod),
      (spa_pod_filter_part compareInt Builder.empty [exObject] [exObjectFilter] []).2 =
        { data := Builder.empty.data ++ (Pod.object 1 2 outs).bytes,
          frames := Builder.empty.frames } ∧
      outs.length = 2 ∧
      outs.map (fun o => o.1) = [7, 9] := by
  obtain ⟨outs, h1, h2, h3, _⟩ := filter_object_properties compareInt Builder.empty 1 2 1 2
    [(7, 0, (intChoiceProp 7 SPA_CHOICE_Enum [2, 2, 4, 6, 8]).value),
     (9, 5, .leaf SPA_TYPE_Int (int 3))]
    [(8, 0, .leaf SPA_TYPE_Int (int 1)),
     (7, 0, (intChoiceProp 7 SPA_CHOICE_Range [5, 3, 7]).value)] []
    (spa_pod_filter_part compareInt Builder.empty [exObject] [exObjectFilter] []).1
    (spa_pod_filter_part compareInt Builder.empty [exObject] [exObjectFilter] []).2
    (by decide) (by decide) rfl (by decide)
  exact ⟨outs, h1, h2, h3⟩

theorem object_bytes_aligned (t id : Nat) (outs : List (Nat × Nat × Pod)) :
    (Pod.object t id outs).body.length % 8 = 0 := by
  have := bodyProps_aligned outs
  simp only [Pod.body, List.length_append, le32_length]
  omega

theorem bodyItems_single (p : Pod) (h : p.body.length % 8 = 0) : bodyItems [p] = p.bytes := by
  simp only [bodyItems, Pod.bytes, pad8_of_aligned _ h, zeros, List.replicate_zero,
    List.append_nil, List.append_assoc]

theorem struct_single_bytes (p : Pod) (h : p.body.length % 8 = 0) :
    (Pod.struct [p]).bytes = le32 p.bytes.length ++ (le32 SPA_TYPE_Struct ++ p.bytes) := by
  simp only [Pod.bytes, Pod.body, Pod.type, bodyItems_single p h, List.append_assoc]

/-- C16: a source Struct holding an Object holding one Choice property is
filtered by a Struct holding an Object that has a property `p2` with the same
key (aligned builder, well-formed pair).  If `spa_pod_filter_prop` succeeds on
the pair, `spa_pod_filter` returns 0, the result refers to the pre-call offset
and what was appended is exactly a Struct holding an Object with the source type
and id holding the narrowed property.  If `spa_pod_filter_prop` fails with code
`e`, `spa_pod_filter` returns exactly `e`, the builder is the one before the
call and the result reference is not written. -/
theorem filter_nested_struct_object (cmp : Nat → Bytes → Bytes → Int) (b : Builder)
    (result : Option Nat) (t id k f ft fid : Nat) (v : Pod)
    (fprops : List (Nat × Nat × Pod)) (p2 : PodProp) (beyond : List Pod)
    (hal : b.data.length % 8 = 0)
    (hfind : spa_pod_find_prop (.object ft fid fprops) k = some p2)
    (hpw : PairWF { key := k, flags := f, value := v } p2) :
    ((spa_pod_filter_prop cmp Builder.empty { key := k, flags := f, value := v } p2).1 = 0 →
      ∃ c : Choice,
        (∀ b0, spa_pod_filter_prop cmp b0 { key := k, flags := f, value := v } p2 =
          (0, closedBuilder b0 k c)) ∧
        spa_pod_filter cmp b result (some (.struct [.object t id [(k, f, v)]]))
            (some (.struct [.object ft fid fprops])) beyond =
          (0, { data := b.data ++ (Pod.struct [.object t id [(k, 0, .choice c)]]).bytes,
                frames := b.frames }, some b.offset)) ∧
    ((spa_pod_filter_prop cmp Builder.empty { key := k, flags := f, value := v } p2).1 < 0 →
      spa_pod_filter cmp b result (some (.struct [.object t id [(k, f, v)]]))
          (some (.struct [.object ft fid fprops])) beyond =
        ((spa_pod_filter_prop cmp Builder.empty { key := k, flags := f, value := v } p2).1,
          b, result)) := by
  constructor
  · intro hzero
    rcases filter_prop_closed cmp { key := k, flags := f, value := v } p2 hpw
      with ⟨e, he, hcode⟩ | ⟨c, _, _, _, hall⟩
    · rw [hcode Builder.empty] at hzero
      omega
    · refine ⟨c, hall, ?_⟩
      have hal1 : (spa_pod_builder_push_struct b).2.data.length % 8 = 0 := by
        rw [push_struct_eq]
        simp only [List.length_append, le32_length, List.length_nil]; omega
      have hobj := filterSibling_object_single cmp t id k f v (.object ft fid fprops) p2 c 0
        (spa_pod_builder_push_struct b).2
        (Cursor.init [.object ft fid fprops] ([] ++ beyond)) rfl rfl hfind hal1 hall
      have hpart : spa_pod_filter_part cmp b [.struct [.object t id [(k, f, v)]]]
          [.struct [.object ft fid fprops]] beyond =
          (0, { data := b.data ++ (Pod.struct [.object t id [(k, 0, .choice c)]]).bytes,
                frames := b.frames }) := by
        unfold spa_pod_filter_part filterSiblings filterSibling
        simp only [Cursor.init, Pod.type, Pod.children, ne_eq, not_true_eq_false, if_false]
        unfold filterSiblings
        simp only [Cursor.init] at hobj
        rw [hobj]
        simp only [filterSiblings, show ¬ ((0 : Int) < 0) from by decide, if_false,
          Prod.mk.injEq, true_and]
        rw [push_struct_eq]
        simp only [List.append_assoc, List.nil_append]
        have := pop_container b.data 0 SPA_TYPE_Struct
          (Pod.object t id [(k, 0, .choice c)]).bytes
          { start := b.data.length, isChoice := false, first := false } b.frames rfl
        rw [this]
        have hlen : (Pod.object t id [(k, 0, Pod.choice c)]).bytes.length % 8 = 0 := by
          rw [pod_bytes_length, Pod.size]
          have := object_bytes_aligned t id [(k, 0, Pod.choice c)]
          omega
        rw [pad8_of_aligned _ (by omega),
          struct_single_bytes _ (object_bytes_aligned t id [(k, 0, Pod.choice c)])]
        simp [zeros]
      unfold spa_pod_filter
      simp only [hpart, show ¬ ((0 : Int) < 0) from by decide, if_false,
        spa_pod_builder_deref, spa_pod_builder_get_state]
  · intro hneg
    have hext := extends_filter_part cmp b [.struct [.object t id [(k, f, v)]]]
      [.struct [.object ft fid fprops]] beyond
    have hcode : (spa_pod_filter_part cmp b [.struct [.object t id [(k, f, v)]]]
        [.struct [.object ft fid fprops]] beyond).1 =
        (spa_pod_filter_prop cmp Builder.empty { key := k, flags := f, value := v } p2).1 := by
      obtain ⟨bx, hfail⟩ := filterSibling_object_single_fail cmp t id k f v
        (.object ft fid fprops) p2 0 (spa_pod_builder_push_struct b).2
        (Cursor.init [.object ft fid fprops] ([] ++ beyond)) rfl rfl hfind hneg
      unfold spa_pod_filter_part filterSiblings filterSibling
      simp only [Cursor.init, Pod.type, Pod.children, ne_eq, not_true_eq_false, if_false]
      unfold filterSiblings
      simp only [Cursor.init] at hfail
      rw [hfail]
      simp only [hneg, if_true]
    unfold spa_pod_filter
    simp only [hcode, hneg, if_true, Prod.mk.injEq, true_and, and_true]
    exact reset_of_extends hext

/-- Witness for C16: against `Range [3,7]` the nested call succeeds and appends a
Struct holding the Object holding the narrowed property; against a disjoint
Enum it returns `-EINVAL`, against a Step it returns `-ENOTSUP`, and both times
the builder is handed back unchanged. -/
theorem filter_nested_struct_object_witness :
    (∃ c : Choice,
      spa_pod_filter compareInt Builder.empty none (some exSource) (some exFilterRange) [] =
        (0, { data := Builder.empty.data ++ (Pod.struct [.object 1 2 [(7, 0, .choice c)]]).bytes,
              frames := Builder.empty.frames }, some Builder.empty.offset)) ∧
    spa_pod_filter compareInt Builder.empty none (some exSource) (some exFilterDisjoint) [] =
      (-EINVAL, Builder.empty, none) ∧
    spa_pod_filter compareInt Builder.empty none (some exSource) (some exFilterStep) [] =
      (-ENOTSUP, Builder.empty, none) :=
  ⟨((filter_nested_struct_object compareInt Builder.empty none 1 2 7 0 1 2
        (intChoiceProp 7 SPA_CHOICE_Enum [2, 2, 4, 6, 8]).value
        [(7, 0, (intChoiceProp 7 SPA_CHOICE_Range [5, 3, 7]).value)]
        (intChoiceProp 7 SPA_CHOICE_Range [5, 3, 7]) []
        (by decide) rfl (by decide)).1 (by decide)).imp (fun _ h => h.2),
   ((filter_nested_struct_object compareInt Builder.empty none 1 2 7 0 1 2
        (intChoiceProp 7 SPA_CHOICE_Enum [2, 2, 4, 6, 8]).value
        [(7, 0, (intChoiceProp 7 SPA_CHOICE_Enum [3, 3, 5]).value)]
        (intChoiceProp 7 SPA_CHOICE_Enum [3, 3, 5]) []
        (by decide) rfl (by decide)).2 (by decide)).trans (by decide),
   ((filter_nested_struct_object compareInt Builder.empty none 1 2 7 0 1 2
        (intChoiceProp 7 SPA_CHOICE_Enum [2, 2, 4, 6, 8]).value
        [(7, 0, (exProp SPA_CHOICE_Step).value)]
        (exProp SPA_CHOICE_Step) []
        (by decide) rfl (by decide)).2 (by decide)).trans (by decide)⟩

/-! ## Filtering a tree against a verbatim copy of itself -/

theorem filter_eq_self_of_nodup (l : List Bytes) (a : Bytes) (hn : l.Nodup) (ha : a ∈ l) :
    l.filter (fun x => decide (a = x)) = [a] := by
  induction l with
  | nil => simp at ha
  | cons x rest ih =>
    obtain ⟨hx, hr⟩ := List.nodup_cons.mp hn
    by_cases hax : a = x
    · subst hax
      have : rest.filter (fun x => decide (a = x)) = [] := by
        rw [List.filter_eq_nil_iff]
        intro y hy
        simp only [decide_eq_true_eq]
        intro h
        exact hx (h ▸ hy)
      simp [List.filter_cons, this]
    · have har : a ∈ rest := by
        rcases List.mem_cons.mp ha with h | h
        · exact absurd h hax
        · exact h
      simp [List.filter_cons, hax, ih hr har]

/-- With pairwise distinct alternatives, each equal only to itself, the double
loop over a list and itself copies each alternative once. -/
theorem equalMatches_self (cmp : Nat → Bytes → Bytes → Int) (type : Nat) (l : List Bytes)
    (hn : l.Nodup) (hf : ∀ a ∈ l, ∀ a2 ∈ l, cmp type a a2 = 0 ↔ a = a2) :
    l.flatMap (matchesOf cmp type l) = l := by
  have hone : ∀ a ∈ l, matchesOf cmp type l a = [a] := by
    intro a ha
    unfold matchesOf
    have : l.filter (fun a2 => decide (cmp type a a2 = 0)) =
        l.filter (fun x => decide (a = x)) := by
      apply List.filter_congr
      intro x hx
      simp only [decide_eq_decide]
      exact hf a ha x hx
    rw [this, filter_eq_self_of_nodup l a hn ha]
    rfl
  have hgen : ∀ m : List Bytes, (∀ a ∈ m, a ∈ l) → m.flatMap (matchesOf cmp type l) = m := by
    intro m
    induction m with
    | nil => intro _; rfl
    | cons a rest ih =>
      intro hm
      rw [List.flatMap_cons, hone a (hm a (List.mem_cons_self _ _)),
        ih (fun x hx => hm x (List.mem_cons_of_mem _ hx))]
      rfl
  exact hgen l (fun _ h => h)

theorem find_prop_self (t id : Nat) (props : List (Nat × Nat × Pod))
    (hn : (props.map (fun p => p.1)).Nodup) (p : Nat × Nat × Pod) (hp : p ∈ props) :
    spa_pod_find_prop (.object t id props) p.1 =
      some { key := p.1, flags := p.2.1, value := p.2.2 } := by
  unfold spa_pod_find_prop
  have hfind : props.find? (fun q => decide (q.1 = p.1)) = some p := by
    induction props with
    | nil => simp at hp
    | cons q rest ih =>
      rw [List.map_cons, List.nodup_cons] at hn
      obtain ⟨hq, hr⟩ := hn
      rcases List.mem_cons.mp hp with h | h
      · subst h
        simp [List.find?_cons]
      · have hne : q.1 ≠ p.1 := by
          intro he
          apply hq
          rw [he]
          exact List.mem_map_of_mem _ h
        simp only [List.find?_cons, hne, decide_False]
        exact ih hr h
  simp only [hfind, Option.map_some']

/-- A `None` choice with one value that equals itself, filtered against itself. -/
theorem filter_prop_self_none (cmp : Nat → Bytes → Bytes → Int) (k t s : Nat) (v : Bytes)
    (hw : Choice.WF { kind := SPA_CHOICE_None, flags := 0, childType := t, childSize := s,
                      values := [v] })
    (hv : cmp t v v = 0) (b : Builder) :
    spa_pod_filter_prop cmp b
        { key := k, flags := 0, value := .choice
            { kind := SPA_CHOICE_None, flags := 0, childType := t, childSize := s,
              values := [v] } }
        { key := k, flags := 0, value := .choice
            { kind := SPA_CHOICE_None, flags := 0, childType := t, childSize := s,
              values := [v] } } =
      (0, closedBuilder b k
        { kind := SPA_CHOICE_None, flags := 0, childType := t, childSize := s,
          values := [v] }) := by
  rw [filter_prop_chain cmp b _ _ rfl rfl rfl]
  simp only [spa_pod_get_values]
  rw [chain_equal _ _ _ _ _ _ _ _ (Or.inl rfl) (Or.inl rfl), copyEqual_open]
  have hne : SPA_CHOICE_None ≠ SPA_CHOICE_Enum := by decide
  have halt : alternatives { type := t, size := s, vals := [v], choice := SPA_CHOICE_None }
      = [v] := by simp [alternatives]
  rw [halt]
  have hm : [v].flatMap (matchesOf cmp t [v]) = [v] := by
    simp [matchesOf, hv]
  simp only [hm, hne, if_false, List.tail_cons, List.flatMap_nil, List.length_singleton,
    List.headD_cons, one_ne_zero]
  rw [close_open, fix_default_enum]
  · simp [enumDefault]
  · obtain ⟨_, h1, h2, h3, h4, h5, h6⟩ := hw
    exact ⟨by norm_num [SPA_CHOICE_Enum], h1, h2, h3, h4, h5, h6⟩

/-- An `Enum` choice whose default is one of its pairwise distinct alternatives,
filtered against itself. -/
theorem filter_prop_self_enum (cmp : Nat → Bytes → Bytes → Int) (k t s : Nat) (d : Bytes)
    (tl : List Bytes)
    (hw : Choice.WF { kind := SPA_CHOICE_Enum, flags := 0, childType := t, childSize := s,
                      values := d :: tl })
    (hd : d ∈ tl) (hn : tl.Nodup) (hf : ∀ a ∈ tl, ∀ a2 ∈ tl, cmp t a a2 = 0 ↔ a = a2)
    (b : Builder) :
    spa_pod_filter_prop cmp b
        { key := k, flags := 0, value := .choice
            { kind := SPA_CHOICE_Enum, flags := 0, childType := t, childSize := s,
              values := d :: tl } }
        { key := k, flags := 0, value := .choice
            { kind := SPA_CHOICE_Enum, flags := 0, childType := t, childSize := s,
              values := d :: tl } } =
      (0, closedBuilder b k
        { kind := SPA_CHOICE_Enum, flags := 0, childType := t, childSize := s,
          values := d :: tl }) := by
  rw [filter_prop_chain cmp b _ _ rfl rfl rfl]
  simp only [spa_pod_get_values]
  rw [chain_equal _ _ _ _ _ _ _ _ (Or.inr rfl) (Or.inr rfl), copyEqual_open]
  have hne : SPA_CHOICE_Enum ≠ SPA_CHOICE_None := by decide
  have halt : alternatives { type := t, size := s, vals := d :: tl, choice := SPA_CHOICE_Enum }
      = tl := by simp [alternatives, hne]
  rw [halt, equalMatches_self cmp t tl hn hf]
  have htl : tl ≠ [] := List.ne_nil_of_mem hd
  have hlen : tl.length ≠ 0 := by
    intro h
    exact htl (List.length_eq_zero.mp h)
  simp only [if_true, hlen, if_false, List.headD_cons]
  rw [close_open _ _ _ _ _ _ _ hw, fix_default_enum]
  have hdef : enumDefault cmp t d tl = d := by
    obtain ⟨hm, h0⟩ := enumDefault_of_exists cmp t d tl ⟨d, hd, (hf d hd d hd).mpr rfl⟩
    exact ((hf d hd _ hm).mp h0).symm
  simp [htl, hdef]

/-- A `Range [d, lo, hi]` with `lo <= d <= hi`, filtered against itself. -/
theorem filter_prop_self_range (cmp : Nat → Bytes → Bytes → Int) (k t s : Nat)
    (d lo hi : Bytes)
    (hw : Choice.WF { kind := SPA_CHOICE_Range, flags := 0, childType := t, childSize := s,
                      values := [d, lo, hi] })
    (hlo : 0 ≤ cmp t lo lo) (hhi : 0 ≤ cmp t hi hi) (hdlo : 0 ≤ cmp t d lo)
    (hdhi : cmp t d hi ≤ 0) (b : Builder) :
    spa_pod_filter_prop cmp b
        { key := k, flags := 0, value := .choice
            { kind := SPA_CHOICE_Range, flags := 0, childType := t, childSize := s,
              values := [d, lo, hi] } }
        { key := k, flags := 0, value := .choice
            { kind := SPA_CHOICE_Range, flags := 0, childType := t, childSize := s,
              values := [d, lo, hi] } } =
      (0, closedBuilder b k
        { kind := SPA_CHOICE_Range, flags := 0, childType := t, childSize := s,
          values := [d, lo, hi] }) := by
  rw [filter_prop_chain cmp b _ _ rfl rfl rfl]
  simp only [spa_pod_get_values]
  rw [chain_range_range]
  have hne : SPA_CHOICE_Range ≠ SPA_CHOICE_None := by decide
  have halt : alternatives
      { type := t, size := s, vals := [d, lo, hi], choice := SPA_CHOICE_Range } = [lo, hi] := by
    simp [alternatives, hne]
  rw [halt]
  have h0 : ([lo, hi] : List Bytes).getD 0 [] = lo := rfl
  have h1 : ([lo, hi] : List Bytes).getD 1 [] = hi := rfl
  rw [h0, h1, if_neg (not_lt.mpr hlo), if_neg (not_lt.mpr hhi)]
  have hopen : (spa_pod_builder_raw (spa_pod_builder_raw
      (openBuilder b k s t [([d, lo, hi] : List Bytes).headD []]) lo).2 hi).2 =
      openBuilder b k s t [d, lo, hi] := by
    simp [spa_pod_builder_raw, openBuilder, openProp]
  rw [hopen]
  simp only
  rw [close_open _ _ _ _ _ _ _ hw, fix_default_range _ _ _ _ _ _ _ _ _ (Or.inl rfl)]
  have hc : clampDefault cmp t d lo hi = d := by
    unfold clampDefault
    rw [if_neg (not_lt.mpr hdlo), if_neg (not_lt.mpr hdhi)]
  rw [hc]

/-- A `SelfProp` filtered against itself on an aligned builder: the call returns
0 and appends the entry of the property in an Object body. -/
theorem filter_prop_self (cmp : Nat → Bytes → Bytes → Int) (p : Nat × Nat × Pod)
    (h : SelfProp cmp p) (b : Builder) (hal : b.data.length % 8 = 0) :
    spa_pod_filter_prop cmp b { key := p.1, flags := p.2.1, value := p.2.2 }
        { key := p.1, flags := p.2.1, value := p.2.2 } =
      (0, { data := b.data ++ bodyProps [p], frames := b.frames }) := by
  obtain ⟨k, f, v⟩ := p
  cases v with
  | leaf _ _ => exact absurd h (by simp [SelfProp])
  | struct _ => exact absurd h (by simp [SelfProp])
  | object _ _ _ => exact absurd h (by simp [SelfProp])
  | choice c =>
    obtain ⟨kind, flags, t, s, values⟩ := c
    simp only [SelfProp, SelfChoice] at h
    obtain ⟨hf, hw, hfl, hk⟩ := h
    subst hf
    subst hfl
    simp only
    rcases hk with ⟨hkind, hlen, hv⟩ | ⟨hkind, hd, hn, hfa⟩ | ⟨hkind, hlen, hlo, hhi, hdlo, hdhi⟩
    · subst hkind
      obtain ⟨v, rfl⟩ := List.length_eq_one.mp hlen
      rw [filter_prop_self_none cmp k t s v hw hv b]
      simp only [closedBuilder, closedProp_eq _ _ _ hal]
    · subst hkind
      cases values with
      | nil => simp at hd
      | cons d tl =>
        rw [filter_prop_self_enum cmp k t s d tl hw hd hn hfa b]
        simp only [closedBuilder, closedProp_eq _ _ _ hal]
    · subst hkind
      obtain ⟨d, lo, hi, rfl⟩ := List.length_eq_three.mp hlen
      rw [filter_prop_self_range cmp k t s d lo hi hw hlo hhi hdlo hdhi b]
      simp only [closedBuilder, closedProp_eq _ _ _ hal]

/-- The loop over the source properties when each of them finds itself in the
filter Object: every property is written back as it is. -/
theorem filterProps_self (cmp : Nat → Bytes → Bytes → Int) (pf : Pod)
    (props : List (Nat × Nat × Pod))
    (hfind : ∀ p ∈ props, spa_pod_find_prop pf p.1 =
      some { key := p.1, flags := p.2.1, value := p.2.2 })
    (hsp : ∀ p ∈ props, SelfProp cmp p) (b : Builder) (hal : b.data.length % 8 = 0) :
    filterProps cmp pf props 0 b =
      (0, { data := b.data ++ bodyProps props, frames := b.frames }) := by
  induction props generalizing b with
  | nil => simp [filterProps, bodyProps]
  | cons p rest ih =>
    have hp := filter_prop_self cmp p (hsp p (List.mem_cons_self _ _)) b hal
    have hf := hfind p (List.mem_cons_self _ _)
    obtain ⟨k, f, v⟩ := p
    unfold filterProps
    simp only at hp hf
    simp only [hf, hp, show ¬ ((0 : Int) < 0) from by decide, if_false]
    rw [ih (fun q hq => hfind q (List.mem_cons_of_mem _ hq))
      (fun q hq => hsp q (List.mem_cons_of_mem _ hq))]
    · simp only [List.append_assoc, bodyProps_append_one]
    · simp only [List.length_append]
      have := bodyProps_aligned [(k, f, v)]
      omega

/-- Verbatim padded copies of siblings are the body of the Struct that holds them. -/
theorem copiesOf_eq_bodyItems (items : List Pod) : copiesOf items = bodyItems items := by
  induction items with
  | nil => simp [copiesOf, bodyItems]
  | cons p rest ih =>
    have hpad : pad8 p.size = pad8 p.body.length := by
      unfold Pod.size pad8; omega
    have hc : copiesOf (p :: rest) = p.bytes ++ zeros (pad8 p.size) ++ copiesOf rest := by
      simp [copiesOf]
    rw [hc, ih, hpad]
    simp only [bodyItems, Pod.bytes, List.append_assoc]

theorem bodyItems_aligned (items : List Pod) : (bodyItems items).length % 8 = 0 := by
  induction items with
  | nil => simp [bodyItems]
  | cons p rest ih =>
    simp only [bodyItems, List.length_append, le32_length, zeros_length]
    have := add_pad8_aligned p.body.length
    omega

/-- Closing an Object or Struct frame on an aligned builder whose body is
aligned: what was appended is the POD, with no padding after it. -/
theorem pop_aligned (pre : Bytes) (x ty : Nat) (body : Bytes) (f : Frame)
    (fr : List Frame) (hf : f.start = pre.length) (hal : pre.length % 8 = 0)
    (hb : body.length % 8 = 0) :
    spa_pod_builder_pop { data := pre ++ (le32 x ++ (le32 ty ++ body)), frames := f :: fr } =
      { data := pre ++ (le32 body.length ++ (le32 ty ++ body)), frames := fr } := by
  rw [pop_container pre x ty body f fr hf, pad8_of_aligned _ (by omega)]
  simp [zeros]

theorem cursor_init_cons (x : Pod) (xs beyond : List Pod) :
    Cursor.init (x :: xs) beyond = { pf := some x, rest := xs, after := beyond } := rfl

mutual
/-- One loop iteration on a `SelfTree` whose filter sibling is the tree itself:
the iteration succeeds with result 0 and appends a verbatim padded copy. -/
theorem filterSibling_self (cmp : Nat → Bytes → Bytes → Int) (pp : Pod)
    (h : SelfTree cmp pp) (b : Builder) (hal : b.data.length % 8 = 0) (cur : Cursor)
    (hpf : cur.pf = some pp) :
    filterSibling cmp pp 0 b cur =
      .ok (0, { data := b.data ++ copiesOf [pp], frames := b.frames }, cur.advance) :=
  match pp, h, hpf with
  | .leaf t body, _, hpf => by
    unfold Spa.filterSibling
    simp [hpf, spa_pod_builder_raw_padded, copiesOf, pod_bytes_length]
  | .choice c, _, hpf => by
    unfold Spa.filterSibling
    simp [hpf, spa_pod_builder_raw_padded, copiesOf, pod_bytes_length]
  | .struct items, h, hpf => by
    unfold Spa.filterSibling
    simp only [hpf, Pod.type, ne_eq, not_true_eq_false, if_false, Pod.children]
    rw [push_struct_eq]
    have hal0 : (b.data ++ (le32 0 ++ (le32 SPA_TYPE_Struct ++ []))).length % 8 = 0 := by
      simp only [List.length_append, le32_length, List.length_nil]; omega
    have hs : SelfTrees cmp items := by
      unfold SelfTree at h; exact h
    have hin := filterSiblings_self cmp items hs
      ⟨b.data ++ (le32 0 ++ (le32 SPA_TYPE_Struct ++ [])),
        { start := b.data.length, isChoice := false, first := false } :: b.frames⟩
      hal0 (Cursor.init items (cur.rest ++ cur.after))
      (fun x xs hx => by rw [hx, cursor_init_cons]; exact ⟨rfl, rfl⟩)
    rw [hin]
    simp only [show ¬ ((0 : Int) < 0) from by decide, if_false, List.append_assoc,
      List.nil_append, copiesOf_eq_bodyItems]
    rw [pop_aligned b.data 0 SPA_TYPE_Struct (bodyItems items) _ _ rfl hal
      (bodyItems_aligned items)]
    have hsz : pad8 (bodyItems items).length = 0 :=
      pad8_of_aligned _ (bodyItems_aligned items)
    simp [bodyItems, Pod.body, Pod.type, hsz, zeros]
  | .object t id props, h, hpf => by
    unfold Spa.filterSibling
    simp only [hpf, Pod.type, ne_eq, not_true_eq_false, if_false]
    rw [push_object_eq]
    have hal0 : (b.data ++ (le32 0 ++ (le32 SPA_TYPE_Object ++ (le32 t ++ le32 id)))).length % 8
        = 0 := by
      simp only [List.length_append, le32_length]; omega
    have hs : (props.map (fun p => p.1)).Nodup ∧ ∀ p ∈ props, SelfProp cmp p := by
      unfold SelfTree at h; exact h
    have hin := filterProps_self cmp (.object t id props) props
      (fun p hp => find_prop_self t id props hs.1 p hp) hs.2
      ⟨b.data ++ (le32 0 ++ (le32 SPA_TYPE_Object ++ (le32 t ++ le32 id))),
        { start := b.data.length, isChoice := false, first := false } :: b.frames⟩ hal0
    rw [hin]
    simp only [show ¬ ((0 : Int) < 0) from by decide, if_false, List.append_assoc,
      copiesOf_eq_bodyItems]
    have hbl : (le32 t ++ (le32 id ++ bodyProps props)).length % 8 = 0 := by
      simp only [List.length_append, le32_length]
      have := bodyProps_aligned props
      omega
    rw [pop_aligned b.data 0 SPA_TYPE_Object (le32 t ++ (le32 id ++ bodyProps props)) _ _ rfl hal
      hbl]
    have hsz : pad8 ((le32 t).length + ((le32 id).length + (bodyProps props).length)) = 0 := by
      apply pad8_of_aligned
      simp only [List.length_append] at hbl
      exact hbl
    simp [bodyItems, Pod.body, Pod.type, hsz, zeros]
/-- The loop over siblings that are each a `SelfTree`, with the filter cursor on
the same siblings: result 0 and a verbatim padded copy of every sibling. -/
theorem filterSiblings_self (cmp : Nat → Bytes → Bytes → Int) (items : List Pod)
    (h : SelfTrees cmp items) (b : Builder) (hal : b.data.length % 8 = 0) (cur : Cursor)
    (hcur : ∀ x xs, items = x :: xs → cur.pf = some x ∧ cur.rest = xs) :
    filterSiblings cmp items 0 b cur =
      (0, { data := b.data ++ copiesOf items, frames := b.frames }) :=
  match items, h, hcur with
  | [], _, _ => by simp [filterSiblings, copiesOf]
  | x :: xs, h, hcur => by
    unfold Spa.filterSiblings
    have hs : SelfTree cmp x ∧ SelfTrees cmp xs := by
      unfold SelfTrees at h; exact h
    obtain ⟨hpf, hrest⟩ := hcur x xs rfl
    rw [filterSibling_self cmp x hs.1 b hal cur hpf]
    simp only
    have hal1 : (b.data ++ copiesOf [x]).length % 8 = 0 := by
      rw [copiesOf_eq_bodyItems, List.length_append]
      have := bodyItems_aligned [x]
      omega
    rw [filterSiblings_self cmp xs hs.2 ⟨b.data ++ copiesOf [x], b.frames⟩ hal1 cur.advance
      (fun y ys hy => by
        subst hy
        simp [Cursor.advance, hrest])]
    simp [copiesOf]
end

/-! ## Claim on idempotence -/

/-- C17 (the claim as stated fails): well-formed trees that `spa_pod_filter`
does not reproduce when the filter is a verbatim copy of the source, one for
each condition of the amended claim.  An Object with a Step property and one
with a Flags property fail with `-ENOTSUP`; an Enum without alternatives and an
Object with a repeated key fail with `-EINVAL`.  The other calls return 0 but
write a tree with other bytes than the source, and the difference is not a
choice kind: a plain `Int` value comes back wrapped in a Choice, property flags
5 and choice flags 9 come back as 0, an Enum default that is not an alternative
is replaced by the first alternative, a repeated Enum alternative is written
once per equal pair, a Range default outside the bounds is clamped, and the
values of a None after the first and of a Range after the third are dropped. -/
theorem self_filter_not_idempotent :
    selfFilter compareInt exFilterStep = (-ENOTSUP, Builder.empty, none) ∧
    selfFilter compareInt exFlagsTree = (-ENOTSUP, Builder.empty, none) ∧
    selfFilter compareInt (exObj [(7, 0, intChoice SPA_CHOICE_Enum 0 [4])]) =
      (-EINVAL, Builder.empty, none) ∧
    selfFilter compareInt (exObj [(7, 0, intChoice SPA_CHOICE_Enum 0 [2, 2, 4]),
                                  (7, 0, intChoice SPA_CHOICE_Enum 0 [6, 6, 8])]) =
      (-EINVAL, Builder.empty, none) ∧
    (selfFilter compareInt (exObj [(9, 0, .leaf SPA_TYPE_Int (int 3))]) =
        wrote (exObj [(9, 0, intChoice SPA_CHOICE_None 0 [3])]) ∧
      (exObj [(9, 0, intChoice SPA_CHOICE_None 0 [3])]).bytes ≠
        (exObj [(9, 0, .leaf SPA_TYPE_Int (int 3))]).bytes) ∧
    (selfFilter compareInt (exObj [(7, 5, intChoice SPA_CHOICE_Enum 0 [2, 2, 4])]) =
        wrote (exObj [(7, 0, intChoice SPA_CHOICE_Enum 0 [2, 2, 4])]) ∧
      (exObj [(7, 0, intChoice SPA_CHOICE_Enum 0 [2, 2, 4])]).bytes ≠
        (exObj [(7, 5, intChoice SPA_CHOICE_Enum 0 [2, 2, 4])]).bytes) ∧
    (selfFilter compareInt (exObj [(7, 0, intChoice SPA_CHOICE_Enum 9 [2, 2, 4])]) =
        wrote (exObj [(7, 0, intChoice SPA_CHOICE_Enum 0 [2, 2, 4])]) ∧
      (exObj [(7, 0, intChoice SPA_CHOICE_Enum 0 [2, 2, 4])]).bytes ≠
        (exObj [(7, 0, intChoice SPA_CHOICE_Enum 9 [2, 2, 4])]).bytes) ∧
    (selfFilter compareInt (exObj [(7, 0, intChoice SPA_CHOICE_Enum 0 [3, 2, 4])]) =
        wrote (exObj [(7, 0, intChoice SPA_CHOICE_Enum 0 [2, 2, 4])]) ∧
      (exObj [(7, 0, intChoice SPA_CHOICE_Enum 0 [2, 2, 4])]).bytes ≠
        (exObj [(7, 0, intChoice SPA_CHOICE_Enum 0 [3, 2, 4])]).bytes) ∧
    (selfFilter compareInt (exObj [(7, 0, intChoice SPA_CHOICE_Enum 0 [4, 4, 4])]) =
        wrote (exObj [(7, 0, intChoice SPA_CHOICE_Enum 0 [4, 4, 4, 4, 4])]) ∧
      (exObj [(7, 0, intChoice SPA_CHOICE_Enum 0 [4, 4, 4, 4, 4])]).bytes ≠
        (exObj [(7, 0, intChoice SPA_CHOICE_Enum 0 [4, 4, 4])]).bytes) ∧
    (selfFilter compareInt (exObj [(7, 0, intChoice SPA_CHOICE_Range 0 [5, 0, 3])]) =
        wrote (exObj [(7, 0, intChoice SPA_CHOICE_Range 0 [3, 0, 3])]) ∧
      (exObj [(7, 0, intChoice SPA_CHOICE_Range 0 [3, 0, 3])]).bytes ≠
        (exObj [(7, 0, intChoice SPA_CHOICE_Range 0 [5, 0, 3])]).bytes) ∧
    (selfFilter compareInt (exObj [(7, 0, intChoice SPA_CHOICE_None 0 [3, 4])]) =
        wrote (exObj [(7, 0, intChoice SPA_CHOICE_None 0 [3])]) ∧
      (exObj [(7, 0, intChoice SPA_CHOICE_None 0 [3])]).bytes ≠
        (exObj [(7, 0, intChoice SPA_CHOICE_None 0 [3, 4])]).bytes) ∧
    (selfFilter compareInt (exObj [(7, 0, intChoice SPA_CHOICE_Range 0 [2, 0, 10, 7])]) =
        wrote (exObj [(7, 0, intChoice SPA_CHOICE_Range 0 [2, 0, 10])]) ∧
      (exObj [(7, 0, intChoice SPA_CHOICE_Range 0 [2, 0, 10])]).bytes ≠
        (exObj [(7, 0, intChoice SPA_CHOICE_Range 0 [2, 0, 10, 7])]).bytes) :=
  ⟨by decide, by decide, by decide, by decide, ⟨by decide, by decide⟩,
    ⟨by decide, by decide⟩, ⟨by decide, by decide⟩, ⟨by decide, by decide⟩,
    ⟨by decide, by decide⟩, ⟨by decide, by decide⟩, ⟨by decide, by decide⟩,
    ⟨by decide, by decide⟩⟩

/-- C17 (amended): let `S` be a tree of leaves (PODs whose type is not Struct,
Object or Choice), Choice PODs that are direct siblings, Structs and Objects, in
which every Object has pairwise distinct keys and every property has property
flags 0 and as value a well-formed Choice with choice flags 0 that is `None`
with exactly one value, or `Enum` whose default is one of its pairwise distinct
alternatives, or `Range` with exactly `[d, min, max]` and `min <= d <= max`
(`SelfTree`); the comparator is such that the `None` value compares equal to
itself, two `Enum` alternatives compare equal exactly when they are the same
value, and a `Range` bound does not compare below itself.  On a builder at an
aligned offset `spa_pod_filter` of `S` against a verbatim copy of `S` returns 0,
refers to the pre-call offset and appends exactly the bytes of `S` with its
padding, which is the outcome of the call with a NULL filter: no choice kind is
changed.  A property whose value is a Choice of kind Step or Flags is outside
this class for a reason: `spa_pod_filter_prop` of such a property against itself
returns `-ENOTSUP`, whatever its values are. -/
theorem filter_self_copy (cmp : Nat → Bytes → Bytes → Int) (b : Builder)
    (result : Option Nat) (S : Pod) (beyond : List Pod)
    (hal : b.data.length % 8 = 0) (h : SelfTree cmp S) :
    spa_pod_filter cmp b result (some S) (some S) beyond =
      (0, { data := b.data ++ S.bytes ++ zeros (pad8 S.size), frames := b.frames },
        some b.offset) ∧
    spa_pod_filter cmp b result (some S) (some S) beyond =
      spa_pod_filter cmp b result (some S) none beyond ∧
    (∀ (b0 : Builder) (k f : Nat) (c : Choice),
      c.kind = SPA_CHOICE_Step ∨ c.kind = SPA_CHOICE_Flags →
      (spa_pod_filter_prop cmp b0 { key := k, flags := f, value := .choice c }
        { key := k, flags := f, value := .choice c }).1 = -ENOTSUP) := by
  have hs : SelfTrees cmp [S] := by
    unfold SelfTrees SelfTrees
    exact ⟨h, trivial⟩
  have hpart : spa_pod_filter_part cmp b [S] [S] beyond =
      (0, { data := b.data ++ copiesOf [S], frames := b.frames }) := by
    unfold spa_pod_filter_part
    exact filterSiblings_self cmp [S] hs b hal (Cursor.init [S] beyond)
      (fun x xs hx => by
        obtain ⟨h1, h2⟩ := List.cons.inj hx
        subst h1; subst h2
        exact ⟨rfl, rfl⟩)
  have hcopy : copiesOf [S] = S.bytes ++ zeros (pad8 S.size) := by simp [copiesOf]
  have hmain : spa_pod_filter cmp b result (some S) (some S) beyond =
      (0, { data := b.data ++ S.bytes ++ zeros (pad8 S.size), frames := b.frames },
        some b.offset) := by
    unfold spa_pod_filter
    simp only [hpart, show ¬ ((0 : Int) < 0) from by decide, if_false, hcopy,
      spa_pod_builder_deref, spa_pod_builder_get_state, List.append_assoc]
  refine ⟨hmain, ?_, ?_⟩
  · rw [hmain]
    simp [spa_pod_filter, spa_pod_builder_raw_padded, spa_pod_builder_deref, pod_bytes_length]
  · intro b0 k f c hk
    have hle : (spa_pod_get_values (Pod.choice c)).choice ≤ 4 := by
      rcases hk with h1 | h1 <;> simp [spa_pod_get_values, h1, SPA_CHOICE_Step, SPA_CHOICE_Flags]
    rw [filter_prop_notsup_result cmp b0 _ _ rfl rfl rfl hle hle
      (by
        rcases hk with h1 | h1
        · exact Or.inl h1
        · exact Or.inr (Or.inl h1))]

/-- Witness for C17 (amended): a Struct holding an `Int`, an Object with an
`Enum`, a `Range` and a `None` property, and a nested Struct comes back as it
is. -/
theorem filter_self_copy_witness :
    SelfTree compareInt exSelf ∧
    spa_pod_filter compareInt Builder.empty none (some exSelf) (some exSelf) [] =
      (0, { data := exSelf.bytes ++ zeros (pad8 exSelf.size), frames := [] }, some 0) :=
  ⟨by decide, (filter_self_copy compareInt Builder.empty none exSelf [] (by decide)
    (by decide)).1⟩

/-! ## Claim on the flags of the properties written -/

/-- C21: on a well-formed pair, whatever the property flags of the source and
the flags of its choice are, a successful `spa_pod_filter_prop` appends one
property that carries the source key, property flags 0 and a choice with choice
flags 0 (lines 123-124), and the call does not depend on the source's property
flags or choice flags at all.  A source property whose key the filter Object
does not have is appended by the loop of lines 269-277 as it is, with its own
flags, and the loop goes on from there. -/
theorem filter_prop_emits_zero_flags (cmp : Nat → Bytes → Bytes → Int) (b : Builder)
    (p1 p2 : PodProp) (hw : PairWF p1 p2) :
    ((spa_pod_filter_prop cmp b p1 p2).1 = 0 →
      ∃ c : Choice, c.flags = 0 ∧
        (spa_pod_filter_prop cmp b p1 p2).2 =
          { data := b.data ++ ((PodProp.mk p1.key 0 (.choice c)).bytes ++
              zeros (pad8 (b.data.length + (PodProp.mk p1.key 0 (.choice c)).bytes.length))),
            frames := b.frames }) ∧
    (∀ f : Nat, spa_pod_filter_prop cmp b { p1 with flags := f } p2 =
      spa_pod_filter_prop cmp b p1 p2) ∧
    (∀ (c1 : Choice) (g : Nat), p1.value = .choice c1 →
      spa_pod_filter_prop cmp b { p1 with value := .choice { c1 with flags := g } } p2 =
        spa_pod_filter_prop cmp b p1 p2) ∧
    (∀ (pf : Pod) (rest : List (Nat × Nat × Pod)) (res : Int),
      spa_pod_find_prop pf p1.key = none →
      filterProps cmp pf ((p1.key, p1.flags, p1.value) :: rest) res b =
        if res < 0 then
          (res, { data := b.data ++ (le32 p1.key ++ le32 p1.flags ++ p1.value.bytes) ++
                    zeros (pad8 (le32 p1.key ++ le32 p1.flags ++ p1.value.bytes).length),
                  frames := b.frames })
        else
          filterProps cmp pf rest res
            { data := b.data ++ (le32 p1.key ++ le32 p1.flags ++ p1.value.bytes) ++
                zeros (pad8 (le32 p1.key ++ le32 p1.flags ++ p1.value.bytes).length),
              frames := b.frames }) := by
  refine ⟨?_, ?_, ?_, ?_⟩
  · intro hok
    rcases filter_prop_closed cmp p1 p2 hw with ⟨e, he, hall⟩ | ⟨c, hfl, _, _, hall⟩
    · rw [hall b] at hok
      omega
    · exact ⟨c, hfl, by rw [hall b]; rfl⟩
  · intro f
    rfl
  · intro c1 g hv
    unfold spa_pod_filter_prop
    simp only [hv]
    rfl
  · intro pf rest res hnone
    simp only [filterProps, hnone, spa_pod_builder_raw_padded, PodProp.bytes]

/-- Witness for C21: the source property has property flags 5 and choice flags 9;
filtered by `Range [3,7]` it is written with key 7, property flags 0 and the
choice `Enum [4; 4, 6]` with choice flags 0. -/
theorem filter_prop_emits_zero_flags_witness :
    PairWF exFlagged (intChoiceProp 7 SPA_CHOICE_Range [5, 3, 7]) ∧
    (∃ c : Choice, c.flags = 0 ∧
      (spa_pod_filter_prop compareInt Builder.empty exFlagged
          (intChoiceProp 7 SPA_CHOICE_Range [5, 3, 7])).2 =
        { data := Builder.empty.data ++ ((PodProp.mk exFlagged.key 0 (.choice c)).bytes ++
            zeros (pad8 (Builder.empty.data.length +
              (PodProp.mk exFlagged.key 0 (.choice c)).bytes.length))),
          frames := Builder.empty.frames }) ∧
    spa_pod_filter_prop compareInt Builder.empty exFlagged
        (intChoiceProp 7 SPA_CHOICE_Range [5, 3, 7]) =
      (0, closedBuilder Builder.empty 7
        { kind := SPA_CHOICE_Enum, flags := 0, childType := SPA_TYPE_Int, childSize := 4
          values := [int 4, int 4, int 6] }) :=
  ⟨by decide,
   (filter_prop_emits_zero_flags compareInt Builder.empty exFlagged
      (intChoiceProp 7 SPA_CHOICE_Range [5, 3, 7]) (by decide)).1 (by decide),
   by decide⟩

end Spa
